import Mathlib

/-!
Shallow embedding of the marc_db batch reconciliation and ingestion engine
(`src/marc_db/ingest.py`, `src/marc_db/models.py`) for checking the
natural-language specification against the code.

Tabular data is modelled as lists of rows; a cell is `Option String`, with
`none` standing for a pandas null (`NaN`/`None`); `_as_python` maps `NaN` to
`None`, so every consumed value is already an `Option String` here.  The
SQLAlchemy session is modelled as an explicit `Store` value: ORM queries read
the current staged state (the session has `autoflush` on, so pending rows are
visible to every query), `session.add` appends to the matching table list, and
the surrounding transaction of `ingest_from_tsvs` either keeps the staged
store (commit) or restores the original (rollback).  Numeric scalars carried
by cells are kept as their decimal strings; `int(...)` coercion is modelled by
`String.toNat?`.  Date parsing (`pd.to_datetime(..., errors="coerce")`) is an
external pandas collaborator and is passed in as a function
`parse_date : Option String → Option String` (unparseable dates become null);
no property below depends on its behaviour.
-/

namespace MarcDb

/-- A pandas cell after `_as_python`: `none` is null (`NaN`). -/
abbrev Cell := Option String

/-- One row of a tabular batch: column name to cell value, in column order. -/
structure Row where
  cells : List (String × Cell)
deriving DecidableEq, Repr, Inhabited

/-- `col in row` (presence of a column label in the row's index). -/
def Row.has (r : Row) (c : String) : Bool :=
  (r.cells.find? (fun p => p.1 = c)).isSome

/-- `row[col]` when the column is present. -/
def Row.find? (r : Row) (c : String) : Option Cell :=
  (r.cells.find? (fun p => p.1 = c)).map Prod.snd

/-- `row.get(col)` (null when absent), composed with `_as_python`. -/
def Row.get (r : Row) (c : String) : Cell :=
  (r.find? c).getD none

/-- `row.get(col, default)` (default only when the column is absent),
composed with `_as_python`. -/
def Row.getD (r : Row) (c : String) (dflt : Cell) : Cell :=
  (r.find? c).getD dflt

/-- `pd.notna(row.get(col))`: true iff the column is present with a
non-null value. -/
def Row.notna (r : Row) (c : String) : Bool :=
  (r.get c).isSome

/-- A parsed tabular batch (`pd.read_csv(file, sep="\t")`). -/
structure DataFrame where
  columns : List String
  rows : List Row
deriving DecidableEq, Repr

/-- `col in df.columns`. -/
def DataFrame.hasCol (df : DataFrame) (c : String) : Bool :=
  c ∈ df.columns

/-- A data frame is well formed when every row is indexed exactly by the
frame's columns, as pandas guarantees for the frames `pd.read_csv` produces. -/
def DataFrame.Wf (df : DataFrame) : Prop :=
  ∀ r ∈ df.rows, r.cells.map Prod.fst = df.columns

instance (df : DataFrame) : Decidable df.Wf := by
  unfold DataFrame.Wf; infer_instance

/-- Whitespace for Python `str.strip` / pandas `str.strip`. -/
def py_space (c : Char) : Bool :=
  c = ' ' || c = '\t' || c = '\n' || c = '\r' || c = '\x0b' || c = '\x0c'

/-- Python `str.strip()` (structural, unlike the opaque `String.trim`). -/
def py_strip (s : String) : String :=
  ⟨((s.data.dropWhile py_space).reverse.dropWhile py_space).reverse⟩

/-- Lower-case one ASCII letter (Python `str.lower` on the answers the
confirmation prompt compares). -/
def py_lower_char (c : Char) : Char :=
  if 'A' ≤ c ∧ c ≤ 'Z' then Char.ofNat (c.toNat + 32) else c

/-- Python `str.lower()` (structural, unlike the opaque `String.toLower`). -/
def py_lower (s : String) : String :=
  ⟨s.data.map py_lower_char⟩

/-- Python `int(str)` on a non-negative decimal literal: the digits' value,
or failure on an empty or non-digit string (structural, unlike the opaque
`String.toNat?`). -/
def py_to_nat? (s : String) : Option Nat :=
  if s.data ≠ [] ∧ s.data.all Char.isDigit then
    some (s.data.foldl (fun n c => n * 10 + (c.toNat - 48)) 0)
  else none

/-- Column rename table of `_rename_columns` (`ingest.py` lines 44-62). -/
def rename_map : List (String × String) :=
  [("Number of Contigs", "contig_count"),
   ("Genome Size", "genome_size"),
   ("N50", "n50"),
   ("GC Content", "gc_content"),
   ("CDS", "cds"),
   ("CheckM_Completeness", "completeness"),
   ("CheckM_Contamination", "contamination"),
   ("Coverage", "avg_contig_coverage"),
   ("Schema", "st_schema"),
   ("ST", "st"),
   ("Alleles", "allele_assignment"),
   ("Mash_Contamination", "mash_contamination"),
   ("Contaminated_Spp", "mash_contaminated_spp"),
   ("Taxonomic_Abundance", "taxonomic_abundance"),
   ("Taxonomic_Classification", "taxonomic_classification"),
   ("Sample", "SampleID"),
   ("Run", "run_number")]

/-- Apply a rename table to one column label (only labels occurring in the
table are renamed; unknown labels pass through unchanged). -/
def applyRename (m : List (String × String)) (c : String) : String :=
  match m.find? (fun p => p.1 = c) with
  | some p => p.2
  | none => c

/-- `_rename_columns` (`ingest.py` lines 41-66): strip whitespace from the
column labels, then rename known aliases to canonical names.  The rename is
applied to the column index, hence also to every row's labels. -/
def rename_columns (df : DataFrame) : DataFrame :=
  { columns := df.columns.map (fun c => applyRename rename_map (py_strip c)),
    rows := df.rows.map (fun r =>
      ⟨r.cells.map (fun p => (applyRename rename_map (py_strip p.1), p.2))⟩) }

/-- Second rename table of `_ingest_amr_records` (`ingest.py` lines 552-559). -/
def amr_rename_map : List (String × String) :=
  [("Contig ID", "contig_id"),
   ("Gene Symbol", "gene_symbol"),
   ("Gene Name", "gene_name"),
   ("Accession of Closest Sequence", "accession"),
   ("Element Type", "element_type"),
   ("Resistance Product", "resistance_product")]

/-- Apply the AMR-specific rename (no whitespace strip: the code calls plain
`df.rename` on the already-normalized frame). -/
def rename_amr_columns (df : DataFrame) : DataFrame :=
  { columns := df.columns.map (applyRename amr_rename_map),
    rows := df.rows.map (fun r =>
      ⟨r.cells.map (fun p => (applyRename amr_rename_map p.1, p.2))⟩) }

/-! ### The data model (`src/marc_db/models.py`)

`models.py` under `src/` is stale relative to the rest of the repository: it
lacks the `Contaminant` class (imported by `ingest.py` and `mock.py`), the
`tool`/`classification`/`comment` columns of `TaxonomicAssignment` (written by
`_ingest_taxonomic_assignments` and read by `tests/test_assembly_ingest.py`),
and the `nanopore_path`/`ncbi_id` columns of `Assembly` (written by
`_ingest_assemblies`).  Those missing declarations are modelled from the spec
(§3) where noted; everything else follows `models.py`. -/

/-- `Isolate` (`models.py` lines 15-26): natural key `sample_id`. -/
structure Isolate where
  sample_id : Cell
  subject_id : Cell
  specimen_id : Cell
  suspected_organism : Cell
  special_collection : Cell
  received_date : Cell
  cryobanking_date : Cell
deriving DecidableEq, Repr

/-- `Aliquot` (`models.py` lines 29-43): unique on
(isolate_id, tube_barcode, box_name); the generated integer id plays no role
in the ingestion logic and is omitted. -/
structure Aliquot where
  isolate_id : Cell
  tube_barcode : Cell
  box_name : Cell
deriving DecidableEq, Repr

/-- `Assembly` (`models.py` lines 46-64) with generated `id`.
Modelled from the spec: the `nanopore_path` ("sequencer paths", §3) and
`ncbi_id` columns are written by `_ingest_assemblies` but missing from the
stale `models.py`. -/
structure Assembly where
  id : Nat
  isolate_id : Cell
  metagenomic_sample_id : Cell
  metagenomic_run_id : Cell
  nanopore_path : Cell
  run_number : Cell
  sunbeam_version : Cell
  sbx_sga_version : Cell
  sunbeam_output_path : Cell
  ncbi_id : Cell
deriving DecidableEq, Repr

/-- `AssemblyQC` (`models.py` lines 67-81): keyed by `assembly_id`
(one per assembly). -/
structure AssemblyQC where
  assembly_id : Nat
  contig_count : Cell
  genome_size : Cell
  n50 : Cell
  gc_content : Cell
  cds : Cell
  completeness : Cell
  contamination : Cell
  min_contig_coverage : Cell
  avg_contig_coverage : Cell
  max_contig_coverage : Cell
deriving DecidableEq, Repr

/-- `TaxonomicAssignment` (`models.py` lines 84-95).
Modelled from the spec: the `tool`, `classification` and `comment` columns are
written by `_ingest_taxonomic_assignments` and asserted by the tests but are
missing from the stale `models.py`; per §3 the relation is one-to-many per
assembly ("many per Assembly (one per calling tool)"), so `assembly_id` is
not a unique key here. -/
structure TaxonomicAssignment where
  assembly_id : Nat
  taxonomic_classification : Cell
  taxonomic_abundance : Cell
  mash_contamination : Cell
  mash_contaminated_spp : Cell
  st : Cell
  st_schema : Cell
  allele_assignment : Cell
  tool : Cell
  classification : Cell
  comment : Cell
deriving DecidableEq, Repr

/-- Modelled from the spec: the `Contaminant` model class is imported and
instantiated by `ingest.py` and `mock.py` but absent from the stale
`src/marc_db/models.py`.  Per §3: many per assembly, with attributes tool,
confidence/proportion, and contaminant classification. -/
structure Contaminant where
  assembly_id : Nat
  tool : Cell
  confidence : Cell
  classification : Cell
deriving DecidableEq, Repr

/-- `Antimicrobial` (`models.py` lines 98-109); the generated integer id plays
no role in the ingestion logic and is omitted. -/
structure Antimicrobial where
  assembly_id : Nat
  contig_id : Cell
  gene_symbol : Cell
  gene_name : Cell
  accession : Cell
  element_type : Cell
  resistance_product : Cell
deriving DecidableEq, Repr

/-- Table names of the persisted layout: the six `__tablename__` values of
`models.py` plus the contaminants table required by the `Contaminant` model
(modelled from the spec, see above). -/
def marc_table_names : List String :=
  ["isolates", "aliquots", "assemblies", "assembly_qc",
   "taxonomic_assignments", "contaminants", "antimicrobials"]

/-- The relational store as seen through one SQLAlchemy session: one list per
table, plus the autoincrement counter that `session.flush()` uses to assign
assembly ids. -/
structure Store where
  isolates : List Isolate
  aliquots : List Aliquot
  assemblies : List Assembly
  assembly_qcs : List AssemblyQC
  taxonomic_assignments : List TaxonomicAssignment
  contaminants : List Contaminant
  antimicrobials : List Antimicrobial
  nextAssemblyId : Nat
deriving DecidableEq, Repr

/-- The empty store. -/
def Store.empty : Store :=
  { isolates := [], aliquots := [], assemblies := [], assembly_qcs := [],
    taxonomic_assignments := [], contaminants := [], antimicrobials := [],
    nextAssemblyId := 1 }

/-- A store is well formed when every assembly id already persisted is below
the autoincrement counter (so freshly flushed assemblies get fresh ids). -/
def Store.Wf (s : Store) : Prop :=
  ∀ a ∈ s.assemblies, a.id < s.nextAssemblyId

instance (s : Store) : Decidable s.Wf := by
  unfold Store.Wf; infer_instance

/-! ### Errors and reports -/

/-- Fatal errors raised by the ingestion engine (each is a Python
`ValueError`/`TypeError` in the source; the payload is what the message
interpolates). -/
inductive IngestError where
  /-- `_ensure_required_columns` (`ingest.py` lines 91-94):
  "Missing required column(s): ..." listing every missing column. -/
  | missingColumns (missing : List String)
  /-- `_ingest_isolates` (`ingest.py` lines 124-126):
  "Inconsistent isolate information for sample_id {sample_id}". -/
  | inconsistentIsolate (sample_id : String)
  /-- `_parse_sample_column` (`ingest.py` line 101):
  "Could not find a sample identifier column (SampleID or Sample)". -/
  | noSampleColumn
  /-- `int(row["assembly_id"])` in `_lookup_assembly_id` (`ingest.py`
  line 372) on a null or non-numeric value. -/
  | badAssemblyId (value : Cell)
deriving DecidableEq, Repr

/-- Render a Python value the way an f-string does (`str(None) = "None"`). -/
def cellStr : Cell → String
  | some s => s
  | none => "None"

/-- The message carried by each error, mirroring the source f-strings. -/
def IngestError.message : IngestError → String
  | .missingColumns missing =>
      "Missing required column(s): " ++ String.intercalate ", " missing
  | .inconsistentIsolate sid =>
      "Inconsistent isolate information for sample_id " ++ sid
  | .noSampleColumn =>
      "Could not find a sample identifier column (SampleID or Sample)"
  | .badAssemblyId v => "invalid literal for int(): " ++ cellStr v

/-- The `report["isolates"]` entry (`ingest.py` lines 179-183). -/
structure IsolateReport where
  added : Nat
  aliquots_added : Nat
  duplicates : List String
deriving DecidableEq, Repr

/-- A `{"added": ..., "duplicates": ...}` entry for every other section. -/
structure SectionReport where
  added : Nat
  duplicates : List String
deriving DecidableEq, Repr

/-- The structured report returned by `ingest_from_tsvs`; a `none` section
was not part of the run. -/
structure Report where
  isolates : Option IsolateReport
  assemblies : Option SectionReport
  assembly_qcs : Option SectionReport
  taxonomic_assignments : Option SectionReport
  contaminants : Option SectionReport
  antimicrobials : Option SectionReport
deriving DecidableEq, Repr

/-- The report with no sections (initial `report = {}`). -/
def Report.empty : Report :=
  { isolates := none, assemblies := none, assembly_qcs := none,
    taxonomic_assignments := none, contaminants := none,
    antimicrobials := none }

/-- Total of the `added` counters over all sections of the report
(0 for absent sections), counting the aliquot inserts as well. -/
def Report.totalAdded (r : Report) : Nat :=
  (r.isolates.map (fun x => x.added + x.aliquots_added)).getD 0 +
  (r.assemblies.map SectionReport.added).getD 0 +
  (r.assembly_qcs.map SectionReport.added).getD 0 +
  (r.taxonomic_assignments.map SectionReport.added).getD 0 +
  (r.contaminants.map SectionReport.added).getD 0 +
  (r.antimicrobials.map SectionReport.added).getD 0

end MarcDb

namespace MarcDb

/-! ### Generic list helpers shared by the loops -/

/-- First-occurrence deduplication with an accumulator of already-seen keys
(the behaviour of `pandas.unique` / `drop_duplicates(keep="first")` /
the Python `set` guards in the loops). -/
def dedup_first_aux {α β : Type} [DecidableEq β] (key : α → β) :
    List α → List β → List α
  | [], _ => []
  | a :: l, seen =>
    if key a ∈ seen then dedup_first_aux key l seen
    else a :: dedup_first_aux key l (key a :: seen)

/-- First-occurrence deduplication by a key function. -/
def dedup_first {α β : Type} [DecidableEq β] (key : α → β) (l : List α) :
    List α :=
  dedup_first_aux key l []

/-- The distinct non-null keys of a row list, in order of first occurrence
(`df.groupby` group keys; pandas drops null keys). -/
def group_keys (key : Row → Cell) : List Row → List String → List String
  | [], _ => []
  | r :: rs, seen =>
    match key r with
    | some s =>
        if s ∈ seen then group_keys key rs seen
        else s :: group_keys key rs (s :: seen)
    | none => group_keys key rs seen

/-- `df.groupby(col)`: one group per distinct non-null key, each group holding
the rows carrying that key in frame order.  pandas yields groups in sorted key
order; first-occurrence order is used here, which no verified property
depends on (each group's content is order-independent). -/
def group_by (key : Row → Cell) (rows : List Row) :
    List (String × List Row) :=
  (group_keys key rows []).map (fun s => (s, rows.filter (fun r => key r = some s)))

/-! ### `_ingest_isolates` (`ingest.py` lines 104-183) -/

/-- The canonical isolate source columns (`ingest.py` lines 108-116). -/
def isolate_cols : List String :=
  ["SampleID", "Subject ID", "Specimen ID", "sample species",
   "special_collection", "Received by mARC", "Cryobanking"]

/-- Every required isolate/aliquot column
(`isolate_cols + ["Tube Barcode", "Box-name_position"]`, line 117). -/
def required_isolate_cols : List String :=
  isolate_cols ++ ["Tube Barcode", "Box-name_position"]

/-- The non-key isolate columns compared by the consistency check
(`group[isolate_cols].drop(columns=["SampleID"])`, line 122). -/
def isolate_value_cols : List String :=
  ["Subject ID", "Specimen ID", "sample species", "special_collection",
   "Received by mARC", "Cryobanking"]

/-- `subset.nunique(dropna=False) <= 1` for one column: all cells equal,
null counting as an ordinary value. -/
def allEqCell : List Cell → Bool
  | [] => true
  | c :: cs => cs.all (fun d => d = c)

/-- A sample-id group is inconsistent when some non-key column carries two
different values (`ingest.py` line 123). -/
def group_inconsistent (rows : List Row) : Bool :=
  isolate_value_cols.any (fun c => ¬ allEqCell (rows.map (fun r => r.get c)))

/-- The first sample id (in group order) whose rows are mutually
inconsistent, if any (`ingest.py` lines 119-126; only groups with at least
two rows are checked, per `df.duplicated(..., keep=False)`). -/
def find_inconsistent (df : DataFrame) : Option String :=
  ((group_by (fun r => r.get "SampleID") df.rows).find?
    (fun g => 2 ≤ g.2.length && group_inconsistent g.2)).map Prod.fst

/-- Build one `Isolate` from a deduplicated isolate row (`ingest.py`
lines 128-145); the two date columns go through the lenient date parser. -/
def mk_isolate (parse_date : Cell → Cell) (r : Row) : Isolate :=
  { sample_id := r.get "SampleID",
    subject_id := r.get "Subject ID",
    specimen_id := r.get "Specimen ID",
    suspected_organism := r.get "sample species",
    special_collection := r.get "special_collection",
    received_date := parse_date (r.get "Received by mARC"),
    cryobanking_date := parse_date (r.get "Cryobanking") }

/-- The isolate staging loop (`ingest.py` lines 153-158): skip sample ids
already in the store, add the rest. -/
def isolate_insert_loop (existing : List Cell) :
    List Isolate → Store → Nat → Store × Nat
  | [], s, added => (s, added)
  | i :: rest, s, added =>
    if i.sample_id ∈ existing then isolate_insert_loop existing rest s added
    else
      isolate_insert_loop existing rest
        { s with isolates := s.isolates ++ [i] } (added + 1)

/-- Build one `Aliquot` from a source row (`ingest.py` lines 160-161). -/
def mk_aliquot (r : Row) : Aliquot :=
  { tube_barcode := r.get "Tube Barcode",
    box_name := r.get "Box-name_position",
    isolate_id := r.get "SampleID" }

/-- The natural key of an aliquot (`ingest.py` line 169). -/
def Aliquot.key (a : Aliquot) : Cell × Cell × Cell :=
  (a.isolate_id, a.tube_barcode, a.box_name)

/-- The duplicate-report entry for a skipped aliquot (`ingest.py`
lines 171-173). -/
def aliquot_dup_msg (a : Aliquot) : String :=
  "aliquot " ++ cellStr a.isolate_id ++ ":" ++ cellStr a.tube_barcode ++ ":" ++
    cellStr a.box_name

/-- The aliquot staging loop (`ingest.py` lines 166-177): skip triples
already in the store or already added in this batch, add the rest. -/
def aliquot_insert_loop (existing : List (Cell × Cell × Cell)) :
    List Aliquot → Store → List (Cell × Cell × Cell) → Nat → List String →
      Store × Nat × List String
  | [], s, _, added, dups => (s, added, dups)
  | a :: rest, s, seen, added, dups =>
    if a.key ∈ existing ∨ a.key ∈ seen then
      aliquot_insert_loop existing rest s seen added (dups ++ [aliquot_dup_msg a])
    else
      aliquot_insert_loop existing rest
        { s with aliquots := s.aliquots ++ [a] } (a.key :: seen) (added + 1) dups

/-- The staged isolate rows: the source frame deduplicated on `SampleID`,
first occurrence kept (`isolate_df`, `ingest.py` lines 128-130). -/
def isolate_rows (df : DataFrame) : List Row :=
  dedup_first (fun r => r.get "SampleID") df.rows

/-- The staged isolates (`ingest.py` lines 128-145). -/
def isolates_of (parse_date : Cell → Cell) (df : DataFrame) : List Isolate :=
  (isolate_rows df).map (mk_isolate parse_date)

/-- `sample_ids = isolate_df["sample_id"].tolist()` (`ingest.py` line 147). -/
def batch_sample_ids (parse_date : Cell → Cell) (df : DataFrame) :
    List Cell :=
  (isolates_of parse_date df).map Isolate.sample_id

/-- The `existing_isolates` set (`ingest.py` lines 148-151), as the list of
matching sample ids in store order (the Python `set` iterates in arbitrary
order, on which no verified property depends). -/
def existing_isolate_sids (parse_date : Cell → Cell) (df : DataFrame)
    (store : Store) : List Cell :=
  (store.isolates.filter
    (fun i => i.sample_id ∈ batch_sample_ids parse_date df)).map
    Isolate.sample_id

/-- The aliquot rows of the batch (`ingest.py` lines 160-161). -/
def batch_aliquots (df : DataFrame) : List Aliquot :=
  df.rows.map mk_aliquot

/-- The `existing_aliquots` key set (`ingest.py` lines 162-165), read
through the session after the isolates were staged. -/
def existing_aliquot_keys (parse_date : Cell → Cell) (df : DataFrame)
    (s1 : Store) : List (Cell × Cell × Cell) :=
  (s1.aliquots.filter
    (fun a => a.isolate_id ∈ batch_sample_ids parse_date df)).map Aliquot.key

/-- `_ingest_isolates` (`ingest.py` lines 104-183).  Fails with
`missingColumns` when required columns are absent (line 117) and with
`inconsistentIsolate` when rows sharing a sample id disagree on a non-key
column (lines 119-126); otherwise stages one isolate per distinct sample id
not already stored, and one aliquot per row whose key triple is new; the
duplicates list starts as the existing sample ids (line 152). -/
def ingest_isolates (parse_date : Cell → Cell) (df : DataFrame)
    (store : Store) : Except IngestError (Store × IsolateReport) :=
  let missing := required_isolate_cols.filter (fun c => ¬ df.hasCol c)
  if missing ≠ [] then .error (.missingColumns missing)
  else match find_inconsistent df with
  | some sid => .error (.inconsistentIsolate sid)
  | none =>
    match isolate_insert_loop (existing_isolate_sids parse_date df store)
        (isolates_of parse_date df) store 0 with
    | (s1, added) =>
      match aliquot_insert_loop (existing_aliquot_keys parse_date df s1)
          (batch_aliquots df) s1 [] 0
          ((existing_isolate_sids parse_date df store).map cellStr) with
      | (s2, al_added, dups) =>
        .ok (s2,
          { added := added, aliquots_added := al_added, duplicates := dups })

end MarcDb

namespace MarcDb

/-! ### `_ingest_assemblies` (`ingest.py` lines 186-361) -/

/-- `_find_assembly_key` (`ingest.py` lines 186-189):
`(isolate_id, run_number or "")`. -/
def find_assembly_key (isolate_id : Cell) (run_number : Cell) : Cell × String :=
  (isolate_id, run_number.getD "")

/-- The duplicate key of an assembly, as used to build `existing_keys`
(`ingest.py` lines 213-216). -/
def Assembly.key (a : Assembly) : Cell × String :=
  find_assembly_key a.isolate_id a.run_number

/-- The `existing_keys` dict (`ingest.py` lines 213-216): assemblies whose
isolate id occurs in the batch, keyed by `(isolate_id, run_number or "")`;
a later assembly with the same key overwrites an earlier one, as in the dict
comprehension. -/
def existing_assembly_for (assemblies : List Assembly) (sample_ids : List Cell)
    (k : Cell × String) : Option Assembly :=
  ((assemblies.filter (fun a => a.isolate_id ∈ sample_ids)).filter
    (fun a => a.key = k)).getLast?

/-- The `assembly_lookup` dict (`ingest.py` line 220): sample id to the
`Assembly` object resolved for it in this run.  A fresh binding shadows an
older one, as in a Python dict assignment. -/
abbrev Lookup := List (String × Assembly)

/-- Dict read: the most recent binding for the key. -/
def lookup_find (l : Lookup) (s : String) : Option Assembly :=
  (l.find? (fun p => p.1 = s)).map Prod.snd

/-- Dict write (`assembly_lookup[sample_id] = asm`). -/
def lookup_insert (l : Lookup) (s : String) (a : Assembly) : Lookup :=
  (s, a) :: l

/-- `_parse_sample_column` (`ingest.py` lines 97-101): first of
`SampleID`, `Sample`, `sample_id` present in the frame. -/
def parse_sample_column (df : DataFrame) : Option String :=
  ["SampleID", "Sample", "sample_id"].find? (fun c => df.hasCol c)

/-- Truthiness of an optional string (`if config_file:`): null and the empty
string are falsy. -/
def truthy : Cell → Bool
  | some s => s ≠ ""
  | none => false

/-- `Path(p).parent` rendered as a string (enough of `pathlib` for
`_derive_sunbeam_output_path`). -/
def parent_dir (p : String) : String :=
  if '/' ∈ p.data then ⟨(((p.data.reverse.dropWhile (fun c => c ≠ '/')).drop 1)).reverse⟩
  else "." 

/-- `_derive_sunbeam_output_path` (`ingest.py` lines 26-38). -/
def derive_sunbeam_output_path (config_file sunbeam_output_path : Cell) :
    Cell :=
  if truthy sunbeam_output_path then sunbeam_output_path
  else if truthy config_file then
    some (parent_dir (config_file.getD "") ++ "/sunbeam_output")
  else none

/-- The QC columns probed in the assembly frame (`ingest.py` lines 230-241). -/
def qc_cols : List String :=
  ["contig_count", "genome_size", "n50", "gc_content", "cds", "completeness",
   "contamination", "min_contig_coverage", "avg_contig_coverage",
   "max_contig_coverage"]

/-- The embedded taxonomy columns (`ingest.py` lines 242-250). -/
def tax7_cols : List String :=
  ["taxonomic_classification", "taxonomic_abundance", "mash_contamination",
   "mash_contaminated_spp", "st", "st_schema", "allele_assignment"]

/-- The AMR gene columns (`ingest.py` lines 222-229 and 564-571). -/
def gene_cols : List String :=
  ["contig_id", "gene_symbol", "gene_name", "accession", "element_type",
   "resistance_product"]

/-- The per-call metadata overrides of `_ingest_assemblies`. -/
structure AssemblyParams where
  run_number : Cell
  sunbeam_version : Cell
  sbx_sga_version : Cell
  metagenomic_sample_id : Cell
  metagenomic_run_id : Cell
  config_file : Cell
  sunbeam_output_path : Cell
deriving DecidableEq, Repr

/-- Build one `AssemblyQC` from a row (`ingest.py` lines 293-313 and
415-428: both sites read the same columns). -/
def mk_qc (aid : Nat) (r : Row) : AssemblyQC :=
  { assembly_id := aid,
    contig_count := r.get "contig_count",
    genome_size := r.get "genome_size",
    n50 := r.get "n50",
    gc_content := r.get "gc_content",
    cds := r.get "cds",
    completeness := r.get "completeness",
    contamination := r.get "contamination",
    min_contig_coverage := r.get "min_contig_coverage",
    avg_contig_coverage := r.get "avg_contig_coverage",
    max_contig_coverage := r.get "max_contig_coverage" }

/-- The `tax_values` tuple of the embedded taxonomy path (`ingest.py`
line 318). -/
def embedded_tax_tuple (r : Row) : List Cell :=
  tax7_cols.map (fun c => r.get c)

/-- Build the embedded `TaxonomicAssignment` (`ingest.py` lines 325-336):
`tool`, `classification` and `comment` are not set on this path. -/
def mk_embedded_tax (aid : Nat) (r : Row) : TaxonomicAssignment :=
  { assembly_id := aid,
    taxonomic_classification := r.get "taxonomic_classification",
    taxonomic_abundance := r.get "taxonomic_abundance",
    mash_contamination := r.get "mash_contamination",
    mash_contaminated_spp := r.get "mash_contaminated_spp",
    st := r.get "st",
    st_schema := r.get "st_schema",
    allele_assignment := r.get "allele_assignment",
    tool := none, classification := none, comment := none }

/-- The `amr_tuple` of gene-column values (`ingest.py` lines 343 and 582). -/
def amr_tuple (r : Row) : List Cell :=
  gene_cols.map (fun c => r.get c)

/-- Build one `Antimicrobial` from a row (`ingest.py` lines 348-358 and
588-598). -/
def mk_amr (aid : Nat) (r : Row) : Antimicrobial :=
  { assembly_id := aid,
    contig_id := r.get "contig_id",
    gene_symbol := r.get "gene_symbol",
    gene_name := r.get "gene_name",
    accession := r.get "accession",
    element_type := r.get "element_type",
    resistance_product := r.get "resistance_product" }

/-- The embedded taxonomy loop over one assembly group (`ingest.py`
lines 316-336): in-batch dedup on the full 7-tuple, all-null rows skipped. -/
def embedded_tax_loop (aid : Nat) :
    List Row → Store → List (List Cell) → List String → Store × List String
  | [], s, _, dups => (s, dups)
  | r :: rest, s, seen, dups =>
    let tv := embedded_tax_tuple r
    if tv ∈ seen then
      embedded_tax_loop aid rest s seen
        (dups ++ ["taxonomic_assignment for " ++ toString aid])
    else if tv.all (fun v => v.isNone) then
      embedded_tax_loop aid rest s seen dups
    else
      embedded_tax_loop aid rest
        { s with taxonomic_assignments :=
            s.taxonomic_assignments ++ [mk_embedded_tax aid r] }
        (tv :: seen) dups

/-- The embedded AMR loop over one assembly group (`ingest.py`
lines 338-358): rows with no non-null gene field are skipped first, then
in-batch dedup on the gene tuple. -/
def embedded_amr_loop (aid : Nat) :
    List Row → Store → List (List Cell) → List String → Store × List String
  | [], s, _, dups => (s, dups)
  | r :: rest, s, seen, dups =>
    if ¬ gene_cols.any (fun c => r.notna c) then
      embedded_amr_loop aid rest s seen dups
    else
      let t := amr_tuple r
      if t ∈ seen then
        embedded_amr_loop aid rest s seen
          (dups ++ ["antimicrobial for " ++ toString aid])
      else
        embedded_amr_loop aid rest
          { s with antimicrobials := s.antimicrobials ++ [mk_amr aid r] }
          (t :: seen) dups

/-- The group key computed at the top of the assembly loop (`ingest.py`
lines 253-255). -/
def group_key (run_number : Cell) (g : String × List Row) : Cell × String :=
  find_assembly_key (some g.1) (g.2.headI.getD "run_number" run_number)

/-- The assembly staged for a new group (`ingest.py` lines 261-281), with
the id that the flush assigns from the autoincrement counter. -/
def staged_assembly (p : AssemblyParams) (resolved_output_path : Cell)
    (nextId : Nat) (g : String × List Row) : Assembly :=
  let first := g.2.headI
  { id := nextId,
    isolate_id := some g.1,
    metagenomic_sample_id :=
      first.getD "metagenomic_sample_id" p.metagenomic_sample_id,
    metagenomic_run_id :=
      first.getD "metagenomic_run_id" p.metagenomic_run_id,
    nanopore_path := first.get "nanopore_path",
    run_number := first.getD "run_number" p.run_number,
    sunbeam_version := first.getD "sunbeam_version" p.sunbeam_version,
    sbx_sga_version := first.getD "sbx_sga_version" p.sbx_sga_version,
    sunbeam_output_path :=
      first.getD "sunbeam_output_path" resolved_output_path,
    ncbi_id := first.get "ncbi_id" }

/-- The accumulating state of the assembly group loop. -/
structure AsmState where
  store : Store
  added : Nat
  duplicates : List String
  lookup : Lookup
deriving Repr

/-- The duplicate-report entry for a known assembly key (`ingest.py`
line 257): `run '(none)'` when the run component is empty (Python
`key[1] or '(none)'`). -/
def assembly_dup_msg (sid : String) (runPart : String) : String :=
  "assembly " ++ sid ++ " run " ++ (if runPart = "" then "(none)" else runPart)

/-- The embedded-QC step for a newly staged assembly (`ingest.py`
lines 287-313): run only when a QC column is present and no standalone QC
file was supplied; a pre-existing QC record for the assembly id soft-rejects
the values. -/
def embedded_qc_step (df : DataFrame) (include_qc : Bool) (aid : Nat)
    (first : Row) (s : Store) (dups : List String) : Store × List String :=
  if include_qc && qc_cols.any (fun c => df.hasCol c) then
    if (s.assembly_qcs.find? (fun q => q.assembly_id = aid)).isSome then
      (s, dups ++ ["assembly_qc " ++ toString aid])
    else ({ s with assembly_qcs := s.assembly_qcs ++ [mk_qc aid first] }, dups)
  else (s, dups)

/-- The embedded-taxonomy step for a newly staged assembly (`ingest.py`
lines 316-336). -/
def embedded_tax_step (df : DataFrame) (include_tax : Bool) (aid : Nat)
    (rows : List Row) (s : Store) (dups : List String) : Store × List String :=
  if include_tax && tax7_cols.any (fun c => df.hasCol c) then
    embedded_tax_loop aid rows s [] dups
  else (s, dups)

/-- The embedded-AMR step for a newly staged assembly (`ingest.py`
lines 338-358). -/
def embedded_amr_step (df : DataFrame) (include_amr : Bool) (aid : Nat)
    (rows : List Row) (s : Store) (dups : List String) : Store × List String :=
  if include_amr && gene_cols.any (fun c => df.hasCol c) then
    embedded_amr_loop aid rows s [] dups
  else (s, dups)

/-- The loop body for a group with no persisted key match (`ingest.py`
lines 261-358): the assembly is staged and flushed — receiving the next
generated id — and its embedded QC row, taxonomy rows and AMR rows are
staged when the matching columns are present and no standalone file covers
that entity type. -/
def new_assembly_state (df : DataFrame) (p : AssemblyParams)
    (resolved_output_path : Cell) (include_qc include_tax include_amr : Bool)
    (st : AsmState) (g : String × List Row) : AsmState :=
  let aid := st.store.nextAssemblyId
  let asm : Assembly := staged_assembly p resolved_output_path aid g
  let s1 := { st.store with
    assemblies := st.store.assemblies ++ [asm],
    nextAssemblyId := aid + 1 }
  let (s2, d2) := embedded_qc_step df include_qc aid g.2.headI s1 st.duplicates
  let (s3, d3) := embedded_tax_step df include_tax aid g.2 s2 d2
  let (s4, d4) := embedded_amr_step df include_amr aid g.2 s3 d3
  { store := s4, added := st.added + 1, duplicates := d4,
    lookup := lookup_insert st.lookup g.1 asm }

/-- One iteration of the assembly group loop (`ingest.py` lines 252-358):
a group whose `(isolate_id, run_number)` key is already persisted is reported
as a duplicate and its stored assembly recorded in the lookup — all embedded
QC/taxonomy/AMR values of the group are skipped; otherwise the group stages
a new assembly and its embedded values. -/
def assembly_group_step (df : DataFrame) (p : AssemblyParams)
    (resolved_output_path : Cell) (existing : Cell × String → Option Assembly)
    (include_qc include_tax include_amr : Bool) (st : AsmState)
    (g : String × List Row) : AsmState :=
  let key := group_key p.run_number g
  match existing key with
  | some asm =>
      { st with
        duplicates := st.duplicates ++ [assembly_dup_msg g.1 key.2],
        lookup := lookup_insert st.lookup g.1 asm }
  | none =>
    new_assembly_state df p resolved_output_path include_qc include_tax
      include_amr st g

/-- `_ingest_assemblies` (`ingest.py` lines 192-361): normalize columns,
locate the sample column (raising when none exists), then process the rows
grouped by sample id against the keys already persisted. -/
def ingest_assemblies (df0 : DataFrame) (p : AssemblyParams)
    (include_qc include_tax include_amr : Bool) (store : Store) :
    Except IngestError (Store × SectionReport × Lookup) :=
  let df := rename_columns df0
  match parse_sample_column df with
  | none => .error .noSampleColumn
  | some sample_col =>
    let sample_ids := dedup_first id (df.rows.map (fun r => r.get sample_col))
    let rop := derive_sunbeam_output_path p.config_file p.sunbeam_output_path
    let existing := fun k => existing_assembly_for store.assemblies sample_ids k
    let groups := group_by (fun r => r.get sample_col) df.rows
    let fin := groups.foldl
      (assembly_group_step df p rop existing include_qc include_tax include_amr)
      { store := store, added := 0, duplicates := [], lookup := [] }
    .ok (fin.store, { added := fin.added, duplicates := fin.duplicates },
      fin.lookup)

end MarcDb

namespace MarcDb

/-! ### `_lookup_assembly_id` (`ingest.py` lines 364-390) and the four
dependent-file ingesters -/

/-- `_lookup_assembly_id` (`ingest.py` lines 364-390): an explicit
`assembly_id` column wins when present (its value is coerced with `int`,
which raises on a null or non-numeric value); otherwise the per-run lookup
entry for the row's sample id wins; otherwise a unique store match on
`isolate_id`; otherwise, among several store matches, a unique match on
`run_number or ""`; otherwise the row is unresolved (`None`). -/
def lookup_assembly_id (r : Row) (lookup : Lookup) (store : Store)
    (sample_col : Option String) (run_number : Cell) :
    Except IngestError (Option Nat) :=
  if r.has "assembly_id" then
    match r.get "assembly_id" with
    | some v =>
        match py_to_nat? v with
        | some n => .ok (some n)
        | none => .error (.badAssemblyId (some v))
    | none => .error (.badAssemblyId none)
  else
    match sample_col with
    | none => .ok none
    | some sc =>
      if r.has sc then
        let sid := r.get sc
        match (match sid with | some s => lookup_find lookup s | none => none) with
        | some asm => .ok (some asm.id)
        | none =>
          let assemblies := store.assemblies.filter (fun a => a.isolate_id = sid)
          match assemblies with
          | [a] => .ok (some a.id)
          | [] => .ok none
          | _ =>
            match assemblies.filter
                (fun a => a.run_number.getD "" = run_number.getD "") with
            | [a] => .ok (some a.id)
            | _ => .ok none
      else .ok none

/-- The row loop of `_ingest_qc_records` (`ingest.py` lines 405-430):
unresolved rows are reported unmatched; a row whose assembly already has a QC
record (`session.get(AssemblyQC, assembly_id)`) is reported duplicate;
otherwise the QC record is staged. -/
def qc_row_loop (lookup : Lookup) (sample_col : Option String)
    (run_number : Cell) :
    List Row → Store → Nat → List String →
      Except IngestError (Store × Nat × List String)
  | [], s, added, dups => .ok (s, added, dups)
  | r :: rest, s, added, dups =>
    match lookup_assembly_id r lookup s sample_col run_number with
    | .error e => .error e
    | .ok none =>
        qc_row_loop lookup sample_col run_number rest s added
          (dups ++ ["unmatched assembly for QC"])
    | .ok (some aid) =>
      if (s.assembly_qcs.find? (fun q => q.assembly_id = aid)).isSome then
        qc_row_loop lookup sample_col run_number rest s added
          (dups ++ ["assembly_qc " ++ toString aid])
      else
        qc_row_loop lookup sample_col run_number rest
          { s with assembly_qcs := s.assembly_qcs ++ [mk_qc aid r] }
          (added + 1) dups

/-- `_ingest_qc_records` (`ingest.py` lines 393-431). -/
def ingest_qc_records (df0 : DataFrame) (lookup : Lookup) (run_number : Cell)
    (store : Store) : Except IngestError (Store × SectionReport) :=
  let df := rename_columns df0
  let sample_col := if df.hasCol "SampleID" then some "SampleID" else none
  match qc_row_loop lookup sample_col run_number df.rows store 0 [] with
  | .error e => .error e
  | .ok (s, added, dups) => .ok (s, { added := added, duplicates := dups })

/-- The ten columns of the standalone taxonomy `values` tuple (`ingest.py`
lines 444-455). -/
def tax10_cols : List String :=
  tax7_cols ++ ["tool", "classification", "comment"]

/-- The standalone taxonomy `values` tuple (`ingest.py` line 466). -/
def tax_tuple (r : Row) : List Cell :=
  tax10_cols.map (fun c => r.get c)

/-- Build one standalone `TaxonomicAssignment` (`ingest.py` lines 481-495). -/
def mk_tax (aid : Nat) (r : Row) : TaxonomicAssignment :=
  { assembly_id := aid,
    taxonomic_classification := r.get "taxonomic_classification",
    taxonomic_abundance := r.get "taxonomic_abundance",
    mash_contamination := r.get "mash_contamination",
    mash_contaminated_spp := r.get "mash_contaminated_spp",
    st := r.get "st",
    st_schema := r.get "st_schema",
    allele_assignment := r.get "allele_assignment",
    tool := r.get "tool",
    classification := r.get "classification",
    comment := r.get "comment" }

/-- The row loop of `_ingest_taxonomic_assignments` (`ingest.py`
lines 459-496): in-batch dedup on `(assembly_id, values)`, then a store
check on `(assembly_id, taxonomic_classification)` only (`values[0]`). -/
def tax_row_loop (lookup : Lookup) (sample_col : Option String)
    (run_number : Cell) :
    List Row → Store → List (Nat × List Cell) → Nat → List String →
      Except IngestError (Store × Nat × List String)
  | [], s, _, added, dups => .ok (s, added, dups)
  | r :: rest, s, seen, added, dups =>
    match lookup_assembly_id r lookup s sample_col run_number with
    | .error e => .error e
    | .ok none =>
        tax_row_loop lookup sample_col run_number rest s seen added
          (dups ++ ["unmatched assembly for taxonomic assignment"])
    | .ok (some aid) =>
      if (aid, tax_tuple r) ∈ seen then
        tax_row_loop lookup sample_col run_number rest s seen added
          (dups ++ ["taxonomic_assignment " ++ toString aid])
      else if (s.taxonomic_assignments.find? (fun t =>
          t.assembly_id == aid &&
            t.taxonomic_classification == r.get "taxonomic_classification")).isSome then
        tax_row_loop lookup sample_col run_number rest s seen added
          (dups ++ ["taxonomic_assignment " ++ toString aid])
      else
        tax_row_loop lookup sample_col run_number rest
          { s with taxonomic_assignments :=
              s.taxonomic_assignments ++ [mk_tax aid r] }
          ((aid, tax_tuple r) :: seen) (added + 1) dups

/-- `_ingest_taxonomic_assignments` (`ingest.py` lines 434-497). -/
def ingest_taxonomic_assignments (df0 : DataFrame) (lookup : Lookup)
    (run_number : Cell) (store : Store) :
    Except IngestError (Store × SectionReport) :=
  let df := rename_columns df0
  let sample_col := if df.hasCol "SampleID" then some "SampleID" else none
  match tax_row_loop lookup sample_col run_number df.rows store [] 0 [] with
  | .error e => .error e
  | .ok (s, added, dups) => .ok (s, { added := added, duplicates := dups })

/-- Build one `Contaminant` (`ingest.py` lines 530-537). -/
def mk_contaminant (aid : Nat) (r : Row) : Contaminant :=
  { assembly_id := aid,
    tool := r.get "tool",
    confidence := r.get "confidence",
    classification := r.get "classification" }

/-- The in-batch duplicate key of a contaminant (`ingest.py`
lines 520-525). -/
def Contaminant.key (c : Contaminant) : Nat × Cell × Cell × Cell :=
  (c.assembly_id, c.tool, c.confidence, c.classification)

/-- The row loop of `_ingest_contaminants` (`ingest.py` lines 513-538):
dedup on `(assembly_id, tool, confidence, classification)` is in-batch only —
there is no query against already-persisted contaminants. -/
def contaminant_row_loop (lookup : Lookup) (sample_col : Option String)
    (run_number : Cell) :
    List Row → Store → List (Nat × Cell × Cell × Cell) → Nat → List String →
      Except IngestError (Store × Nat × List String)
  | [], s, _, added, dups => .ok (s, added, dups)
  | r :: rest, s, seen, added, dups =>
    match lookup_assembly_id r lookup s sample_col run_number with
    | .error e => .error e
    | .ok none =>
        contaminant_row_loop lookup sample_col run_number rest s seen added
          (dups ++ ["unmatched assembly for contaminant"])
    | .ok (some aid) =>
      let values : Nat × Cell × Cell × Cell :=
        (aid, r.get "tool", r.get "confidence", r.get "classification")
      if values ∈ seen then
        contaminant_row_loop lookup sample_col run_number rest s seen added
          (dups ++ ["contaminant " ++ toString aid])
      else
        contaminant_row_loop lookup sample_col run_number rest
          { s with contaminants := s.contaminants ++ [mk_contaminant aid r] }
          (values :: seen) (added + 1) dups

/-- `_ingest_contaminants` (`ingest.py` lines 500-539). -/
def ingest_contaminants (df0 : DataFrame) (lookup : Lookup)
    (run_number : Cell) (store : Store) :
    Except IngestError (Store × SectionReport) :=
  let df := rename_columns df0
  let sample_col := if df.hasCol "SampleID" then some "SampleID" else none
  match contaminant_row_loop lookup sample_col run_number df.rows store [] 0 [] with
  | .error e => .error e
  | .ok (s, added, dups) => .ok (s, { added := added, duplicates := dups })

/-- The row loop of `_ingest_amr_records` (`ingest.py` lines 575-599):
dedup on `(assembly_id,) + amr_tuple` is in-batch only — there is no query
against already-persisted antimicrobials, and (unlike the embedded path of
`_ingest_assemblies`) no all-null gene-field skip. -/
def amr_row_loop (lookup : Lookup) (sample_col : Option String)
    (run_number : Cell) :
    List Row → Store → List (Nat × List Cell) → Nat → List String →
      Except IngestError (Store × Nat × List String)
  | [], s, _, added, dups => .ok (s, added, dups)
  | r :: rest, s, seen, added, dups =>
    match lookup_assembly_id r lookup s sample_col run_number with
    | .error e => .error e
    | .ok none =>
        amr_row_loop lookup sample_col run_number rest s seen added
          (dups ++ ["unmatched assembly for antimicrobial"])
    | .ok (some aid) =>
      if (aid, amr_tuple r) ∈ seen then
        amr_row_loop lookup sample_col run_number rest s seen added
          (dups ++ ["antimicrobial " ++ toString aid])
      else
        amr_row_loop lookup sample_col run_number rest
          { s with antimicrobials := s.antimicrobials ++ [mk_amr aid r] }
          ((aid, amr_tuple r) :: seen) (added + 1) dups

/-- `_ingest_amr_records` (`ingest.py` lines 542-600): the sample column is
determined before the AMR-specific header rename is applied. -/
def ingest_amr_records (df0 : DataFrame) (lookup : Lookup) (run_number : Cell)
    (store : Store) : Except IngestError (Store × SectionReport) :=
  let df1 := rename_columns df0
  let sample_col := if df1.hasCol "SampleID" then some "SampleID" else none
  let df := rename_amr_columns df1
  match amr_row_loop lookup sample_col run_number df.rows store [] 0 [] with
  | .error e => .error e
  | .ok (s, added, dups) => .ok (s, { added := added, duplicates := dups })

end MarcDb

namespace MarcDb

/-! ### `ingest_from_tsvs` (`ingest.py` lines 603-707) -/

/-- The arguments of one `ingest_from_tsvs` call: an optional parsed batch
per entity type, the shared metadata overrides, the `yes` flag, and the
answer the injected `input_fn` returns when the confirmation prompt is
shown. -/
structure IngestParams where
  isolates : Option DataFrame
  assemblies : Option DataFrame
  assembly_qcs : Option DataFrame
  taxonomic_assignments : Option DataFrame
  contaminants : Option DataFrame
  antimicrobials : Option DataFrame
  yes : Bool
  answer : String
  run_number : Cell
  sunbeam_version : Cell
  sbx_sga_version : Cell
  metagenomic_sample_id : Cell
  metagenomic_run_id : Cell
  config_file : Cell
  sunbeam_output_path : Cell
deriving DecidableEq, Repr

/-- The metadata overrides forwarded to `_ingest_assemblies`
(`ingest.py` lines 641-651). -/
def IngestParams.assemblyParams (p : IngestParams) : AssemblyParams :=
  { run_number := p.run_number,
    sunbeam_version := p.sunbeam_version,
    sbx_sga_version := p.sbx_sga_version,
    metagenomic_sample_id := p.metagenomic_sample_id,
    metagenomic_run_id := p.metagenomic_run_id,
    config_file := p.config_file,
    sunbeam_output_path := p.sunbeam_output_path }

/-- The isolate stage of the try-block (`ingest.py` lines 638-639). -/
def stage_isolates (parse_date : Cell → Cell) (p : IngestParams)
    (store : Store) : Except IngestError (Store × Option IsolateReport) :=
  match p.isolates with
  | none => .ok (store, none)
  | some df =>
    match ingest_isolates parse_date df store with
    | .error e => .error e
    | .ok (s, r) => .ok (s, some r)

/-- The assembly stage (`ingest.py` lines 640-655): the embedded QC,
taxonomy and AMR columns of the assembly file are honoured only when no
standalone file of that kind was supplied. -/
def stage_assemblies (p : IngestParams) (store : Store) :
    Except IngestError (Store × Option SectionReport × Lookup) :=
  match p.assemblies with
  | none => .ok (store, none, [])
  | some df =>
    match ingest_assemblies df p.assemblyParams p.assembly_qcs.isNone
        p.taxonomic_assignments.isNone p.antimicrobials.isNone store with
    | .error e => .error e
    | .ok (s, r, l) => .ok (s, some r, l)

/-- The QC stage (`ingest.py` lines 656-663). -/
def stage_qc (p : IngestParams) (lookup : Lookup) (store : Store) :
    Except IngestError (Store × Option SectionReport) :=
  match p.assembly_qcs with
  | none => .ok (store, none)
  | some df =>
    match ingest_qc_records df lookup p.run_number store with
    | .error e => .error e
    | .ok (s, r) => .ok (s, some r)

/-- The taxonomy stage (`ingest.py` lines 664-671). -/
def stage_tax (p : IngestParams) (lookup : Lookup) (store : Store) :
    Except IngestError (Store × Option SectionReport) :=
  match p.taxonomic_assignments with
  | none => .ok (store, none)
  | some df =>
    match ingest_taxonomic_assignments df lookup p.run_number store with
    | .error e => .error e
    | .ok (s, r) => .ok (s, some r)

/-- The contaminant stage (`ingest.py` lines 672-679). -/
def stage_contaminants (p : IngestParams) (lookup : Lookup) (store : Store) :
    Except IngestError (Store × Option SectionReport) :=
  match p.contaminants with
  | none => .ok (store, none)
  | some df =>
    match ingest_contaminants df lookup p.run_number store with
    | .error e => .error e
    | .ok (s, r) => .ok (s, some r)

/-- The antimicrobial stage (`ingest.py` lines 680-687). -/
def stage_amr (p : IngestParams) (lookup : Lookup) (store : Store) :
    Except IngestError (Store × Option SectionReport) :=
  match p.antimicrobials with
  | none => .ok (store, none)
  | some df =>
    match ingest_amr_records df lookup p.run_number store with
    | .error e => .error e
    | .ok (s, r) => .ok (s, some r)

/-- The whole try-block of `ingest_from_tsvs` before the confirmation
decision (`ingest.py` lines 636-688): the six stages in their fixed order,
each threading the staged store, with the assembly lookup carried from the
assembly stage to every dependent stage. -/
def stage_all (parse_date : Cell → Cell) (p : IngestParams) (store : Store) :
    Except IngestError (Store × Report) :=
  match stage_isolates parse_date p store with
  | .error e => .error e
  | .ok (s1, riso) =>
    match stage_assemblies p s1 with
    | .error e => .error e
    | .ok (s2, rasm, lookup) =>
      match stage_qc p lookup s2 with
      | .error e => .error e
      | .ok (s3, rqc) =>
        match stage_tax p lookup s3 with
        | .error e => .error e
        | .ok (s4, rtax) =>
          match stage_contaminants p lookup s4 with
          | .error e => .error e
          | .ok (s5, rcon) =>
            match stage_amr p lookup s5 with
            | .error e => .error e
            | .ok (s6, ramr) =>
              .ok (s6,
                { isolates := riso, assemblies := rasm, assembly_qcs := rqc,
                  taxonomic_assignments := rtax, contaminants := rcon,
                  antimicrobials := ramr })

/-- The confirmation decision (`ingest.py` lines 693-694):
`answer.strip().lower() in {"y", "yes"}`. -/
def confirm_answer (answer : String) : Bool :=
  py_lower (py_strip answer) == "y" || py_lower (py_strip answer) == "yes"

/-- `proceed` (`ingest.py` lines 691-694): the `yes` flag short-circuits the
prompt; otherwise the injected `input_fn` answer decides. -/
def proceeds (p : IngestParams) : Bool :=
  p.yes || confirm_answer p.answer

/-- The observable outcome of one `ingest_from_tsvs` run:
the committed staged store, or the original store after a rollback caused by
a declined confirmation, or the original store after a rollback caused by an
exception that then propagates to the caller. -/
inductive IngestOutcome where
  | committed (store : Store) (report : Report)
  | cancelled (store : Store) (report : Report)
  | error (e : IngestError) (store : Store)
deriving DecidableEq, Repr

/-- The store state visible after the run, whichever way it ended. -/
def IngestOutcome.store : IngestOutcome → Store
  | .committed s _ => s
  | .cancelled s _ => s
  | .error _ s => s

/-- `ingest_from_tsvs` (`ingest.py` lines 603-707): run the staging
try-block inside one transaction; commit the staged store only on an
affirmative decision; on a negative decision roll the transaction back
(returning the report); on any staging exception roll back and re-raise. -/
def ingest_from_tsvs (parse_date : Cell → Cell) (p : IngestParams)
    (store : Store) : IngestOutcome :=
  match stage_all parse_date p store with
  | .error e => .error e store
  | .ok (staged, report) =>
    if proceeds p then .committed staged report
    else .cancelled store report

end MarcDb

namespace MarcDb

/-! ### Derived observations used by the verified properties -/

/-- Whether the run ended in a propagated exception. -/
def IngestOutcome.isError : IngestOutcome → Bool
  | .error _ _ => true
  | _ => false

/-- All six gene fields of an antimicrobial record are null. -/
def Antimicrobial.allGeneNull (m : Antimicrobial) : Bool :=
  m.contig_id.isNone && m.gene_symbol.isNone && m.gene_name.isNone &&
    m.accession.isNone && m.element_type.isNone && m.resistance_product.isNone

/-- The duplicate key of an antimicrobial record:
`(assembly_id,) + amr_tuple` (`ingest.py` line 583). -/
def Antimicrobial.key (m : Antimicrobial) : Nat × List Cell :=
  (m.assembly_id,
   [m.contig_id, m.gene_symbol, m.gene_name, m.accession, m.element_type,
    m.resistance_product])

/-- The full value tuple of a taxonomic assignment, in `tax10_cols` order. -/
def TaxonomicAssignment.fullTuple (t : TaxonomicAssignment) : List Cell :=
  [t.taxonomic_classification, t.taxonomic_abundance, t.mash_contamination,
   t.mash_contaminated_spp, t.st, t.st_schema, t.allele_assignment, t.tool,
   t.classification, t.comment]

/-- The declared referential-integrity constraints of the schema: every
`isolate_id` of an aliquot or assembly references a persisted isolate, and
every `assembly_id` of a dependent row references a persisted assembly
(the `ForeignKey` declarations of `models.py`, plus the spec-modelled
contaminants relation). -/
def Store.fkOk (s : Store) : Bool :=
  s.aliquots.all (fun a => s.isolates.any (fun i => i.sample_id == a.isolate_id)) &&
  s.assemblies.all (fun a => s.isolates.any (fun i => i.sample_id == a.isolate_id)) &&
  s.assembly_qcs.all (fun q => s.assemblies.any (fun a => a.id == q.assembly_id)) &&
  s.taxonomic_assignments.all (fun t => s.assemblies.any (fun a => a.id == t.assembly_id)) &&
  s.contaminants.all (fun c => s.assemblies.any (fun a => a.id == c.assembly_id)) &&
  s.antimicrobials.all (fun m => s.assemblies.any (fun a => a.id == m.assembly_id))

/-- The resolution policy exactly as the spec states it (§4.3 clause for
dependent rows, §9 "ranked-candidate resolution"): (a) an explicit assembly
identifier column wins if present; (b) otherwise a unique `sample_id` match
among the union of the assemblies resolved in this ingestion (the per-run
lookup) and the store; (c) among several such candidates, a unique
`run_number` match; otherwise no assembly (orphan).  Candidates are a set:
the same assembly reached through the lookup and through the store counts
once (deduplicated on its id). -/
def claimed_ranked_resolution (r : Row) (lookup : Lookup) (store : Store)
    (sample_col : Option String) (run_number : Cell) :
    Except IngestError (Option Nat) :=
  if r.has "assembly_id" then
    match r.get "assembly_id" with
    | some v =>
        match py_to_nat? v with
        | some n => .ok (some n)
        | none => .error (.badAssemblyId (some v))
    | none => .error (.badAssemblyId none)
  else
    match sample_col with
    | none => .ok none
    | some sc =>
      if r.has sc then
        let sid := r.get sc
        let viaLookup :=
          match sid with | some s => lookup_find lookup s | none => none
        let candidates := dedup_first Assembly.id
          (viaLookup.toList ++ store.assemblies.filter (fun a => a.isolate_id = sid))
        match candidates with
        | [a] => .ok (some a.id)
        | [] => .ok none
        | _ =>
          match candidates.filter
              (fun a => a.run_number.getD "" = run_number.getD "") with
          | [a] => .ok (some a.id)
          | _ => .ok none
      else .ok none

/-! ### Concrete fixtures for the witnesses and counterexamples -/

/-- A minimal isolate record. -/
def sample_isolate (sid : String) : Isolate :=
  { sample_id := some sid, subject_id := some "1", specimen_id := some "1",
    suspected_organism := none, special_collection := none,
    received_date := none, cryobanking_date := none }

/-- A minimal assembly record. -/
def sample_assembly (aid : Nat) (sid : String) (run : Cell) : Assembly :=
  { id := aid, isolate_id := some sid, metagenomic_sample_id := none,
    metagenomic_run_id := none, nanopore_path := none, run_number := run,
    sunbeam_version := none, sbx_sga_version := none,
    sunbeam_output_path := none, ncbi_id := none }

/-- An `ingest_from_tsvs` call with no inputs, `yes=True` and no metadata
overrides; the fixtures below override individual fields. -/
def base_params : IngestParams :=
  { isolates := none, assemblies := none, assembly_qcs := none,
    taxonomic_assignments := none, contaminants := none,
    antimicrobials := none, yes := true, answer := "",
    run_number := none, sunbeam_version := none, sbx_sga_version := none,
    metagenomic_sample_id := none, metagenomic_run_id := none,
    config_file := none, sunbeam_output_path := none }

/-- A store holding one isolate `s1` with one assembly (id 1). -/
def one_assembly_store : Store :=
  { Store.empty with
    isolates := [sample_isolate "s1"],
    assemblies := [sample_assembly 1 "s1" none],
    nextAssemblyId := 2 }

/-- A one-row standalone AMR batch for sample `s1` with one gene symbol. -/
def c2_amr_df : DataFrame :=
  { columns := ["SampleID", "gene_symbol"],
    rows := [⟨[("SampleID", some "s1"), ("gene_symbol", some "blaX")]⟩] }

/-- Confirmed ingestion of only the standalone AMR batch. -/
def c2_params : IngestParams :=
  { base_params with antimicrobials := some c2_amr_df }

/-- A full isolate-file row. -/
def iso_row (sid subj tube : String) : Row :=
  ⟨[("SampleID", some sid), ("Subject ID", some subj),
    ("Specimen ID", some "1"), ("sample species", some "X"),
    ("special_collection", none), ("Received by mARC", none),
    ("Cryobanking", none), ("Tube Barcode", some tube),
    ("Box-name_position", some "B1")]⟩

/-- The isolate-file column list. -/
def iso_columns : List String :=
  ["SampleID", "Subject ID", "Specimen ID", "sample species",
   "special_collection", "Received by mARC", "Cryobanking", "Tube Barcode",
   "Box-name_position"]

/-- One isolate row for `s1` whose `Subject ID` is 2, conflicting with the
stored isolate of `one_assembly_store` (whose subject id is 1). -/
def c5_df : DataFrame :=
  { columns := iso_columns, rows := [iso_row "s1" "2" "T9"] }

/-- Confirmed ingestion of only the conflicting isolate batch. -/
def c5_params : IngestParams := { base_params with isolates := some c5_df }

/-- Two in-batch rows for `s2` disagreeing on `Subject ID`. -/
def c5_batch_df : DataFrame :=
  { columns := iso_columns, rows := [iso_row "s2" "1" "T1", iso_row "s2" "2" "T2"] }

/-- A taxonomy batch with two distinct classifications for sample `s1`. -/
def c4_df : DataFrame :=
  { columns := ["SampleID", "Taxonomic_Classification"],
    rows := [⟨[("SampleID", some "s1"), ("Taxonomic_Classification", some "E.coli")]⟩,
             ⟨[("SampleID", some "s1"), ("Taxonomic_Classification", some "K.pneu")]⟩] }

/-- The staged store of the coexistence run of `c4_df` (empty store when the
run errors, which it does not). -/
def c4_result : Store :=
  match ingest_taxonomic_assignments c4_df [] none one_assembly_store with
  | .ok (s, _) => s
  | .error _ => Store.empty

/-- Two assemblies for `s1` differing only by run number. -/
def c6_asm1 : Assembly := sample_assembly 1 "s1" (some "1")

/-- The second of the two (see `c6_asm1`). -/
def c6_asm2 : Assembly := sample_assembly 2 "s1" (some "2")

/-- A store holding both `c6_asm1` and `c6_asm2`. -/
def c6_store : Store :=
  { Store.empty with
    isolates := [sample_isolate "s1"],
    assemblies := [c6_asm1, c6_asm2], nextAssemblyId := 3 }

/-- A dependent-file row carrying only a sample id (no run-number column,
no explicit assembly id). -/
def c6_row : Row := ⟨[("SampleID", some "s1")]⟩

/-- A one-row AMR batch whose explicit `assembly_id` column carries `v`. -/
def c7_amr_df (v : String) : DataFrame :=
  { columns := ["assembly_id"], rows := [⟨[("assembly_id", some v)]⟩] }

/-- Confirmed ingestion of only `c7_amr_df v`. -/
def c7_params (v : String) : IngestParams :=
  { base_params with antimicrobials := some (c7_amr_df v) }

/-- A one-row standalone AMR batch for `s1` with no gene column at all
(all six gene fields null). -/
def c8_null_df : DataFrame :=
  { columns := ["SampleID"], rows := [⟨[("SampleID", some "s1")]⟩] }

/-- An isolate batch lacking every required column except `SampleID`. -/
def c9_df : DataFrame :=
  { columns := ["SampleID"], rows := [⟨[("SampleID", some "s1")]⟩] }

/-- Ingestion of the deficient isolate batch `c9_df`. -/
def c9_params : IngestParams := { base_params with isolates := some c9_df }

/-- An assembly batch whose single group `(s1, run 1)` collides with the
assembly already stored in `c10_store`, while carrying embedded QC, taxonomy
and AMR values that are not yet persisted anywhere. -/
def c10_df : DataFrame :=
  { columns := ["SampleID", "run_number", "Number of Contigs",
                "Taxonomic_Classification", "contig_id"],
    rows := [⟨[("SampleID", some "s1"), ("run_number", some "1"),
               ("Number of Contigs", some "7"),
               ("Taxonomic_Classification", some "E.coli"),
               ("contig_id", some "c7")]⟩] }

/-- A store already holding the `(s1, run 1)` assembly. -/
def c10_store : Store :=
  { Store.empty with
    isolates := [sample_isolate "s1"],
    assemblies := [sample_assembly 1 "s1" (some "1")],
    nextAssemblyId := 2 }

end MarcDb

namespace MarcDb

/-- A contaminants batch with one in-batch duplicate row and two distinct
keys for sample `s1`. -/
def c3_df : DataFrame :=
  { columns := ["SampleID", "tool", "confidence", "classification"],
    rows := [⟨[("SampleID", some "s1"), ("tool", some "mash"),
               ("confidence", some "99"), ("classification", some "E.coli")]⟩,
             ⟨[("SampleID", some "s1"), ("tool", some "mash"),
               ("confidence", some "99"), ("classification", some "E.coli")]⟩,
             ⟨[("SampleID", some "s1"), ("tool", some "mash"),
               ("confidence", some "99"), ("classification", some "K.pneu")]⟩] }

/-- The antimicrobial record staged for the `c2_amr_df` row. -/
def c2_amr1 : Antimicrobial :=
  { assembly_id := 1, contig_id := none, gene_symbol := some "blaX",
    gene_name := none, accession := none, element_type := none,
    resistance_product := none }

/-- The store committed by the first confirmed AMR run of `c2_params`. -/
def c2_store1 : Store :=
  { one_assembly_store with antimicrobials := [c2_amr1] }

/-- An isolate batch with one `s1` row, for the C2 witness. -/
def c2w_iso_df : DataFrame :=
  { columns := iso_columns, rows := [iso_row "s1" "1" "T1"] }

/-- An assembly batch with one `s1` row carrying an embedded QC value, for
the C2 witness. -/
def c2w_asm_df : DataFrame :=
  { columns := ["SampleID", "run_number", "Number of Contigs"],
    rows := [⟨[("SampleID", some "s1"), ("run_number", some "1"),
               ("Number of Contigs", some "5")]⟩] }

/-- A confirmed run over isolates and assemblies only (no contaminants, no
antimicrobials). -/
def c2w_params : IngestParams :=
  { base_params with
    isolates := some c2w_iso_df,
    assemblies := some c2w_asm_df }

/-- The store committed by the first run of `c2w_params` on the empty
store. -/
def c2w_store1 : Store :=
  { isolates := [{ sample_id := some "s1",
                   subject_id := some "1",
                   specimen_id := some "1",
                   suspected_organism := some "X",
                   special_collection := none,
                   received_date := none,
                   cryobanking_date := none }],
    aliquots := [{ tube_barcode := some "T1",
                   box_name := some "B1",
                   isolate_id := some "s1" }],
    assemblies := [{ id := 1,
                     isolate_id := some "s1",
                     metagenomic_sample_id := none,
                     metagenomic_run_id := none,
                     nanopore_path := none,
                     run_number := some "1",
                     sunbeam_version := none,
                     sbx_sga_version := none,
                     sunbeam_output_path := none,
                     ncbi_id := none }],
    assembly_qcs := [{ assembly_id := 1,
                       contig_count := some "5",
                       genome_size := none,
                       n50 := none,
                       gc_content := none,
                       cds := none,
                       completeness := none,
                       contamination := none,
                       min_contig_coverage := none,
                       avg_contig_coverage := none,
                       max_contig_coverage := none }],
    taxonomic_assignments := [], contaminants := [], antimicrobials := [],
    nextAssemblyId := 2 }

/-- The report of the first run of `c2w_params`. -/
def c2w_rep1 : Report :=
  { isolates := some { added := 1, aliquots_added := 1, duplicates := [] },
    assemblies := some { added := 1, duplicates := [] },
    assembly_qcs := none, taxonomic_assignments := none,
    contaminants := none, antimicrobials := none }

/-- Decidable equality of staging results, for evaluating the concrete
witnesses below. -/
instance {ε α : Type} [DecidableEq ε] [DecidableEq α] :
    DecidableEq (Except ε α)
  | .ok a, .ok b =>
      if h : a = b then .isTrue (by rw [h]) else .isFalse (by simp [h])
  | .error a, .error b =>
      if h : a = b then .isTrue (by rw [h]) else .isFalse (by simp [h])
  | .ok _, .error _ => .isFalse (by simp)
  | .error _, .ok _ => .isFalse (by simp)

/-! ### C1: transactional atomicity of `ingest_from_tsvs` -/

/-- Claim C1: every run of `ingest_from_tsvs` is atomic — a staging exception
propagates to the caller with the store exactly as before the run; a negative
confirmation decision leaves the store exactly as before the run (returning
the report); and in every case the visible store is either the untouched
original or the fully committed staged change-set of all entity types, so no
run persists rows for some entity types but not others. -/
theorem c1_rollback_atomic (pd : Cell → Cell) (p : IngestParams)
    (store : Store) :
    (∀ e, stage_all pd p store = .error e →
      ingest_from_tsvs pd p store = .error e store) ∧
    (proceeds p = false → ∀ staged rep, stage_all pd p store = .ok (staged, rep) →
      ingest_from_tsvs pd p store = .cancelled store rep) ∧
    ((ingest_from_tsvs pd p store).store = store ∨
      ∃ rep, ingest_from_tsvs pd p store =
          .committed (ingest_from_tsvs pd p store).store rep ∧
        proceeds p = true ∧
        stage_all pd p store = .ok ((ingest_from_tsvs pd p store).store, rep)) := by
  refine ⟨?_, ?_, ?_⟩
  · intro e he
    simp [ingest_from_tsvs, he]
  · intro hp staged rep hok
    simp [ingest_from_tsvs, hok, hp]
  · unfold ingest_from_tsvs
    cases h : stage_all pd p store with
    | error e => simp [IngestOutcome.store]
    | ok pr =>
      obtain ⟨staged, rep⟩ := pr
      by_cases hp : proceeds p = true
      · right
        exact ⟨rep, by simp [hp, IngestOutcome.store], hp, by simp [hp, IngestOutcome.store]⟩
      · left
        simp [Bool.not_eq_true] at hp
        simp [hp, IngestOutcome.store]

/-- Witness for C1 at a concrete input: a declined confirmation after staging
one antimicrobial row leaves the store untouched. -/
theorem c1_rollback_atomic_witness :
    ingest_from_tsvs id
        { c2_params with yes := false, answer := "n" } one_assembly_store =
      .cancelled one_assembly_store
        { isolates := none, assemblies := none, assembly_qcs := none,
          taxonomic_assignments := none, contaminants := none,
          antimicrobials := some { added := 1, duplicates := [] } } :=
  (c1_rollback_atomic id
      { c2_params with yes := false, answer := "n" } one_assembly_store).2.1
    (by decide)
    { one_assembly_store with
      antimicrobials :=
        [{ assembly_id := 1, contig_id := none, gene_symbol := some "blaX",
           gene_name := none, accession := none, element_type := none,
           resistance_product := none }] }
    _ (by decide)

/-! ### C9: missing required isolate columns -/

/-- Claim C9: when required canonical isolate columns are absent, the run
fails with the schema error naming every missing required column (not only
the first), before any row is processed or any record staged — the store
comes back exactly as it was. -/
theorem c9_schema_error_names_all (pd : Cell → Cell) (p : IngestParams)
    (df : DataFrame) (store : Store) (hdf : p.isolates = some df)
    (hmiss : required_isolate_cols.filter (fun c => ¬ df.hasCol c) ≠ []) :
    ingest_from_tsvs pd p store =
      .error
        (.missingColumns (required_isolate_cols.filter (fun c => ¬ df.hasCol c)))
        store ∧
    (∀ c ∈ required_isolate_cols, ¬ df.hasCol c →
      c ∈ required_isolate_cols.filter (fun c => ¬ df.hasCol c)) ∧
    (ingest_from_tsvs pd p store).store = store := by
  have herr : ingest_isolates pd df store =
      .error (.missingColumns
        (required_isolate_cols.filter (fun c => ¬ df.hasCol c))) := by
    unfold ingest_isolates
    rw [if_pos hmiss]
  have hrun : ingest_from_tsvs pd p store =
      .error
        (.missingColumns (required_isolate_cols.filter (fun c => ¬ df.hasCol c)))
        store := by
    simp [ingest_from_tsvs, stage_all, stage_isolates, hdf, herr]
  refine ⟨hrun, ?_, by rw [hrun]; rfl⟩
  intro c hc hnc
  exact List.mem_filter.mpr ⟨hc, by simpa using hnc⟩

/-- Witness for C9 at a concrete input: a batch carrying only `SampleID`
fails naming all eight other required columns, with the store untouched. -/
theorem c9_schema_error_names_all_witness :
    ingest_from_tsvs id c9_params Store.empty =
      .error
        (.missingColumns
          ["Subject ID", "Specimen ID", "sample species", "special_collection",
           "Received by mARC", "Cryobanking", "Tube Barcode",
           "Box-name_position"])
        Store.empty ∧
    (ingest_from_tsvs id c9_params Store.empty).store = Store.empty :=
  ⟨by
    have h := (c9_schema_error_names_all id c9_params c9_df Store.empty rfl
      (by decide)).1
    simpa using h,
   (c9_schema_error_names_all id c9_params c9_df Store.empty rfl
      (by decide)).2.2⟩

end MarcDb

namespace MarcDb

/-! ### C6: assembly resolution policy for dependent rows -/

/-- `dedup_first_aux` leaves a list untouched when its keys are already
distinct and none was seen before. -/
theorem dedup_first_aux_eq_self {α β : Type} [DecidableEq β] (key : α → β) :
    ∀ (l : List α) (seen : List β), (l.map key).Nodup →
      (∀ a ∈ l, key a ∉ seen) → dedup_first_aux key l seen = l := by
  intro l
  induction l with
  | nil => intro seen _ _; rfl
  | cons a t ih =>
    intro seen hnd hseen
    have hnd' : (∀ x ∈ t, ¬ key x = key a) ∧ (t.map key).Nodup := by
      simpa using hnd
    unfold dedup_first_aux
    rw [if_neg (hseen a (List.mem_cons_self a t))]
    congr 1
    refine ih _ hnd'.2 ?_
    intro b hb
    simp only [List.mem_cons]
    push_neg
    exact ⟨fun hkb => hnd'.1 b hb hkb, fun h => hseen b (List.mem_cons_of_mem a hb) h⟩

/-- First-occurrence dedup is the identity on key-distinct lists. -/
theorem dedup_first_eq_self {α β : Type} [DecidableEq β] (key : α → β)
    (l : List α) (h : (l.map key).Nodup) : dedup_first key l = l :=
  dedup_first_aux_eq_self key l [] h (by simp)

/-- Claim C6 (amended): the implemented resolution for dependent rows agrees
with the spec's ranked policy exactly on rows whose sample id has no entry in
the per-run assembly lookup — an explicit assembly identifier wins, then a
unique store match on sample id, then a unique run-number match among several
— and, in particular, a row matching two store assemblies that differ only by
run number, with no run-number match and no lookup entry, resolves to no
assembly (orphan).  When the per-run lookup has an entry for the sample id,
that entry wins outright, even if the store holds further assemblies with the
same sample id (where the spec's policy would find the match non-unique). -/
theorem c6_resolution_policy :
    (∀ (r : Row) (lookup : Lookup) (store : Store) (sample_col : Option String)
        (rn : Cell), (store.assemblies.map Assembly.id).Nodup →
      (∀ sc s, sample_col = some sc → r.get sc = some s →
        lookup_find lookup s = none) →
      lookup_assembly_id r lookup store sample_col rn =
        claimed_ranked_resolution r lookup store sample_col rn) ∧
    (∀ (r : Row) (lookup : Lookup) (store : Store) (sc : String) (rn : Cell)
        (a1 a2 : Assembly),
      r.has "assembly_id" = false → r.has sc = true →
      (∀ s, r.get sc = some s → lookup_find lookup s = none) →
      store.assemblies.filter (fun a => a.isolate_id = r.get sc) = [a1, a2] →
      a1.run_number.getD "" ≠ rn.getD "" → a2.run_number.getD "" ≠ rn.getD "" →
      lookup_assembly_id r lookup store (some sc) rn = .ok none) := by
  constructor
  · intro r lookup store sample_col rn hids hmiss
    unfold lookup_assembly_id claimed_ranked_resolution
    by_cases hA : r.has "assembly_id"
    · simp [hA]
    · simp only [hA, Bool.false_eq_true, if_false]
      cases sample_col with
      | none => rfl
      | some sc =>
        by_cases hsc : r.has sc
        · simp only [hsc, if_true]
          have hvl : (match r.get sc with
              | some s => lookup_find lookup s
              | none => none) = (none : Option Assembly) := by
            cases hg : r.get sc with
            | none => rfl
            | some s => exact hmiss sc s rfl hg
          rw [hvl]
          have hded : dedup_first Assembly.id
              ((none : Option Assembly).toList ++
                store.assemblies.filter (fun a => a.isolate_id = r.get sc)) =
              store.assemblies.filter (fun a => a.isolate_id = r.get sc) := by
            rw [Option.toList_none, List.nil_append]
            exact dedup_first_eq_self _ _
              (hids.sublist ((List.filter_sublist _).map Assembly.id))
          rw [hded]
        · simp [hsc]
  · intro r lookup store sc rn a1 a2 hA hsc hmiss hfil h1 h2
    unfold lookup_assembly_id
    simp only [hA, Bool.false_eq_true, if_false, hsc, if_true]
    have hvl : (match r.get sc with
        | some s => lookup_find lookup s
        | none => none) = (none : Option Assembly) := by
      cases hg : r.get sc with
      | none => rfl
      | some s => exact hmiss s hg
    rw [hvl, hfil]
    simp [List.filter, h1, h2]

/-- Witness for C6 at concrete inputs: with an empty per-run lookup the
implementation matches the claimed ranked policy on the two-assembly store,
and the ambiguous sample-id-only row resolves to no assembly. -/
theorem c6_resolution_policy_witness :
    lookup_assembly_id c6_row [] c6_store (some "SampleID") none =
        claimed_ranked_resolution c6_row [] c6_store (some "SampleID") none ∧
      lookup_assembly_id c6_row [] c6_store (some "SampleID") none = .ok none :=
  ⟨c6_resolution_policy.1 c6_row [] c6_store (some "SampleID") none
      (by decide)
      (by intro sc s hsc hs; rfl),
    c6_resolution_policy.2 c6_row [] c6_store "SampleID" none c6_asm1 c6_asm2
      (by decide) (by decide) (by intro s hs; rfl) (by decide) (by decide)
      (by decide)⟩

/-- Counterexample for C6 as stated: when the per-run lookup holds the
second of two store assemblies sharing the sample id, the implementation
attaches the row to it, while the spec's ranked policy (two candidates, no
run-number match) classifies the row as an orphan. -/
theorem c6_resolution_policy_counterexample :
    lookup_assembly_id c6_row [("s1", c6_asm2)] c6_store (some "SampleID")
        none = .ok (some 2) ∧
      claimed_ranked_resolution c6_row [("s1", c6_asm2)] c6_store
        (some "SampleID") none = .ok none ∧
      c6_asm1.isolate_id = c6_asm2.isolate_id ∧
      c6_asm1.run_number ≠ c6_asm2.run_number := by
  decide

end MarcDb

namespace MarcDb

/-! ### C7: no validation point between staging and the confirmation
prompt -/

/-- Claim C7 (amended): `ingest_from_tsvs` forces no flush between the end
of staging and the confirmation decision — the only explicit flush is the
per-assembly one inside `_ingest_assemblies` — so staged rows that violate a
declared integrity constraint reach the confirmation prompt undetected, and
the violation can only surface at commit.  Concretely, for every store and
every antimicrobial batch row whose explicit `assembly_id` references no
persisted assembly, staging succeeds with the dangling row staged, the run
proceeds to the confirmation decision (a declined prompt then rolls back
normally), and the staged store violates the foreign-key constraints. -/
theorem c7_no_preconfirmation_validation (pd : Cell → Cell) (store : Store)
    (v : String) (n : Nat) (hv : py_to_nat? v = some n)
    (hn : ∀ a ∈ store.assemblies, a.id ≠ n) :
    stage_all pd (c7_params v) store =
      .ok ({ store with
              antimicrobials :=
                store.antimicrobials ++
                  [{ assembly_id := n, contig_id := none, gene_symbol := none,
                     gene_name := none, accession := none, element_type := none,
                     resistance_product := none }] },
            { isolates := none, assemblies := none, assembly_qcs := none,
              taxonomic_assignments := none, contaminants := none,
              antimicrobials := some { added := 1, duplicates := [] } }) ∧
    Store.fkOk { store with
      antimicrobials :=
        store.antimicrobials ++
          [{ assembly_id := n, contig_id := none, gene_symbol := none,
             gene_name := none, accession := none, element_type := none,
             resistance_product := none }] } = false ∧
    ingest_from_tsvs pd { c7_params v with yes := false, answer := "n" }
        store =
      .cancelled store
        { isolates := none, assemblies := none, assembly_qcs := none,
          taxonomic_assignments := none, contaminants := none,
          antimicrobials := some { added := 1, duplicates := [] } } := by
  have hrow : lookup_assembly_id ⟨[("assembly_id", some v)]⟩ [] store none none
      = .ok (some n) := by
    simp [lookup_assembly_id, Row.has, Row.get, Row.find?, List.find?, hv]
  have hloop : ingest_amr_records (c7_amr_df v) [] none store =
      .ok ({ store with
              antimicrobials :=
                store.antimicrobials ++
                  [{ assembly_id := n, contig_id := none, gene_symbol := none,
                     gene_name := none, accession := none, element_type := none,
                     resistance_product := none }] },
            { added := 1, duplicates := [] }) := by
    have hren : rename_amr_columns (rename_columns (c7_amr_df v)) =
        c7_amr_df v := rfl
    have hcols : ((rename_columns (c7_amr_df v)).hasCol "SampleID") = false :=
      rfl
    simp only [ingest_amr_records, hren, hcols, Bool.false_eq_true, if_false]
    have hrows : (c7_amr_df v).rows = [⟨[("assembly_id", some v)]⟩] := rfl
    rw [hrows]
    unfold amr_row_loop
    rw [hrow]
    rfl
  have hstage : stage_all pd (c7_params v) store =
      .ok ({ store with
              antimicrobials :=
                store.antimicrobials ++
                  [{ assembly_id := n, contig_id := none, gene_symbol := none,
                     gene_name := none, accession := none, element_type := none,
                     resistance_product := none }] },
            { isolates := none, assemblies := none, assembly_qcs := none,
              taxonomic_assignments := none, contaminants := none,
              antimicrobials := some { added := 1, duplicates := [] } }) := by
    unfold stage_all stage_isolates stage_assemblies stage_qc stage_tax
      stage_contaminants stage_amr
    simp only [c7_params, base_params]
    rw [hloop]
  refine ⟨hstage, ?_, ?_⟩
  · have hlast : ({ store with
        antimicrobials :=
          store.antimicrobials ++
            [{ assembly_id := n, contig_id := none, gene_symbol := none,
               gene_name := none, accession := none, element_type := none,
               resistance_product := none }] } : Store).antimicrobials.all
        (fun m => store.assemblies.any (fun a => a.id == m.assembly_id)) =
          false := by
      refine List.all_eq_false.mpr ?_
      refine ⟨_, List.mem_append_right _ (List.mem_singleton_self _), ?_⟩
      simp only [List.any_eq_true, not_exists]
      intro a
      simp only [not_and]
      intro ha hbeq
      exact hn a ha (by simpa using hbeq)
    simp only [Store.fkOk]
    rw [hlast, Bool.and_false]
  · have hstage' : stage_all pd
        { c7_params v with yes := false, answer := "n" } store =
        .ok ({ store with
                antimicrobials :=
                  store.antimicrobials ++
                    [{ assembly_id := n, contig_id := none,
                       gene_symbol := none, gene_name := none,
                       accession := none, element_type := none,
                       resistance_product := none }] },
              { isolates := none, assemblies := none, assembly_qcs := none,
                taxonomic_assignments := none, contaminants := none,
                antimicrobials := some { added := 1, duplicates := [] } }) := by
      unfold stage_all stage_isolates stage_assemblies stage_qc stage_tax
        stage_contaminants stage_amr
      simp only [c7_params, base_params]
      rw [hloop]
    simp [ingest_from_tsvs, hstage', proceeds, confirm_answer, py_strip,
      py_lower, py_space, py_lower_char]

/-- Witness for C7 at a concrete input: an AMR row with explicit
`assembly_id` 99 passes staging against the one-assembly store (which itself
satisfies all constraints), reaches the confirmation decision, and leaves a
staged store violating the foreign keys. -/
theorem c7_no_preconfirmation_validation_witness :
    stage_all id (c7_params "99") one_assembly_store =
      .ok ({ one_assembly_store with
              antimicrobials :=
                [{ assembly_id := 99, contig_id := none, gene_symbol := none,
                   gene_name := none, accession := none, element_type := none,
                   resistance_product := none }] },
            { isolates := none, assemblies := none, assembly_qcs := none,
              taxonomic_assignments := none, contaminants := none,
              antimicrobials := some { added := 1, duplicates := [] } }) ∧
    Store.fkOk { one_assembly_store with
      antimicrobials :=
        [{ assembly_id := 99, contig_id := none, gene_symbol := none,
           gene_name := none, accession := none, element_type := none,
           resistance_product := none }] } = false := by
  have h := c7_no_preconfirmation_validation id one_assembly_store "99" 99
    (by decide) (by decide)
  exact ⟨h.1, h.2.1⟩

/-- Counterexample for C7 as stated: staging of the dangling-assembly AMR
batch succeeds (so the confirmation prompt is reached — here the declined
prompt rolls back), the initial store satisfies every declared constraint,
yet the staged store violates them: no flush surfaced the violation before
the decision. -/
theorem c7_counterexample :
    (stage_all id (c7_params "99") one_assembly_store).isOk = true ∧
    Store.fkOk one_assembly_store = true ∧
    ingest_from_tsvs id
        { c7_params "99" with yes := false, answer := "n" }
        one_assembly_store =
      .cancelled one_assembly_store
        { isolates := none, assemblies := none, assembly_qcs := none,
          taxonomic_assignments := none, contaminants := none,
          antimicrobials := some { added := 1, duplicates := [] } } ∧
    (match stage_all id (c7_params "99") one_assembly_store with
      | .ok (staged, _) => Store.fkOk staged
      | .error _ => true) = false := by
  decide

end MarcDb

namespace MarcDb

/-! ### Loop-structure lemmas for the dependent-row ingesters -/

/-- Assembly resolution reads only the assemblies table of the store, so it
is stable across staging steps that leave that table unchanged (the dependent
ingesters only append to their own tables). -/
theorem lookup_assembly_id_congr (r : Row) (lookup : Lookup)
    (sc : Option String) (rn : Cell) {s t : Store}
    (h : s.assemblies = t.assemblies) :
    lookup_assembly_id r lookup s sc rn = lookup_assembly_id r lookup t sc rn := by
  unfold lookup_assembly_id
  rw [h]

/-- Structure of the contaminant row loop: it only appends to the
contaminants table; the newly appended records extend the batch-local seen
set with pairwise-distinct keys; every processed row is counted either as
added or as a report entry; and every row that resolves to an assembly ends
up covered by a contaminant with its key. -/
theorem contaminant_loop_struct (lookup : Lookup) (sc : Option String)
    (rn : Cell) :
    ∀ (rows : List Row) (s : Store) (seen : List (Nat × Cell × Cell × Cell))
      (added : Nat) (dups : List String) (s' : Store) (added' : Nat)
      (dups' : List String),
      contaminant_row_loop lookup sc rn rows s seen added dups =
        .ok (s', added', dups') →
      (∀ k ∈ seen, ∃ c ∈ s.contaminants, c.key = k) →
      ∃ L,
        s'.contaminants = s.contaminants ++ L ∧
        s'.isolates = s.isolates ∧ s'.aliquots = s.aliquots ∧
        s'.assemblies = s.assemblies ∧ s'.assembly_qcs = s.assembly_qcs ∧
        s'.taxonomic_assignments = s.taxonomic_assignments ∧
        s'.antimicrobials = s.antimicrobials ∧
        s'.nextAssemblyId = s.nextAssemblyId ∧
        added' = added + L.length ∧
        added' + dups'.length = added + dups.length + rows.length ∧
        (L.map Contaminant.key).Nodup ∧
        (∀ c ∈ L, c.key ∉ seen) ∧
        (∀ r ∈ rows, ∀ aid,
          lookup_assembly_id r lookup s sc rn = .ok (some aid) →
          ∃ c ∈ s'.contaminants,
            c.key = (aid, r.get "tool", r.get "confidence",
              r.get "classification")) := by
  intro rows
  induction rows with
  | nil =>
    intro s seen added dups s' added' dups' hrun hseen
    unfold contaminant_row_loop at hrun
    simp only [Except.ok.injEq, Prod.mk.injEq] at hrun
    obtain ⟨rfl, rfl, rfl⟩ := hrun
    exact ⟨[], by simp, rfl, rfl, rfl, rfl, rfl, rfl, rfl, by simp, by simp,
      by simp, by simp, by simp⟩
  | cons r rest ih =>
    intro s seen added dups s' added' dups' hrun hseen
    unfold contaminant_row_loop at hrun
    cases hres : lookup_assembly_id r lookup s sc rn with
    | error e =>
      simp only [hres] at hrun
      exact absurd hrun (by simp)
    | ok o =>
      cases o with
      | none =>
        simp only [hres] at hrun
        obtain ⟨L, hL, hi, hal, has, hq, ht, ham, hn, hadd, hacc, hnd, hns, hcov⟩ :=
          ih s seen added (dups ++ ["unmatched assembly for contaminant"]) s'
            added' dups' hrun hseen
        refine ⟨L, hL, hi, hal, has, hq, ht, ham, hn, hadd, ?_, hnd, hns, ?_⟩
        · simp only [List.length_append, List.length_cons, List.length_nil] at hacc ⊢
          omega
        · intro r' hr' aid hraid
          rcases List.mem_cons.mp hr' with hr' | hr'
          · subst hr'
            rw [hres] at hraid
            simp at hraid
          · exact hcov r' hr' aid hraid
      | some aid =>
        simp only [hres] at hrun
        by_cases hmem :
            ((aid, r.get "tool", r.get "confidence", r.get "classification") :
              Nat × Cell × Cell × Cell) ∈ seen
        · rw [if_pos hmem] at hrun
          obtain ⟨L, hL, hi, hal, has, hq, ht, ham, hn, hadd, hacc, hnd, hns, hcov⟩ :=
            ih s seen added (dups ++ ["contaminant " ++ toString aid]) s'
              added' dups' hrun hseen
          refine ⟨L, hL, hi, hal, has, hq, ht, ham, hn, hadd, ?_, hnd, hns, ?_⟩
          · simp only [List.length_append, List.length_cons, List.length_nil] at hacc ⊢
            omega
          · intro r' hr' aid' hraid
            rcases List.mem_cons.mp hr' with hr' | hr'
            · subst hr'
              rw [hres] at hraid
              simp only [Except.ok.injEq, Option.some.injEq] at hraid
              subst hraid
              obtain ⟨c, hc, hck⟩ := hseen _ hmem
              exact ⟨c, by rw [hL]; exact List.mem_append_left _ hc, hck⟩
            · exact hcov r' hr' aid' hraid
        · rw [if_neg hmem] at hrun
          have hseen2 : ∀ k ∈ ((aid, r.get "tool", r.get "confidence",
              r.get "classification") :: seen),
              ∃ c ∈ ({ s with contaminants :=
                  s.contaminants ++ [mk_contaminant aid r] } : Store).contaminants,
                c.key = k := by
            intro k hk
            rcases List.mem_cons.mp hk with hk | hk
            · exact ⟨mk_contaminant aid r, by simp, by rw [hk]; rfl⟩
            · obtain ⟨c, hc, hck⟩ := hseen k hk
              exact ⟨c, List.mem_append_left _ hc, hck⟩
          obtain ⟨L, hL, hi, hal, has, hq, ht, ham, hn, hadd, hacc, hnd, hns, hcov⟩ :=
            ih { s with contaminants := s.contaminants ++ [mk_contaminant aid r] }
              _ (added + 1) dups s' added' dups' hrun hseen2
          refine ⟨mk_contaminant aid r :: L, ?_, hi, hal, has, hq, ht, ham, hn,
            ?_, ?_, ?_, ?_, ?_⟩
          · rw [hL]; simp
          · simp only [List.length_cons] at hadd ⊢
            omega
          · simp only [List.length_append, List.length_cons, List.length_nil] at hacc ⊢
            omega
          · refine List.nodup_cons.mpr ⟨?_, hnd⟩
            intro hmemL
            obtain ⟨c, hcL, hck⟩ := List.mem_map.mp hmemL
            exact hns c hcL (by rw [hck]; exact List.mem_cons_self _ _)
          · intro c hc
            rcases List.mem_cons.mp hc with hc | hc
            · subst hc; exact hmem
            · exact fun habs => hns c hc (List.mem_cons_of_mem _ habs)
          · intro r' hr' aid' hraid
            rcases List.mem_cons.mp hr' with hr' | hr'
            · subst hr'
              rw [hres] at hraid
              simp only [Except.ok.injEq, Option.some.injEq] at hraid
              subst hraid
              refine ⟨mk_contaminant aid r', ?_, rfl⟩
              rw [hL]
              exact List.mem_append_left _ (by simp)
            · refine hcov r' hr' aid' ?_
              rw [← hraid]
              exact (lookup_assembly_id_congr r' lookup sc rn rfl).symm

end MarcDb

namespace MarcDb

/-- The duplicate key of the record built from a row matches the loop's seen
key. -/
theorem mk_amr_key (aid : Nat) (r : Row) :
    (mk_amr aid r).key = (aid, amr_tuple r) := rfl

/-- Structure of the standalone AMR row loop: it only appends to the
antimicrobials table; appended records have pairwise-distinct
`(assembly, gene-tuple)` keys not yet in the batch-local seen set; every
processed row is counted either as added or as a report entry; and every row
that resolves to an assembly ends up covered by an antimicrobial with its
key — including rows whose gene fields are all null, which this loop does
not drop. -/
theorem amr_loop_struct (lookup : Lookup) (sc : Option String) (rn : Cell) :
    ∀ (rows : List Row) (s : Store) (seen : List (Nat × List Cell))
      (added : Nat) (dups : List String) (s' : Store) (added' : Nat)
      (dups' : List String),
      amr_row_loop lookup sc rn rows s seen added dups =
        .ok (s', added', dups') →
      (∀ k ∈ seen, ∃ m ∈ s.antimicrobials, m.key = k) →
      ∃ L,
        s'.antimicrobials = s.antimicrobials ++ L ∧
        s'.isolates = s.isolates ∧ s'.aliquots = s.aliquots ∧
        s'.assemblies = s.assemblies ∧ s'.assembly_qcs = s.assembly_qcs ∧
        s'.taxonomic_assignments = s.taxonomic_assignments ∧
        s'.contaminants = s.contaminants ∧
        s'.nextAssemblyId = s.nextAssemblyId ∧
        added' = added + L.length ∧
        added' + dups'.length = added + dups.length + rows.length ∧
        (L.map Antimicrobial.key).Nodup ∧
        (∀ m ∈ L, m.key ∉ seen) ∧
        (∀ r ∈ rows, ∀ aid,
          lookup_assembly_id r lookup s sc rn = .ok (some aid) →
          ∃ m ∈ s'.antimicrobials, m.key = (aid, amr_tuple r)) := by
  intro rows
  induction rows with
  | nil =>
    intro s seen added dups s' added' dups' hrun hseen
    unfold amr_row_loop at hrun
    simp only [Except.ok.injEq, Prod.mk.injEq] at hrun
    obtain ⟨rfl, rfl, rfl⟩ := hrun
    exact ⟨[], by simp, rfl, rfl, rfl, rfl, rfl, rfl, rfl, by simp, by simp,
      by simp, by simp, by simp⟩
  | cons r rest ih =>
    intro s seen added dups s' added' dups' hrun hseen
    unfold amr_row_loop at hrun
    cases hres : lookup_assembly_id r lookup s sc rn with
    | error e =>
      simp only [hres] at hrun
      exact absurd hrun (by simp)
    | ok o =>
      cases o with
      | none =>
        simp only [hres] at hrun
        obtain ⟨L, hL, hi, hal, has, hq, ht, hc, hn, hadd, hacc, hnd, hns, hcov⟩ :=
          ih s seen added (dups ++ ["unmatched assembly for antimicrobial"]) s'
            added' dups' hrun hseen
        refine ⟨L, hL, hi, hal, has, hq, ht, hc, hn, hadd, ?_, hnd, hns, ?_⟩
        · simp only [List.length_append, List.length_cons, List.length_nil] at hacc ⊢
          omega
        · intro r' hr' aid hraid
          rcases List.mem_cons.mp hr' with hr' | hr'
          · subst hr'
            rw [hres] at hraid
            simp at hraid
          · exact hcov r' hr' aid hraid
      | some aid =>
        simp only [hres] at hrun
        by_cases hmem : ((aid, amr_tuple r) : Nat × List Cell) ∈ seen
        · rw [if_pos hmem] at hrun
          obtain ⟨L, hL, hi, hal, has, hq, ht, hc, hn, hadd, hacc, hnd, hns, hcov⟩ :=
            ih s seen added (dups ++ ["antimicrobial " ++ toString aid]) s'
              added' dups' hrun hseen
          refine ⟨L, hL, hi, hal, has, hq, ht, hc, hn, hadd, ?_, hnd, hns, ?_⟩
          · simp only [List.length_append, List.length_cons, List.length_nil] at hacc ⊢
            omega
          · intro r' hr' aid' hraid
            rcases List.mem_cons.mp hr' with hr' | hr'
            · subst hr'
              rw [hres] at hraid
              simp only [Except.ok.injEq, Option.some.injEq] at hraid
              subst hraid
              obtain ⟨m, hm, hmk⟩ := hseen _ hmem
              exact ⟨m, by rw [hL]; exact List.mem_append_left _ hm, hmk⟩
            · exact hcov r' hr' aid' hraid
        · rw [if_neg hmem] at hrun
          have hseen2 : ∀ k ∈ ((aid, amr_tuple r) :: seen),
              ∃ m ∈ ({ s with antimicrobials :=
                  s.antimicrobials ++ [mk_amr aid r] } : Store).antimicrobials,
                m.key = k := by
            intro k hk
            rcases List.mem_cons.mp hk with hk | hk
            · exact ⟨mk_amr aid r, by simp, by rw [hk]; rfl⟩
            · obtain ⟨m, hm, hmk⟩ := hseen k hk
              exact ⟨m, List.mem_append_left _ hm, hmk⟩
          obtain ⟨L, hL, hi, hal, has, hq, ht, hc, hn, hadd, hacc, hnd, hns, hcov⟩ :=
            ih { s with antimicrobials := s.antimicrobials ++ [mk_amr aid r] }
              _ (added + 1) dups s' added' dups' hrun hseen2
          refine ⟨mk_amr aid r :: L, ?_, hi, hal, has, hq, ht, hc, hn,
            ?_, ?_, ?_, ?_, ?_⟩
          · rw [hL]; simp
          · simp only [List.length_cons] at hadd ⊢
            omega
          · simp only [List.length_append, List.length_cons, List.length_nil] at hacc ⊢
            omega
          · refine List.nodup_cons.mpr ⟨?_, hnd⟩
            intro hmemL
            obtain ⟨m, hmL, hmk⟩ := List.mem_map.mp hmemL
            exact hns m hmL (by rw [hmk, mk_amr_key]; exact List.mem_cons_self _ _)
          · intro m hm
            rcases List.mem_cons.mp hm with hm | hm
            · subst hm; rw [mk_amr_key]; exact hmem
            · exact fun habs => hns m hm (List.mem_cons_of_mem _ habs)
          · intro r' hr' aid' hraid
            rcases List.mem_cons.mp hr' with hr' | hr'
            · subst hr'
              rw [hres] at hraid
              simp only [Except.ok.injEq, Option.some.injEq] at hraid
              subst hraid
              refine ⟨mk_amr aid r', ?_, mk_amr_key _ _⟩
              rw [hL]
              exact List.mem_append_left _ (by simp)
            · refine hcov r' hr' aid' ?_
              rw [← hraid]
              exact (lookup_assembly_id_congr r' lookup sc rn rfl).symm

end MarcDb

namespace MarcDb

/-- A record built from a row with at least one non-null gene column is not
all-null. -/
theorem mk_amr_not_all_null (aid : Nat) (r : Row)
    (h : gene_cols.any (fun c => r.notna c) = true) :
    (mk_amr aid r).allGeneNull = false := by
  simp only [gene_cols, List.any_cons, List.any_nil, Bool.or_false,
    Bool.or_eq_true, Row.notna] at h
  simp only [Antimicrobial.allGeneNull, mk_amr]
  rcases h with h | h | h | h | h | h <;>
    · obtain ⟨v, hv⟩ := Option.isSome_iff_exists.mp h
      simp [hv]

/-- The embedded AMR loop of `_ingest_assemblies` stages only records with at
least one non-null gene field, all attached to the group's assembly, and
touches nothing but the antimicrobials table. -/
theorem embedded_amr_loop_no_all_null (aid : Nat) :
    ∀ (rows : List Row) (s : Store) (seen : List (List Cell))
      (dups : List String),
      ∃ L,
        (embedded_amr_loop aid rows s seen dups).1 =
          { s with antimicrobials := s.antimicrobials ++ L } ∧
        ∀ m ∈ L, m.assembly_id = aid ∧ m.allGeneNull = false := by
  intro rows
  induction rows with
  | nil =>
    intro s seen dups
    exact ⟨[], by simp [embedded_amr_loop], by simp⟩
  | cons r rest ih =>
    intro s seen dups
    unfold embedded_amr_loop
    by_cases hnull : gene_cols.any (fun c => r.notna c) = true
    · rw [if_neg (by simp [hnull])]
      by_cases hmem : amr_tuple r ∈ seen
      · rw [if_pos hmem]
        exact ih s seen _
      · rw [if_neg hmem]
        obtain ⟨L, hL, hall⟩ :=
          ih { s with antimicrobials := s.antimicrobials ++ [mk_amr aid r] }
            (amr_tuple r :: seen) dups
        refine ⟨mk_amr aid r :: L, by rw [hL]; simp, ?_⟩
        intro m hm
        rcases List.mem_cons.mp hm with hm | hm
        · subst hm
          exact ⟨rfl, mk_amr_not_all_null aid r hnull⟩
        · exact hall m hm
    · rw [if_pos (by simpa using hnull)]
      exact ih s seen dups

/-! ### C8: antimicrobial dedup key and all-null gene rows -/

/-- Claim C8 (amended): antimicrobial rows are deduplicated in-batch on
`(assembly, contig_id, gene_symbol, gene_name, accession, element_type,
resistance_product)` on both paths, and every resolving row's key ends up
persisted; but the all-null-gene drop exists only on the embedded path of
`_ingest_assemblies` — the embedded loop never stages a record whose six gene
fields are all null, while the standalone `_ingest_amr_records` inserts such
rows (see the counterexample). -/
theorem c8_amr_dedup_and_null_drop :
    (∀ (df0 : DataFrame) (lookup : Lookup) (rn : Cell) (store s' : Store)
        (rep : SectionReport),
      ingest_amr_records df0 lookup rn store = .ok (s', rep) →
      s'.antimicrobials =
        store.antimicrobials ++
          s'.antimicrobials.drop store.antimicrobials.length ∧
      ((s'.antimicrobials.drop store.antimicrobials.length).map
        Antimicrobial.key).Nodup ∧
      rep.added =
        (s'.antimicrobials.drop store.antimicrobials.length).length ∧
      rep.added + rep.duplicates.length =
        (rename_amr_columns (rename_columns df0)).rows.length ∧
      (∀ r ∈ (rename_amr_columns (rename_columns df0)).rows, ∀ aid,
        lookup_assembly_id r lookup store
          (if (rename_columns df0).hasCol "SampleID" then some "SampleID"
            else none) rn = .ok (some aid) →
        ∃ m ∈ s'.antimicrobials, m.key = (aid, amr_tuple r))) ∧
    (∀ (aid : Nat) (rows : List Row) (s : Store) (seen : List (List Cell))
        (dups : List String),
      ∀ m ∈ (embedded_amr_loop aid rows s seen dups).1.antimicrobials,
        m ∈ s.antimicrobials ∨
          (m.assembly_id = aid ∧ m.allGeneNull = false)) := by
  constructor
  · intro df0 lookup rn store s' rep hrun
    simp only [ingest_amr_records] at hrun
    cases hloop : amr_row_loop lookup
        (if (rename_columns df0).hasCol "SampleID" = true then some "SampleID"
          else none) rn (rename_amr_columns (rename_columns df0)).rows store
        [] 0 [] with
    | error e =>
      rw [hloop] at hrun
      exact absurd hrun (by simp)
    | ok trip =>
      obtain ⟨s2, added2, dups2⟩ := trip
      rw [hloop] at hrun
      simp only [Except.ok.injEq, Prod.mk.injEq] at hrun
      obtain ⟨rfl, rfl⟩ := hrun
      obtain ⟨L, hL, _, _, _, _, _, _, _, hadd, hacc, hnd, _, hcov⟩ :=
        amr_loop_struct lookup _ rn _ store [] 0 [] s2 added2 dups2 hloop
          (by simp)
      have hdrop : s2.antimicrobials.drop store.antimicrobials.length = L := by
        rw [hL]
        exact List.drop_left _ _
      rw [hdrop]
      refine ⟨by rw [hL], hnd, by simpa using hadd, by simpa using hacc, ?_⟩
      intro r hr aid hraid
      exact hcov r hr aid hraid
  · intro aid rows s seen dups m hm
    obtain ⟨L, hL, hall⟩ := embedded_amr_loop_no_all_null aid rows s seen dups
    rw [hL] at hm
    rcases List.mem_append.mp hm with hm | hm
    · exact Or.inl hm
    · exact Or.inr (hall m hm)

/-- Witness for C8 at a concrete input: the one-row `blaX` batch against the
one-assembly store stages exactly one record with a fresh key, counted in
the report. -/
theorem c8_amr_dedup_and_null_drop_witness :
    ({ one_assembly_store with
        antimicrobials :=
          [{ assembly_id := 1, contig_id := none, gene_symbol := some "blaX",
             gene_name := none, accession := none, element_type := none,
             resistance_product := none }] } : Store).antimicrobials =
      one_assembly_store.antimicrobials ++
        (({ one_assembly_store with
            antimicrobials :=
              [{ assembly_id := 1, contig_id := none,
                 gene_symbol := some "blaX", gene_name := none,
                 accession := none, element_type := none,
                 resistance_product := none }] } : Store).antimicrobials.drop
          one_assembly_store.antimicrobials.length) ∧
    (1 : Nat) =
      (({ one_assembly_store with
          antimicrobials :=
            [{ assembly_id := 1, contig_id := none,
               gene_symbol := some "blaX", gene_name := none,
               accession := none, element_type := none,
               resistance_product := none }] } : Store).antimicrobials.drop
        one_assembly_store.antimicrobials.length).length := by
  have h := c8_amr_dedup_and_null_drop.1 c2_amr_df [] none one_assembly_store
    { one_assembly_store with
      antimicrobials :=
        [{ assembly_id := 1, contig_id := none, gene_symbol := some "blaX",
           gene_name := none, accession := none, element_type := none,
           resistance_product := none }] }
    { added := 1, duplicates := [] } (by decide)
  exact ⟨h.1, h.2.2.1⟩

/-- Counterexample for C8 as stated: the standalone AMR path inserts a row
whose six gene fields are all null instead of dropping it. -/
theorem c8_counterexample :
    ingest_amr_records c8_null_df [] none one_assembly_store =
      .ok ({ one_assembly_store with
              antimicrobials :=
                [{ assembly_id := 1, contig_id := none, gene_symbol := none,
                   gene_name := none, accession := none, element_type := none,
                   resistance_product := none }] },
            { added := 1, duplicates := [] }) ∧
    ({ assembly_id := 1, contig_id := none, gene_symbol := none,
       gene_name := none, accession := none, element_type := none,
       resistance_product := none } : Antimicrobial).allGeneNull = true := by
  decide

end MarcDb

namespace MarcDb

/-! ### C3: persisted layout and the contaminants relation -/

/-- Claim C3 (amended): the persisted layout comprises seven relational
tables — isolates, aliquots, assemblies, assembly QC, taxonomic assignments,
contaminants, antimicrobials — including the contaminants relation (whose
model class is absent from the stale `src/marc_db/models.py` but required by
`ingest.py` and `mock.py`); for every contaminants batch, each row that
resolves to an assembly ends up persisted as a `Contaminant` record, and the
newly inserted records are deduplicated within the batch on the key
`(assembly, tool, confidence, classification)` (there is no dedup against
already-persisted contaminants). -/
theorem c3_seven_tables_contaminant_dedup :
    marc_table_names.length = 7 ∧ "contaminants" ∈ marc_table_names ∧
    (∀ (df0 : DataFrame) (lookup : Lookup) (rn : Cell) (store s' : Store)
        (rep : SectionReport),
      ingest_contaminants df0 lookup rn store = .ok (s', rep) →
      s'.contaminants =
        store.contaminants ++ s'.contaminants.drop store.contaminants.length ∧
      ((s'.contaminants.drop store.contaminants.length).map
        Contaminant.key).Nodup ∧
      rep.added = (s'.contaminants.drop store.contaminants.length).length ∧
      rep.added + rep.duplicates.length = (rename_columns df0).rows.length ∧
      (∀ r ∈ (rename_columns df0).rows, ∀ aid,
        lookup_assembly_id r lookup store
          (if (rename_columns df0).hasCol "SampleID" then some "SampleID"
            else none) rn = .ok (some aid) →
        ∃ c ∈ s'.contaminants,
          c.key = (aid, r.get "tool", r.get "confidence",
            r.get "classification"))) := by
  refine ⟨rfl, by decide, ?_⟩
  intro df0 lookup rn store s' rep hrun
  simp only [ingest_contaminants] at hrun
  cases hloop : contaminant_row_loop lookup
      (if (rename_columns df0).hasCol "SampleID" = true then some "SampleID"
        else none) rn (rename_columns df0).rows store [] 0 [] with
  | error e =>
    rw [hloop] at hrun
    exact absurd hrun (by simp)
  | ok trip =>
    obtain ⟨s2, added2, dups2⟩ := trip
    rw [hloop] at hrun
    simp only [Except.ok.injEq, Prod.mk.injEq] at hrun
    obtain ⟨rfl, rfl⟩ := hrun
    obtain ⟨L, hL, _, _, _, _, _, _, _, hadd, hacc, hnd, _, hcov⟩ :=
      contaminant_loop_struct lookup _ rn _ store [] 0 [] s2 added2 dups2
        hloop (by simp)
    have hdrop : s2.contaminants.drop store.contaminants.length = L := by
      rw [hL]
      exact List.drop_left _ _
    rw [hdrop]
    exact ⟨by rw [hL], hnd, by simpa using hadd, by simpa using hacc,
      fun r hr aid hraid => hcov r hr aid hraid⟩

/-- Witness for C3 at a concrete input: the three-row contaminants batch
(one exact in-batch duplicate) against the one-assembly store stages exactly
two records with distinct keys, and the report counts two added rows and one
duplicate out of three rows. -/
theorem c3_seven_tables_contaminant_dedup_witness :
    (({ one_assembly_store with
        contaminants :=
          [{ assembly_id := 1, tool := some "mash", confidence := some "99",
             classification := some "E.coli" },
           { assembly_id := 1, tool := some "mash", confidence := some "99",
             classification := some "K.pneu" }] } : Store).contaminants.drop
        one_assembly_store.contaminants.length).length = 2 ∧
    (2 : Nat) + (["contaminant 1"] : List String).length = c3_df.rows.length := by
  have h := c3_seven_tables_contaminant_dedup.2.2 c3_df [] none
    one_assembly_store
    { one_assembly_store with
      contaminants :=
        [{ assembly_id := 1, tool := some "mash", confidence := some "99",
           classification := some "E.coli" },
         { assembly_id := 1, tool := some "mash", confidence := some "99",
           classification := some "K.pneu" }] }
    { added := 2, duplicates := ["contaminant 1"] } (by decide)
  refine ⟨h.2.2.1.symm, ?_⟩
  have := h.2.2.2.1
  simpa using this

/-- Counterexample for C3 as stated: the data model holds seven tables, not
six — the contaminants relation is the seventh alongside the six declared in
`models.py`. -/
theorem c3_counterexample :
    marc_table_names.length = 7 ∧ "contaminants" ∈ marc_table_names ∧
      ¬ marc_table_names.length = 6 := by
  decide

end MarcDb

namespace MarcDb

/-- The standalone taxonomy record built from a row carries the row's
classification as the head of its value tuple. -/
theorem mk_tax_classification (aid : Nat) (r : Row) :
    (mk_tax aid r).taxonomic_classification =
      (tax_tuple r).headI := rfl

/-- Structure of the standalone taxonomy row loop: it only appends to the
taxonomic-assignments table; the appended records carry pairwise-distinct
`(assembly, classification)` pairs, none of which matches a record already in
the store when the loop starts; every processed row is counted either as
added or as a report entry; and every row that resolves to an assembly ends
up covered by a record with its `(assembly, classification)`. -/
theorem tax_loop_struct (lookup : Lookup) (sc : Option String) (rn : Cell) :
    ∀ (rows : List Row) (s : Store) (seen : List (Nat × List Cell))
      (added : Nat) (dups : List String) (s' : Store) (added' : Nat)
      (dups' : List String),
      tax_row_loop lookup sc rn rows s seen added dups =
        .ok (s', added', dups') →
      (∀ k ∈ seen, ∃ t ∈ s.taxonomic_assignments,
        t.assembly_id = k.1 ∧ t.taxonomic_classification = k.2.headI) →
      ∃ L,
        s'.taxonomic_assignments = s.taxonomic_assignments ++ L ∧
        s'.isolates = s.isolates ∧ s'.aliquots = s.aliquots ∧
        s'.assemblies = s.assemblies ∧ s'.assembly_qcs = s.assembly_qcs ∧
        s'.contaminants = s.contaminants ∧
        s'.antimicrobials = s.antimicrobials ∧
        s'.nextAssemblyId = s.nextAssemblyId ∧
        added' = added + L.length ∧
        added' + dups'.length = added + dups.length + rows.length ∧
        (L.map (fun t =>
          (t.assembly_id, t.taxonomic_classification))).Nodup ∧
        (∀ t ∈ L, ∀ t0 ∈ s.taxonomic_assignments,
          ¬ (t0.assembly_id = t.assembly_id ∧
            t0.taxonomic_classification = t.taxonomic_classification)) ∧
        (∀ r ∈ rows, ∀ aid,
          lookup_assembly_id r lookup s sc rn = .ok (some aid) →
          ∃ t ∈ s'.taxonomic_assignments, t.assembly_id = aid ∧
            t.taxonomic_classification = r.get "taxonomic_classification") := by
  intro rows
  induction rows with
  | nil =>
    intro s seen added dups s' added' dups' hrun hseen
    unfold tax_row_loop at hrun
    simp only [Except.ok.injEq, Prod.mk.injEq] at hrun
    obtain ⟨rfl, rfl, rfl⟩ := hrun
    exact ⟨[], by simp, rfl, rfl, rfl, rfl, rfl, rfl, rfl, by simp, by simp,
      by simp, by simp, by simp⟩
  | cons r rest ih =>
    intro s seen added dups s' added' dups' hrun hseen
    unfold tax_row_loop at hrun
    cases hres : lookup_assembly_id r lookup s sc rn with
    | error e =>
      simp only [hres] at hrun
      exact absurd hrun (by simp)
    | ok o =>
      cases o with
      | none =>
        simp only [hres] at hrun
        obtain ⟨L, hL, hi, hal, has, hq, hc, ham, hn, hadd, hacc, hnd, hfr, hcov⟩ :=
          ih s seen added
            (dups ++ ["unmatched assembly for taxonomic assignment"]) s'
            added' dups' hrun hseen
        refine ⟨L, hL, hi, hal, has, hq, hc, ham, hn, hadd, ?_, hnd, hfr, ?_⟩
        · simp only [List.length_append, List.length_cons, List.length_nil] at hacc ⊢
          omega
        · intro r' hr' aid hraid
          rcases List.mem_cons.mp hr' with hr' | hr'
          · subst hr'
            rw [hres] at hraid
            simp at hraid
          · exact hcov r' hr' aid hraid
      | some aid =>
        simp only [hres] at hrun
        by_cases hmem : ((aid, tax_tuple r) : Nat × List Cell) ∈ seen
        · rw [if_pos hmem] at hrun
          obtain ⟨L, hL, hi, hal, has, hq, hc, ham, hn, hadd, hacc, hnd, hfr, hcov⟩ :=
            ih s seen added (dups ++ ["taxonomic_assignment " ++ toString aid])
              s' added' dups' hrun hseen
          refine ⟨L, hL, hi, hal, has, hq, hc, ham, hn, hadd, ?_, hnd, hfr, ?_⟩
          · simp only [List.length_append, List.length_cons, List.length_nil] at hacc ⊢
            omega
          · intro r' hr' aid' hraid
            rcases List.mem_cons.mp hr' with hr' | hr'
            · subst hr'
              rw [hres] at hraid
              simp only [Except.ok.injEq, Option.some.injEq] at hraid
              subst hraid
              obtain ⟨t, ht, hta, htc⟩ := hseen _ hmem
              exact ⟨t, by rw [hL]; exact List.mem_append_left _ ht, hta, htc⟩
            · exact hcov r' hr' aid' hraid
        · rw [if_neg hmem] at hrun
          by_cases hex : (s.taxonomic_assignments.find? (fun t =>
              t.assembly_id == aid &&
                t.taxonomic_classification ==
                  r.get "taxonomic_classification")).isSome = true
          · rw [if_pos hex] at hrun
            obtain ⟨t, ht, hpt⟩ :=
              List.find?_isSome.mp hex
            rw [Bool.and_eq_true, beq_iff_eq, beq_iff_eq] at hpt
            obtain ⟨L, hL, hi, hal, has, hq, hc, ham, hn, hadd, hacc, hnd, hfr, hcov⟩ :=
              ih s seen added
                (dups ++ ["taxonomic_assignment " ++ toString aid]) s'
                added' dups' hrun hseen
            refine ⟨L, hL, hi, hal, has, hq, hc, ham, hn, hadd, ?_, hnd, hfr, ?_⟩
            · simp only [List.length_append, List.length_cons, List.length_nil] at hacc ⊢
              omega
            · intro r' hr' aid' hraid
              rcases List.mem_cons.mp hr' with hr' | hr'
              · subst hr'
                rw [hres] at hraid
                simp only [Except.ok.injEq, Option.some.injEq] at hraid
                subst hraid
                exact ⟨t, by rw [hL]; exact List.mem_append_left _ ht,
                  hpt.1, hpt.2⟩
              · exact hcov r' hr' aid' hraid
          · rw [if_neg hex] at hrun
            have hfresh : ∀ t0 ∈ s.taxonomic_assignments,
                ¬ (t0.assembly_id = aid ∧ t0.taxonomic_classification =
                  r.get "taxonomic_classification") := by
              intro t0 ht0 ⟨h1, h2⟩
              refine hex ?_
              refine List.find?_isSome.mpr ⟨t0, ht0, ?_⟩
              rw [Bool.and_eq_true, beq_iff_eq, beq_iff_eq]
              exact ⟨h1, h2⟩
            have hseen2 : ∀ k ∈ ((aid, tax_tuple r) :: seen),
                ∃ t ∈ ({ s with taxonomic_assignments :=
                    s.taxonomic_assignments ++ [mk_tax aid r] } :
                      Store).taxonomic_assignments,
                  t.assembly_id = k.1 ∧
                    t.taxonomic_classification = k.2.headI := by
              intro k hk
              rcases List.mem_cons.mp hk with hk | hk
              · subst hk
                exact ⟨mk_tax aid r, by simp, rfl, mk_tax_classification aid r⟩
              · obtain ⟨t, ht, hta, htc⟩ := hseen k hk
                exact ⟨t, List.mem_append_left _ ht, hta, htc⟩
            obtain ⟨L, hL, hi, hal, has, hq, hc, ham, hn, hadd, hacc, hnd, hfr, hcov⟩ :=
              ih { s with taxonomic_assignments :=
                  s.taxonomic_assignments ++ [mk_tax aid r] }
                _ (added + 1) dups s' added' dups' hrun hseen2
            refine ⟨mk_tax aid r :: L, ?_, hi, hal, has, hq, hc, ham, hn,
              ?_, ?_, ?_, ?_, ?_⟩
            · rw [hL]; simp
            · simp only [List.length_cons] at hadd ⊢
              omega
            · simp only [List.length_append, List.length_cons, List.length_nil] at hacc ⊢
              omega
            · refine List.nodup_cons.mpr ⟨?_, hnd⟩
              intro hmemL
              obtain ⟨t, htL, htk⟩ := List.mem_map.mp hmemL
              refine hfr t htL (mk_tax aid r)
                (List.mem_append_right _ (by simp)) ?_
              have h1 : t.assembly_id = aid := by
                have := congrArg Prod.fst htk
                simpa using this
              have h2 : t.taxonomic_classification =
                  (mk_tax aid r).taxonomic_classification := by
                have := congrArg Prod.snd htk
                simpa using this
              exact ⟨h1.symm ▸ rfl, h2.symm⟩
            · intro t ht
              rcases List.mem_cons.mp ht with ht | ht
              · subst ht
                intro t0 ht0 h
                exact hfresh t0 ht0 ⟨h.1, h.2⟩
              · intro t0 ht0 h
                exact hfr t ht t0 (List.mem_append_left _ ht0) h
            · intro r' hr' aid' hraid
              rcases List.mem_cons.mp hr' with hr' | hr'
              · subst hr'
                rw [hres] at hraid
                simp only [Except.ok.injEq, Option.some.injEq] at hraid
                subst hraid
                refine ⟨mk_tax aid r', ?_, rfl, rfl⟩
                rw [hL]
                exact List.mem_append_left _ (by simp)
              · refine hcov r' hr' aid' ?_
                rw [← hraid]
                exact (lookup_assembly_id_congr r' lookup sc rn rfl).symm

end MarcDb

namespace MarcDb

/-! ### C4: taxonomic assignments — coexistence and dedup -/

/-- The head of a taxonomy record's full value tuple is its classification. -/
theorem fullTuple_headI (t : TaxonomicAssignment) :
    t.fullTuple.headI = t.taxonomic_classification := rfl

/-- Claim C4: multiple `TaxonomicAssignment` records with distinct
`(assembly, classification-tuple)` keys can be persisted and coexist in the
store after ingestion (shown at a concrete two-classification batch), while
every run only inserts records whose `(assembly, classification-tuple)` is
distinct from every record already in the store and from every other record
inserted in the same batch — rows identical to a prior row are skipped and
counted under duplicates (`added + duplicates = rows`). -/
theorem c4_tax_coexistence_and_dedup :
    (c4_result.taxonomic_assignments.length = 2 ∧
      (∀ t ∈ c4_result.taxonomic_assignments, t.assembly_id = 1) ∧
      (c4_result.taxonomic_assignments.map
        TaxonomicAssignment.fullTuple).Nodup) ∧
    (∀ (df0 : DataFrame) (lookup : Lookup) (rn : Cell) (store s' : Store)
        (rep : SectionReport),
      ingest_taxonomic_assignments df0 lookup rn store = .ok (s', rep) →
      s'.taxonomic_assignments =
        store.taxonomic_assignments ++
          s'.taxonomic_assignments.drop store.taxonomic_assignments.length ∧
      ((s'.taxonomic_assignments.drop
          store.taxonomic_assignments.length).map (fun t =>
        (t.assembly_id, t.fullTuple))).Nodup ∧
      (∀ t ∈ s'.taxonomic_assignments.drop store.taxonomic_assignments.length,
        ∀ t0 ∈ store.taxonomic_assignments,
          ¬ (t0.assembly_id = t.assembly_id ∧ t0.fullTuple = t.fullTuple)) ∧
      rep.added =
        (s'.taxonomic_assignments.drop
          store.taxonomic_assignments.length).length ∧
      rep.added + rep.duplicates.length = (rename_columns df0).rows.length) := by
  constructor
  · exact ⟨by decide, by decide, by decide⟩
  · intro df0 lookup rn store s' rep hrun
    simp only [ingest_taxonomic_assignments] at hrun
    cases hloop : tax_row_loop lookup
        (if (rename_columns df0).hasCol "SampleID" = true then some "SampleID"
          else none) rn (rename_columns df0).rows store [] 0 [] with
    | error e =>
      rw [hloop] at hrun
      exact absurd hrun (by simp)
    | ok trip =>
      obtain ⟨s2, added2, dups2⟩ := trip
      rw [hloop] at hrun
      simp only [Except.ok.injEq, Prod.mk.injEq] at hrun
      obtain ⟨rfl, rfl⟩ := hrun
      obtain ⟨L, hL, _, _, _, _, _, _, _, hadd, hacc, hnd, hfr, _⟩ :=
        tax_loop_struct lookup _ rn _ store [] 0 [] s2 added2 dups2 hloop
          (by simp)
      have hdrop : s2.taxonomic_assignments.drop
          store.taxonomic_assignments.length = L := by
        rw [hL]
        exact List.drop_left _ _
      rw [hdrop]
      refine ⟨by rw [hL], ?_, ?_, by simpa using hadd, by simpa using hacc⟩
      · have hlift : (L.map (fun t => (t.assembly_id, t.fullTuple))).map
            (fun p => (p.1, (p.2 : List Cell).headI)) =
            L.map (fun t => (t.assembly_id, t.taxonomic_classification)) := by
          rw [List.map_map]
          rfl
        refine List.Nodup.of_map (fun p => (p.1, (p.2 : List Cell).headI)) ?_
        rw [hlift]
        exact hnd
      · intro t ht t0 ht0 ⟨h1, h2⟩
        refine hfr t ht t0 ht0 ⟨h1, ?_⟩
        have := congrArg List.headI h2
        rwa [fullTuple_headI, fullTuple_headI] at this

/-- Witness for C4 at a concrete input: the two-classification batch against
the one-assembly store yields two coexisting records with distinct keys and
an exact accounting of two added rows out of two. -/
theorem c4_tax_coexistence_and_dedup_witness :
    (({ one_assembly_store with
        taxonomic_assignments :=
          [{ assembly_id := 1, taxonomic_classification := some "E.coli",
             taxonomic_abundance := none, mash_contamination := none,
             mash_contaminated_spp := none, st := none, st_schema := none,
             allele_assignment := none, tool := none, classification := none,
             comment := none },
           { assembly_id := 1, taxonomic_classification := some "K.pneu",
             taxonomic_abundance := none, mash_contamination := none,
             mash_contaminated_spp := none, st := none, st_schema := none,
             allele_assignment := none, tool := none, classification := none,
             comment := none }] } : Store).taxonomic_assignments.drop
      one_assembly_store.taxonomic_assignments.length).length = 2 ∧
    (2 : Nat) + ([] : List String).length = c4_df.rows.length := by
  have h := c4_tax_coexistence_and_dedup.2 c4_df [] none one_assembly_store
    { one_assembly_store with
      taxonomic_assignments :=
        [{ assembly_id := 1, taxonomic_classification := some "E.coli",
           taxonomic_abundance := none, mash_contamination := none,
           mash_contaminated_spp := none, st := none, st_schema := none,
           allele_assignment := none, tool := none, classification := none,
           comment := none },
         { assembly_id := 1, taxonomic_classification := some "K.pneu",
           taxonomic_abundance := none, mash_contamination := none,
           mash_contaminated_spp := none, st := none, st_schema := none,
           allele_assignment := none, tool := none, classification := none,
           comment := none }] }
    { added := 2, duplicates := [] } (by decide)
  refine ⟨h.2.2.2.1.symm, ?_⟩
  simpa using h.2.2.2.2

end MarcDb

namespace MarcDb

/-! ### Structural lemmas for the isolate/aliquot stage -/

/-- First-occurrence dedup yields pairwise-distinct keys, none of them among
the already-seen ones. -/
theorem dedup_first_aux_nodup {α β : Type} [DecidableEq β] (key : α → β) :
    ∀ (l : List α) (seen : List β),
      ((dedup_first_aux key l seen).map key).Nodup ∧
      ∀ a ∈ dedup_first_aux key l seen, key a ∉ seen := by
  intro l
  induction l with
  | nil => intro seen; exact ⟨List.nodup_nil, by simp [dedup_first_aux]⟩
  | cons a t ih =>
    intro seen
    unfold dedup_first_aux
    by_cases hmem : key a ∈ seen
    · rw [if_pos hmem]
      exact ih seen
    · rw [if_neg hmem]
      obtain ⟨hnd, hs⟩ := ih (key a :: seen)
      constructor
      · refine List.nodup_cons.mpr ⟨?_, hnd⟩
        intro hk
        obtain ⟨b, hb, hkb⟩ := List.mem_map.mp hk
        exact hs b hb (hkb ▸ List.mem_cons_self _ _)
      · intro b hb
        rcases List.mem_cons.mp hb with hb | hb
        · exact hb ▸ hmem
        · exact fun h => hs b hb (List.mem_cons_of_mem _ h)

/-- The keys of a first-occurrence-deduplicated list are pairwise distinct. -/
theorem dedup_first_map_nodup {α β : Type} [DecidableEq β] (key : α → β)
    (l : List α) : ((dedup_first key l).map key).Nodup :=
  (dedup_first_aux_nodup key l []).1

/-- Every deduplicated element comes from the original list. -/
theorem dedup_first_aux_subset {α β : Type} [DecidableEq β] (key : α → β) :
    ∀ (l : List α) (seen : List β), ∀ a ∈ dedup_first_aux key l seen, a ∈ l := by
  intro l
  induction l with
  | nil => intro seen a ha; simp [dedup_first_aux] at ha
  | cons b t ih =>
    intro seen a ha
    unfold dedup_first_aux at ha
    by_cases hmem : key b ∈ seen
    · rw [if_pos hmem] at ha
      exact List.mem_cons_of_mem _ (ih seen a ha)
    · rw [if_neg hmem] at ha
      rcases List.mem_cons.mp ha with ha | ha
      · exact ha ▸ List.mem_cons_self _ _
      · exact List.mem_cons_of_mem _ (ih _ a ha)

/-- Every key of the original list survives first-occurrence dedup. -/
theorem dedup_first_aux_key_mem {α β : Type} [DecidableEq β] (key : α → β) :
    ∀ (l : List α) (seen : List β), ∀ a ∈ l, key a ∉ seen →
      key a ∈ (dedup_first_aux key l seen).map key := by
  intro l
  induction l with
  | nil => intro seen a ha; simp at ha
  | cons b t ih =>
    intro seen a ha hk
    unfold dedup_first_aux
    by_cases hmem : key b ∈ seen
    · rw [if_pos hmem]
      rcases List.mem_cons.mp ha with ha | ha
      · exact absurd (ha ▸ hk) (by simpa using hmem)
      · exact ih seen a ha hk
    · rw [if_neg hmem]
      rcases List.mem_cons.mp ha with ha | ha
      · subst ha
        exact List.mem_cons_self _ _
      · by_cases hab : key a = key b
        · rw [List.map_cons, hab]
          exact List.mem_cons_self _ _
        · refine List.mem_cons_of_mem _ (ih _ a ha ?_)
          simp only [List.mem_cons]
          push_neg
          exact ⟨hab, hk⟩

/-- Structure of the isolate staging loop: it appends the isolates whose
sample id is not among the existing ones, in order; nothing else changes. -/
theorem isolate_insert_loop_struct (existing : List Cell) :
    ∀ (isos : List Isolate) (s : Store) (added : Nat),
      ∃ N,
        (isolate_insert_loop existing isos s added).1 =
          { s with isolates := s.isolates ++ N } ∧
        (isolate_insert_loop existing isos s added).2 = added + N.length ∧
        (∀ n ∈ N, n ∈ isos ∧ n.sample_id ∉ existing) ∧
        N.Sublist isos ∧
        (∀ i ∈ isos, i.sample_id ∈ existing ∨ i ∈ N) := by
  intro isos
  induction isos with
  | nil =>
    intro s added
    exact ⟨[], by simp [isolate_insert_loop], by simp [isolate_insert_loop],
      by simp, List.nil_sublist _, by simp⟩
  | cons i rest ih =>
    intro s added
    unfold isolate_insert_loop
    by_cases hmem : i.sample_id ∈ existing
    · rw [if_pos hmem]
      obtain ⟨N, h1, h2, h3, h4, h5⟩ := ih s added
      refine ⟨N, h1, h2,
        fun n hn => ⟨List.mem_cons_of_mem _ (h3 n hn).1, (h3 n hn).2⟩,
        h4.cons i, ?_⟩
      intro j hj
      rcases List.mem_cons.mp hj with hj | hj
      · exact Or.inl (hj ▸ hmem)
      · exact h5 j hj
    · rw [if_neg hmem]
      obtain ⟨N, h1, h2, h3, h4, h5⟩ :=
        ih { s with isolates := s.isolates ++ [i] } (added + 1)
      refine ⟨i :: N, by rw [h1]; simp, by rw [h2]; simp [Nat.add_comm,
        Nat.add_assoc, Nat.add_left_comm], ?_, h4.cons₂ i, ?_⟩
      · intro n hn
        rcases List.mem_cons.mp hn with hn | hn
        · exact ⟨hn ▸ List.mem_cons_self _ _, hn ▸ hmem⟩
        · exact ⟨List.mem_cons_of_mem _ (h3 n hn).1, (h3 n hn).2⟩
      · intro j hj
        rcases List.mem_cons.mp hj with hj | hj
        · exact Or.inr (hj ▸ List.mem_cons_self _ _)
        · rcases h5 j hj with h | h
          · exact Or.inl h
          · exact Or.inr (List.mem_cons_of_mem _ h)

/-- Structure of the aliquot staging loop: it appends the aliquots whose key
triple is new (relative to the existing set and the batch seen set), reports
the rest, and nothing else changes. -/
theorem aliquot_insert_loop_struct (existing : List (Cell × Cell × Cell)) :
    ∀ (als : List Aliquot) (s : Store) (seen : List (Cell × Cell × Cell))
      (added : Nat) (dups : List String),
      (∀ k ∈ seen, ∃ b ∈ s.aliquots, b.key = k) →
      (∀ k ∈ existing, ∃ b ∈ s.aliquots, b.key = k) →
      ∃ M,
        (aliquot_insert_loop existing als s seen added dups).1 =
          { s with aliquots := s.aliquots ++ M } ∧
        (aliquot_insert_loop existing als s seen added dups).2.1 =
          added + M.length ∧
        (∀ a ∈ als, ∃ b ∈
          (aliquot_insert_loop existing als s seen added dups).1.aliquots,
          b.key = a.key) := by
  intro als
  induction als with
  | nil =>
    intro s seen added dups hseen hex
    exact ⟨[], by simp [aliquot_insert_loop], by simp [aliquot_insert_loop],
      by simp⟩
  | cons a rest ih =>
    intro s seen added dups hseen hex
    unfold aliquot_insert_loop
    by_cases hmem : a.key ∈ existing ∨ a.key ∈ seen
    · rw [if_pos hmem]
      obtain ⟨M, h1, h2, h3⟩ := ih s seen added (dups ++ [aliquot_dup_msg a])
        hseen hex
      refine ⟨M, h1, h2, ?_⟩
      intro a' ha'
      rcases List.mem_cons.mp ha' with ha' | ha'
      · subst ha'
        rcases hmem with hmem | hmem
        · obtain ⟨b, hb, hbk⟩ := hex _ hmem
          exact ⟨b, by rw [h1]; exact List.mem_append_left _ hb, hbk⟩
        · obtain ⟨b, hb, hbk⟩ := hseen _ hmem
          exact ⟨b, by rw [h1]; exact List.mem_append_left _ hb, hbk⟩
      · exact h3 a' ha'
    · rw [if_neg hmem]
      have hseen2 : ∀ k ∈ (a.key :: seen),
          ∃ b ∈ ({ s with aliquots := s.aliquots ++ [a] } : Store).aliquots,
            b.key = k := by
        intro k hk
        rcases List.mem_cons.mp hk with hk | hk
        · exact ⟨a, by simp, hk.symm ▸ rfl⟩
        · obtain ⟨b, hb, hbk⟩ := hseen k hk
          exact ⟨b, List.mem_append_left _ hb, hbk⟩
      have hex2 : ∀ k ∈ existing,
          ∃ b ∈ ({ s with aliquots := s.aliquots ++ [a] } : Store).aliquots,
            b.key = k := by
        intro k hk
        obtain ⟨b, hb, hbk⟩ := hex k hk
        exact ⟨b, List.mem_append_left _ hb, hbk⟩
      obtain ⟨M, h1, h2, h3⟩ :=
        ih { s with aliquots := s.aliquots ++ [a] } (a.key :: seen)
          (added + 1) dups hseen2 hex2
      refine ⟨a :: M, by rw [h1]; simp, by rw [h2]; simp [Nat.add_comm,
        Nat.add_assoc, Nat.add_left_comm], ?_⟩
      intro a' ha'
      rcases List.mem_cons.mp ha' with ha' | ha'
      · subst ha'
        exact ⟨a', by rw [h1]; exact List.mem_append_left _ (by simp), rfl⟩
      · exact h3 a' ha'

end MarcDb

namespace MarcDb

/-- A staged isolate carries its row's sample id. -/
theorem mk_isolate_sample_id (pd : Cell → Cell) (r : Row) :
    (mk_isolate pd r).sample_id = r.get "SampleID" := rfl

/-- The sample ids of the staged isolates are the deduplicated row keys. -/
theorem isolates_of_map_sid (pd : Cell → Cell) (df : DataFrame) :
    (isolates_of pd df).map Isolate.sample_id =
      (isolate_rows df).map (fun r => r.get "SampleID") := by
  unfold isolates_of
  rw [List.map_map]
  rfl

/-- Structure of a successful `_ingest_isolates` run: the store gains only
isolates (with pairwise-distinct sample ids, none clashing with a stored
isolate) and aliquots; every batch row's sample id and aliquot key triple is
covered afterwards; all other tables are untouched. -/
theorem ingest_isolates_struct (pd : Cell → Cell) (df : DataFrame)
    (store s' : Store) (rep : IsolateReport)
    (hrun : ingest_isolates pd df store = .ok (s', rep)) :
    s'.isolates = store.isolates ++ s'.isolates.drop store.isolates.length ∧
    ((s'.isolates.drop store.isolates.length).map Isolate.sample_id).Nodup ∧
    (∀ n ∈ s'.isolates.drop store.isolates.length,
      ∀ i0 ∈ store.isolates, ¬ i0.sample_id = n.sample_id) ∧
    (∀ r ∈ df.rows, ∃ i ∈ s'.isolates, i.sample_id = r.get "SampleID") ∧
    (∀ r ∈ df.rows, ∃ b ∈ s'.aliquots, b.key = (mk_aliquot r).key) ∧
    s'.assemblies = store.assemblies ∧
    s'.assembly_qcs = store.assembly_qcs ∧
    s'.taxonomic_assignments = store.taxonomic_assignments ∧
    s'.contaminants = store.contaminants ∧
    s'.antimicrobials = store.antimicrobials ∧
    s'.nextAssemblyId = store.nextAssemblyId ∧
    rep.added = (s'.isolates.drop store.isolates.length).length := by
  unfold ingest_isolates at hrun
  by_cases hmiss : required_isolate_cols.filter (fun c => ¬ df.hasCol c) ≠ []
  · rw [if_pos hmiss] at hrun
    exact absurd hrun (by simp)
  · rw [if_neg hmiss] at hrun
    cases hfi : find_inconsistent df with
    | some sid =>
      simp only [hfi] at hrun
      exact absurd hrun (by simp)
    | none =>
      simp only [hfi] at hrun
      rcases hloop1 : isolate_insert_loop (existing_isolate_sids pd df store)
          (isolates_of pd df) store 0 with ⟨s1, added1⟩
      simp only [hloop1] at hrun
      rcases hloop2 : aliquot_insert_loop (existing_aliquot_keys pd df s1)
          (batch_aliquots df) s1 [] 0
          ((existing_isolate_sids pd df store).map cellStr) with
        ⟨s2, al2, dups2⟩
      simp only [hloop2] at hrun
      simp only [Except.ok.injEq, Prod.mk.injEq] at hrun
      obtain ⟨rfl, rfl⟩ := hrun
      obtain ⟨N, hN1, hN2, hN3, hN4, hN5⟩ :=
        isolate_insert_loop_struct (existing_isolate_sids pd df store)
          (isolates_of pd df) store 0
      rw [hloop1] at hN1 hN2
      have hs1 : s1 = { store with isolates := store.isolates ++ N } := hN1
      have hadded1 : added1 = 0 + N.length := hN2
      have hexw : ∀ k ∈ existing_isolate_sids pd df store,
          ∃ i0 ∈ store.isolates, i0.sample_id = k := by
        intro k hk
        obtain ⟨i0, hi0, hik⟩ := List.mem_map.mp hk
        exact ⟨i0, (List.mem_filter.mp hi0).1, hik⟩
      have hexal : ∀ k ∈ existing_aliquot_keys pd df s1,
          ∃ b ∈ s1.aliquots, b.key = k := by
        intro k hk
        obtain ⟨b, hb, hbk⟩ := List.mem_map.mp hk
        exact ⟨b, (List.mem_filter.mp hb).1, hbk⟩
      obtain ⟨M, hM1, hM2, hM3⟩ :=
        aliquot_insert_loop_struct (existing_aliquot_keys pd df s1)
          (batch_aliquots df) s1 [] 0
          ((existing_isolate_sids pd df store).map cellStr)
          (by simp) hexal
      rw [hloop2] at hM1 hM2 hM3
      have hs2 : s2 = { s1 with aliquots := s1.aliquots ++ M } := hM1
      have hs2iso : s2.isolates = store.isolates ++ N := by
        rw [hs2, hs1]
      have hdropN : s2.isolates.drop store.isolates.length = N := by
        rw [hs2iso]
        exact List.drop_left _ _
      rw [hdropN]
      refine ⟨by rw [hs2iso], ?_, ?_, ?_, ?_, by rw [hs2, hs1],
        by rw [hs2, hs1], by rw [hs2, hs1], by rw [hs2, hs1],
        by rw [hs2, hs1], by rw [hs2, hs1], by rw [hadded1]; simp⟩
      · have hnodup : ((isolates_of pd df).map Isolate.sample_id).Nodup := by
          rw [isolates_of_map_sid]
          exact dedup_first_map_nodup _ _
        exact hnodup.sublist (hN4.map Isolate.sample_id)
      · intro n hn i0 hi0 heq
        refine (hN3 n hn).2 ?_
        refine List.mem_map.mpr ⟨i0, ?_, heq⟩
        refine List.mem_filter.mpr ⟨hi0, ?_⟩
        simp only [heq, decide_eq_true_eq, batch_sample_ids]
        exact List.mem_map.mpr ⟨n, (hN3 n hn).1, rfl⟩
      · intro r hr
        have hsid : r.get "SampleID" ∈
            (isolates_of pd df).map Isolate.sample_id := by
          rw [isolates_of_map_sid]
          exact dedup_first_aux_key_mem _ df.rows [] r hr (by simp)
        obtain ⟨iso, hiso, hisok⟩ := List.mem_map.mp hsid
        rcases hN5 iso hiso with hex | hmemN
        · obtain ⟨i0, hi0, hik⟩ := hexw _ hex
          exact ⟨i0, by rw [hs2iso]; exact List.mem_append_left _ hi0,
            by rw [hik, hisok]⟩
        · exact ⟨iso, by rw [hs2iso]; exact List.mem_append_right _ hmemN,
            hisok⟩
      · intro r hr
        obtain ⟨b, hb, hbk⟩ := hM3 (mk_aliquot r)
          (List.mem_map.mpr ⟨r, hr, rfl⟩)
        exact ⟨b, hb, hbk⟩

end MarcDb

namespace MarcDb

/-! ### C5: isolate conflict handling -/

/-- Claim C5 (amended): only *in-batch* isolate conflicts are fatal — when
two batch rows share a sample id and disagree on a non-key column, the whole
run aborts with the consistency error naming an offending sample id (the one
`find_inconsistent` locates, which always names a genuinely inconsistent
group, and no conflicting batch passes silently); rows that agree on all
non-key fields are collapsed to one representative per sample id; and a
batch row whose sample id matches a record already committed in the store is
silently skipped regardless of differing values — the stored record is never
overwritten and no error is raised (see the counterexample). -/
theorem c5_isolate_conflicts (pd : Cell → Cell) :
    (∀ (p : IngestParams) (df : DataFrame) (store : Store) (sid : String),
      p.isolates = some df →
      required_isolate_cols.filter (fun c => ¬ df.hasCol c) = [] →
      find_inconsistent df = some sid →
      ingest_from_tsvs pd p store =
        .error (.inconsistentIsolate sid) store) ∧
    (∀ (df : DataFrame) (sid : String), find_inconsistent df = some sid →
      ∃ rows, (sid, rows) ∈ group_by (fun r => r.get "SampleID") df.rows ∧
        2 ≤ rows.length ∧ group_inconsistent rows = true) ∧
    (∀ df : DataFrame,
      (∃ g ∈ group_by (fun r => r.get "SampleID") df.rows,
        2 ≤ g.2.length ∧ group_inconsistent g.2 = true) →
      (find_inconsistent df).isSome = true) ∧
    (∀ (df : DataFrame) (store s' : Store) (rep : IsolateReport),
      ingest_isolates pd df store = .ok (s', rep) →
      s'.isolates =
        store.isolates ++ s'.isolates.drop store.isolates.length ∧
      ((s'.isolates.drop store.isolates.length).map Isolate.sample_id).Nodup ∧
      (∀ n ∈ s'.isolates.drop store.isolates.length,
        ∀ i0 ∈ store.isolates, ¬ i0.sample_id = n.sample_id)) := by
  refine ⟨?_, ?_, ?_, ?_⟩
  · intro p df store sid hdf hcols hfi
    have herr : ingest_isolates pd df store =
        .error (.inconsistentIsolate sid) := by
      unfold ingest_isolates
      rw [if_neg (show ¬ (required_isolate_cols.filter
        (fun c => ¬ df.hasCol c) ≠ []) from fun h => h hcols), hfi]
    simp [ingest_from_tsvs, stage_all, stage_isolates, hdf, herr]
  · intro df sid hfi
    unfold find_inconsistent at hfi
    obtain ⟨g, hg, hfst⟩ := Option.map_eq_some'.mp hfi
    have hmem := List.mem_of_find?_eq_some hg
    have hp := List.find?_some hg
    rw [Bool.and_eq_true, decide_eq_true_eq] at hp
    refine ⟨g.2, ?_, hp.1, hp.2⟩
    rw [← hfst]
    exact hmem
  · intro df ⟨g, hg, hlen, hinc⟩
    have : ((group_by (fun r => r.get "SampleID") df.rows).find?
        (fun g => 2 ≤ g.2.length && group_inconsistent g.2)).isSome := by
      rw [List.find?_isSome]
      refine ⟨g, hg, ?_⟩
      rw [Bool.and_eq_true, decide_eq_true_eq]
      exact ⟨hlen, hinc⟩
    simpa [find_inconsistent] using this
  · intro df store s' rep hrun
    obtain ⟨h1, h2, h3, _⟩ := ingest_isolates_struct pd df store s' rep hrun
    exact ⟨h1, h2, h3⟩

/-- Witness for C5 at concrete inputs: the two-row batch for `s2` with
differing `Subject ID` aborts the whole run naming `s2` with the store
untouched, and its offending group is detected. -/
theorem c5_isolate_conflicts_witness :
    ingest_from_tsvs id { base_params with isolates := some c5_batch_df }
        one_assembly_store =
      .error (.inconsistentIsolate "s2") one_assembly_store ∧
    (find_inconsistent c5_batch_df).isSome = true :=
  ⟨(c5_isolate_conflicts id).1 _ c5_batch_df one_assembly_store "s2" rfl
      (by decide) (by decide),
    (c5_isolate_conflicts id).2.2.1 c5_batch_df
      ⟨("s2", [iso_row "s2" "1" "T1", iso_row "s2" "2" "T2"]), by decide,
        by decide, by decide⟩⟩

/-- Counterexample for C5 as stated: a batch row for `s1` whose `Subject ID`
(2) differs from the stored isolate's (1) raises no error — the run commits,
the isolates table is unchanged (the stored value wins silently), and only
the new aliquot is added. -/
theorem c5_counterexample :
    (iso_row "s1" "2" "T9").get "Subject ID" = some "2" ∧
    (sample_isolate "s1").subject_id = some "1" ∧
    (ingest_from_tsvs id c5_params one_assembly_store).isError = false ∧
    (ingest_from_tsvs id c5_params one_assembly_store).store.isolates =
      one_assembly_store.isolates := by
  decide

end MarcDb

namespace MarcDb

/-! ### Structural lemmas for the assembly stage -/

/-- Dict read after a write to the same key. -/
theorem lookup_find_insert (l : Lookup) (s : String) (a : Assembly) :
    lookup_find (lookup_insert l s a) s = some a := by
  simp [lookup_find, lookup_insert, List.find?]

/-- Dict read after a write to a different key. -/
theorem lookup_find_insert_ne (l : Lookup) (s s' : String) (a : Assembly)
    (h : s' ≠ s) : lookup_find (lookup_insert l s a) s' = lookup_find l s' := by
  simp only [lookup_find, lookup_insert, List.find?]
  rw [decide_eq_false (fun hx => h hx.symm)]

/-- The group keys are pairwise distinct and disjoint from the seen set. -/
theorem group_keys_nodup (key : Row → Cell) :
    ∀ (l : List Row) (seen : List String),
      (group_keys key l seen).Nodup ∧
      ∀ s ∈ group_keys key l seen, s ∉ seen := by
  intro l
  induction l with
  | nil => intro seen; exact ⟨List.nodup_nil, by simp [group_keys]⟩
  | cons r t ih =>
    intro seen
    cases hk : key r with
    | none => simpa only [group_keys, hk] using ih seen
    | some s =>
      simp only [group_keys, hk]
      by_cases hmem : s ∈ seen
      · rw [if_pos hmem]
        exact ih seen
      · rw [if_neg hmem]
        obtain ⟨hnd, hs⟩ := ih (s :: seen)
        constructor
        · refine List.nodup_cons.mpr ⟨?_, hnd⟩
          intro hin
          exact hs s hin (List.mem_cons_self _ _)
        · intro s' hs'
          rcases List.mem_cons.mp hs' with hs' | hs'
          · exact hs' ▸ hmem
          · exact fun h => hs s' hs' (List.mem_cons_of_mem _ h)

/-- The first components of `group_by` are exactly the group keys. -/
theorem group_by_map_fst (key : Row → Cell) (rows : List Row) :
    (group_by key rows).map Prod.fst = group_keys key rows [] := by
  unfold group_by
  rw [List.map_map]
  have h : (Prod.fst ∘ fun s => (s, rows.filter (fun r => key r = some s))) =
      id := by
    funext s
    rfl
  rw [h, List.map_id]

/-- The embedded taxonomy loop only appends records attached to the group's
assembly. -/
theorem embedded_tax_loop_frame (aid : Nat) :
    ∀ (rows : List Row) (s : Store) (seen : List (List Cell))
      (dups : List String),
      ∃ T,
        (embedded_tax_loop aid rows s seen dups).1 =
          { s with taxonomic_assignments := s.taxonomic_assignments ++ T } ∧
        ∀ t ∈ T, t.assembly_id = aid := by
  intro rows
  induction rows with
  | nil =>
    intro s seen dups
    exact ⟨[], by simp [embedded_tax_loop], by simp⟩
  | cons r rest ih =>
    intro s seen dups
    unfold embedded_tax_loop
    by_cases hmem : embedded_tax_tuple r ∈ seen
    · rw [if_pos hmem]
      exact ih s seen _
    · rw [if_neg hmem]
      by_cases hnull : (embedded_tax_tuple r).all (fun v => v.isNone) = true
      · rw [if_pos hnull]
        exact ih s seen dups
      · rw [if_neg hnull]
        obtain ⟨T, hT, hall⟩ :=
          ih { s with taxonomic_assignments :=
              s.taxonomic_assignments ++ [mk_embedded_tax aid r] }
            (embedded_tax_tuple r :: seen) dups
        refine ⟨mk_embedded_tax aid r :: T, by rw [hT]; simp, ?_⟩
        intro t ht
        rcases List.mem_cons.mp ht with ht | ht
        · exact ht ▸ rfl
        · exact hall t ht

/-- An `existing_keys` hit is a stored assembly carrying the key. -/
theorem existing_assembly_for_mem (assemblies : List Assembly)
    (sample_ids : List Cell) (k : Cell × String) (a : Assembly)
    (h : existing_assembly_for assemblies sample_ids k = some a) :
    a ∈ assemblies ∧ a.key = k := by
  unfold existing_assembly_for at h
  have hx : a ∈ ((assemblies.filter
      (fun a => a.isolate_id ∈ sample_ids)).filter
      (fun a => a.key = k)).getLast? := Option.mem_def.mpr h
  obtain ⟨hne, heq⟩ := List.mem_getLast?_eq_getLast hx
  have hmem := heq ▸ List.getLast_mem hne
  have h1 := List.mem_filter.mp hmem
  have h2 := List.mem_filter.mp h1.1
  exact ⟨h2.1, by simpa using h1.2⟩

end MarcDb

namespace MarcDb

/-! ### Structure of the assembly group loop (towards C10 and C2) -/

/-- The staged assembly receives exactly the id passed to it (the value the
flush assigns from the autoincrement counter). -/
theorem staged_assembly_id (p : AssemblyParams) (rop : Cell) (n : Nat)
    (g : String × List Row) : (staged_assembly p rop n g).id = n := rfl

/-- The embedded-QC step only appends QC records attached to the given id. -/
theorem embedded_qc_step_frame (df : DataFrame) (iq : Bool) (aid : Nat)
    (first : Row) (s : Store) (dups : List String) :
    ∃ Q d,
      embedded_qc_step df iq aid first s dups =
        ({ s with assembly_qcs := s.assembly_qcs ++ Q }, d) ∧
      ∀ q ∈ Q, q.assembly_id = aid := by
  unfold embedded_qc_step
  by_cases h1 : (iq && qc_cols.any (fun c => df.hasCol c)) = true
  · rw [if_pos h1]
    by_cases h2 :
        ((s.assembly_qcs.find? (fun q => q.assembly_id = aid)).isSome) = true
    · rw [if_pos h2]
      exact ⟨[], dups ++ ["assembly_qc " ++ toString aid], by simp, by simp⟩
    · rw [if_neg h2]
      exact ⟨[mk_qc aid first], dups, rfl, by simp [mk_qc]⟩
  · rw [if_neg h1]
    exact ⟨[], dups, by simp, by simp⟩

/-- The embedded-taxonomy step only appends records attached to the given
id. -/
theorem embedded_tax_step_frame (df : DataFrame) (it : Bool) (aid : Nat)
    (rows : List Row) (s : Store) (dups : List String) :
    ∃ T d,
      embedded_tax_step df it aid rows s dups =
        ({ s with taxonomic_assignments := s.taxonomic_assignments ++ T },
          d) ∧
      ∀ t ∈ T, t.assembly_id = aid := by
  unfold embedded_tax_step
  by_cases h1 : (it && tax7_cols.any (fun c => df.hasCol c)) = true
  · rw [if_pos h1]
    obtain ⟨T, hT, hall⟩ := embedded_tax_loop_frame aid rows s [] dups
    refine ⟨T, (embedded_tax_loop aid rows s [] dups).2, ?_, hall⟩
    rw [← hT]
  · rw [if_neg h1]
    exact ⟨[], dups, by simp, by simp⟩

/-- The embedded-AMR step only appends records attached to the given id. -/
theorem embedded_amr_step_frame (df : DataFrame) (ia : Bool) (aid : Nat)
    (rows : List Row) (s : Store) (dups : List String) :
    ∃ M d,
      embedded_amr_step df ia aid rows s dups =
        ({ s with antimicrobials := s.antimicrobials ++ M }, d) ∧
      ∀ m ∈ M, m.assembly_id = aid := by
  unfold embedded_amr_step
  by_cases h1 : (ia && gene_cols.any (fun c => df.hasCol c)) = true
  · rw [if_pos h1]
    obtain ⟨M, hM, hall⟩ := embedded_amr_loop_no_all_null aid rows s [] dups
    refine ⟨M, (embedded_amr_loop aid rows s [] dups).2, ?_,
      fun m hm => (hall m hm).1⟩
    rw [← hM]
  · rw [if_neg h1]
    exact ⟨[], dups, by simp, by simp⟩

/-- The full shape of the state staged for a fresh assembly group: the
assembly itself with the next generated id, plus embedded QC/taxonomy/AMR
records all tagged with that id, plus the new lookup binding. -/
theorem new_assembly_state_struct (df : DataFrame) (p : AssemblyParams)
    (rop : Cell) (iq it ia : Bool) (st : AsmState) (g : String × List Row) :
    ∃ Q T M,
      (new_assembly_state df p rop iq it ia st g).store =
        { st.store with
          assemblies := st.store.assemblies ++
            [staged_assembly p rop st.store.nextAssemblyId g],
          assembly_qcs := st.store.assembly_qcs ++ Q,
          taxonomic_assignments := st.store.taxonomic_assignments ++ T,
          antimicrobials := st.store.antimicrobials ++ M,
          nextAssemblyId := st.store.nextAssemblyId + 1 } ∧
      (∀ q ∈ Q, q.assembly_id = st.store.nextAssemblyId) ∧
      (∀ t ∈ T, t.assembly_id = st.store.nextAssemblyId) ∧
      (∀ m ∈ M, m.assembly_id = st.store.nextAssemblyId) ∧
      (new_assembly_state df p rop iq it ia st g).lookup =
        lookup_insert st.lookup g.1
          (staged_assembly p rop st.store.nextAssemblyId g) ∧
      (new_assembly_state df p rop iq it ia st g).added = st.added + 1 := by
  obtain ⟨Q, d2, hq, hQ⟩ := embedded_qc_step_frame df iq
    st.store.nextAssemblyId g.2.headI
    { st.store with
      assemblies := st.store.assemblies ++
        [staged_assembly p rop st.store.nextAssemblyId g],
      nextAssemblyId := st.store.nextAssemblyId + 1 } st.duplicates
  obtain ⟨T, d3, ht, hT⟩ := embedded_tax_step_frame df it
    st.store.nextAssemblyId g.2
    { st.store with
      assemblies := st.store.assemblies ++
        [staged_assembly p rop st.store.nextAssemblyId g],
      assembly_qcs := st.store.assembly_qcs ++ Q,
      nextAssemblyId := st.store.nextAssemblyId + 1 } d2
  obtain ⟨M, d4, ha, hM⟩ := embedded_amr_step_frame df ia
    st.store.nextAssemblyId g.2
    { st.store with
      assemblies := st.store.assemblies ++
        [staged_assembly p rop st.store.nextAssemblyId g],
      assembly_qcs := st.store.assembly_qcs ++ Q,
      taxonomic_assignments := st.store.taxonomic_assignments ++ T,
      nextAssemblyId := st.store.nextAssemblyId + 1 } d3
  refine ⟨Q, T, M, ?_, hQ, hT, hM, ?_, ?_⟩ <;>
    simp only [new_assembly_state, hq, ht, ha]

/-- A group whose key is already persisted is reported as a duplicate, its
stored assembly is bound in the lookup, and the store is left untouched. -/
theorem assembly_group_step_dup (df : DataFrame) (p : AssemblyParams)
    (rop : Cell) (existing : Cell × String → Option Assembly)
    (iq it ia : Bool) (st : AsmState) (g : String × List Row) (asm : Assembly)
    (hex : existing (group_key p.run_number g) = some asm) :
    assembly_group_step df p rop existing iq it ia st g =
      { st with
        duplicates := st.duplicates ++
          [assembly_dup_msg g.1 (group_key p.run_number g).2],
        lookup := lookup_insert st.lookup g.1 asm } := by
  simp only [assembly_group_step, hex]

/-- One assembly-group step is append-only on the store: isolates, aliquots
and contaminants are untouched, the autoincrement counter is monotone, every
appended assembly/QC/taxonomy/AMR record carries an id at or above the
incoming counter, and the lookup gains exactly one binding for the group's
sample id. -/
theorem assembly_group_step_struct (df : DataFrame) (p : AssemblyParams)
    (rop : Cell) (existing : Cell × String → Option Assembly)
    (iq it ia : Bool) (st st' : AsmState) (g : String × List Row)
    (h : assembly_group_step df p rop existing iq it ia st g = st') :
    st'.store.isolates = st.store.isolates ∧
    st'.store.aliquots = st.store.aliquots ∧
    st'.store.contaminants = st.store.contaminants ∧
    st.store.nextAssemblyId ≤ st'.store.nextAssemblyId ∧
    (∃ A, st'.store.assemblies = st.store.assemblies ++ A ∧
      ∀ a ∈ A, st.store.nextAssemblyId ≤ a.id) ∧
    (∃ Q, st'.store.assembly_qcs = st.store.assembly_qcs ++ Q ∧
      ∀ q ∈ Q, st.store.nextAssemblyId ≤ q.assembly_id) ∧
    (∃ T, st'.store.taxonomic_assignments =
        st.store.taxonomic_assignments ++ T ∧
      ∀ t ∈ T, st.store.nextAssemblyId ≤ t.assembly_id) ∧
    (∃ M, st'.store.antimicrobials = st.store.antimicrobials ++ M ∧
      ∀ m ∈ M, st.store.nextAssemblyId ≤ m.assembly_id) ∧
    (∃ b, st'.lookup = lookup_insert st.lookup g.1 b) := by
  unfold assembly_group_step at h
  cases hex : existing (group_key p.run_number g) with
  | some asm =>
    simp only [hex] at h
    subst h
    exact ⟨rfl, rfl, rfl, le_refl _, ⟨[], by simp, by simp⟩,
      ⟨[], by simp, by simp⟩, ⟨[], by simp, by simp⟩, ⟨[], by simp, by simp⟩,
      ⟨asm, rfl⟩⟩
  | none =>
    simp only [hex] at h
    obtain ⟨Q, T, M, hstore, hQ, hT, hM, hlk, _⟩ :=
      new_assembly_state_struct df p rop iq it ia st g
    subst h
    rw [hstore]
    refine ⟨rfl, rfl, rfl, Nat.le_succ _,
      ⟨[staged_assembly p rop st.store.nextAssemblyId g], rfl, ?_⟩,
      ⟨Q, rfl, fun q hq => (hQ q hq).ge⟩,
      ⟨T, rfl, fun t ht => (hT t ht).ge⟩,
      ⟨M, rfl, fun m hm => (hM m hm).ge⟩,
      ⟨staged_assembly p rop st.store.nextAssemblyId g, hlk⟩⟩
    intro a ha
    rw [List.mem_singleton.mp ha, staged_assembly_id]

/-- The assembly group fold is append-only across all groups: the
isolate/aliquot/contaminant tables are untouched, every appended record
carries an id at or above the incoming counter, and the lookup binding of a
sample id carried by none of the groups is unchanged. -/
theorem assembly_fold_struct (df : DataFrame) (p : AssemblyParams)
    (rop : Cell) (existing : Cell × String → Option Assembly)
    (iq it ia : Bool) :
    ∀ (gs : List (String × List Row)) (st fin : AsmState),
      gs.foldl (assembly_group_step df p rop existing iq it ia) st = fin →
      fin.store.isolates = st.store.isolates ∧
      fin.store.aliquots = st.store.aliquots ∧
      fin.store.contaminants = st.store.contaminants ∧
      st.store.nextAssemblyId ≤ fin.store.nextAssemblyId ∧
      (∃ A, fin.store.assemblies = st.store.assemblies ++ A ∧
        ∀ a ∈ A, st.store.nextAssemblyId ≤ a.id) ∧
      (∃ Q, fin.store.assembly_qcs = st.store.assembly_qcs ++ Q ∧
        ∀ q ∈ Q, st.store.nextAssemblyId ≤ q.assembly_id) ∧
      (∃ T, fin.store.taxonomic_assignments =
          st.store.taxonomic_assignments ++ T ∧
        ∀ t ∈ T, st.store.nextAssemblyId ≤ t.assembly_id) ∧
      (∃ M, fin.store.antimicrobials = st.store.antimicrobials ++ M ∧
        ∀ m ∈ M, st.store.nextAssemblyId ≤ m.assembly_id) ∧
      (∀ s, (∀ g ∈ gs, g.1 ≠ s) →
        lookup_find fin.lookup s = lookup_find st.lookup s) := by
  intro gs
  induction gs with
  | nil =>
    intro st fin h
    rw [List.foldl_nil] at h
    subst h
    exact ⟨rfl, rfl, rfl, le_refl _, ⟨[], by simp, by simp⟩,
      ⟨[], by simp, by simp⟩, ⟨[], by simp, by simp⟩, ⟨[], by simp, by simp⟩,
      fun s _ => rfl⟩
  | cons g gs ih =>
    intro st fin h
    rw [List.foldl_cons] at h
    obtain ⟨hi1, ha1, hc1, hn1, ⟨A1, hA1, hA1id⟩, ⟨Q1, hQ1, hQ1id⟩,
      ⟨T1, hT1, hT1id⟩, ⟨M1, hM1, hM1id⟩, ⟨b, hb⟩⟩ :=
      assembly_group_step_struct df p rop existing iq it ia st
        (assembly_group_step df p rop existing iq it ia st g) g rfl
    obtain ⟨hi2, ha2, hc2, hn2, ⟨A2, hA2, hA2id⟩, ⟨Q2, hQ2, hQ2id⟩,
      ⟨T2, hT2, hT2id⟩, ⟨M2, hM2, hM2id⟩, hlk2⟩ := ih _ fin h
    refine ⟨hi2.trans hi1, ha2.trans ha1, hc2.trans hc1, hn1.trans hn2,
      ⟨A1 ++ A2, by rw [hA2, hA1, List.append_assoc], ?_⟩,
      ⟨Q1 ++ Q2, by rw [hQ2, hQ1, List.append_assoc], ?_⟩,
      ⟨T1 ++ T2, by rw [hT2, hT1, List.append_assoc], ?_⟩,
      ⟨M1 ++ M2, by rw [hM2, hM1, List.append_assoc], ?_⟩, ?_⟩
    · intro a ha
      rcases List.mem_append.mp ha with ha | ha
      · exact hA1id a ha
      · exact hn1.trans (hA2id a ha)
    · intro q hq
      rcases List.mem_append.mp hq with hq | hq
      · exact hQ1id q hq
      · exact hn1.trans (hQ2id q hq)
    · intro t ht
      rcases List.mem_append.mp ht with ht | ht
      · exact hT1id t ht
      · exact hn1.trans (hT2id t ht)
    · intro m hm
      rcases List.mem_append.mp hm with hm | hm
      · exact hM1id m hm
      · exact hn1.trans (hM2id m hm)
    · intro s hs
      rw [hlk2 s (fun g' hg' => hs g' (List.mem_cons_of_mem _ hg')), hb,
        lookup_find_insert_ne _ _ _ _
          (fun hss => hs g (List.mem_cons_self _ _) hss.symm)]

/-- A dependent-file row with no explicit assembly id whose sample id is
bound in the per-run lookup resolves to the looked-up assembly, whatever the
store holds. -/
theorem lookup_assembly_id_hit (r : Row) (lookup : Lookup) (store : Store)
    (sc : String) (rn : Cell) (sid : String) (asm : Assembly)
    (hna : ¬ r.has "assembly_id") (hhas : r.has sc)
    (hget : r.get sc = some sid) (hfind : lookup_find lookup sid = some asm) :
    lookup_assembly_id r lookup store (some sc) rn = .ok (some asm.id) := by
  unfold lookup_assembly_id
  rw [if_neg hna]
  simp only [hget, hfind]
  rw [if_pos hhas]

/-- Folding the assembly loop over groups none of which carries the sample
id `s` leaves the lookup binding of `s` unchanged. -/
theorem assembly_fold_lookup_preserve (df : DataFrame) (p : AssemblyParams)
    (rop : Cell) (existing : Cell × String → Option Assembly)
    (iq it ia : Bool) (gs : List (String × List Row)) (st : AsmState)
    (s : String) (h : ∀ g ∈ gs, g.1 ≠ s) :
    lookup_find
      (gs.foldl (assembly_group_step df p rop existing iq it ia) st).lookup
      s = lookup_find st.lookup s :=
  (assembly_fold_struct df p rop existing iq it ia gs st _
    rfl).2.2.2.2.2.2.2.2 s h

/-- Claim C10: when an assembly-file row group's `(isolate_id, run_number)`
key already matches an assembly persisted in the store, that stored assembly
is bound to the group's sample id in the per-run lookup — so dependent rows
from separately supplied QC/taxonomy/contaminant/AMR files still resolve to
it — while every QC, taxonomy and AMR value embedded in the assembly file is
skipped for that assembly: the run adds no record carrying its assembly id
to any dependent table, even when those values are not yet in the store. -/
theorem c10_duplicate_group_lookup_and_skip
    (df0 : DataFrame) (p : AssemblyParams) (iq it ia : Bool)
    (store s' : Store) (rep : SectionReport) (lookup : Lookup)
    (hWf : store.Wf)
    (hrun : ingest_assemblies df0 p iq it ia store = .ok (s', rep, lookup))
    (sc : String)
    (hsc : parse_sample_column (rename_columns df0) = some sc)
    (g : String × List Row)
    (hg : g ∈ group_by (fun r => r.get sc) (rename_columns df0).rows)
    (asm : Assembly)
    (hex : existing_assembly_for store.assemblies
      (dedup_first id ((rename_columns df0).rows.map (fun r => r.get sc)))
      (group_key p.run_number g) = some asm) :
    lookup_find lookup g.1 = some asm ∧
    (∀ (r : Row) (rn : Cell) (s2 : Store),
      ¬ r.has "assembly_id" → r.has sc → r.get sc = some g.1 →
      lookup_assembly_id r lookup s2 (some sc) rn = .ok (some asm.id)) ∧
    s'.assembly_qcs.filter (fun q => q.assembly_id = asm.id) =
      store.assembly_qcs.filter (fun q => q.assembly_id = asm.id) ∧
    s'.taxonomic_assignments.filter (fun t => t.assembly_id = asm.id) =
      store.taxonomic_assignments.filter (fun t => t.assembly_id = asm.id) ∧
    s'.antimicrobials.filter (fun m => m.assembly_id = asm.id) =
      store.antimicrobials.filter (fun m => m.assembly_id = asm.id) := by
  simp only [ingest_assemblies, hsc] at hrun
  simp only [Except.ok.injEq, Prod.mk.injEq] at hrun
  obtain ⟨hs', hrep, hlkp⟩ := hrun
  have hlt : asm.id < store.nextAssemblyId :=
    hWf asm (existing_assembly_for_mem _ _ _ _ hex).1
  obtain ⟨-, -, -, -, -, ⟨Q, hQ, hQid⟩, ⟨T, hT, hTid⟩, ⟨M, hM, hMid⟩, -⟩ :=
    assembly_fold_struct (rename_columns df0) p
      (derive_sunbeam_output_path p.config_file p.sunbeam_output_path)
      (fun k => existing_assembly_for store.assemblies
        (dedup_first id ((rename_columns df0).rows.map (fun r => r.get sc)))
        k)
      iq it ia
      (group_by (fun r => r.get sc) (rename_columns df0).rows)
      { store := store, added := 0, duplicates := [], lookup := [] } _ rfl
  obtain ⟨l₁, l₂, hsplit⟩ := List.append_of_mem hg
  have hnd : ((group_by (fun r => r.get sc)
      (rename_columns df0).rows).map Prod.fst).Nodup := by
    rw [group_by_map_fst]
    exact (group_keys_nodup _ _ _).1
  have hl₂ : ∀ g' ∈ l₂, g'.1 ≠ g.1 := by
    rw [hsplit, List.map_append, List.map_cons] at hnd
    have h2 := hnd.of_append_right
    have h3 := (List.nodup_cons.mp h2).1
    intro g' hg' he
    exact h3 (he ▸ List.mem_map_of_mem Prod.fst hg')
  rw [hsplit, List.foldl_append, List.foldl_cons] at hlkp
  have hdup := fun st => assembly_group_step_dup (rename_columns df0) p
    (derive_sunbeam_output_path p.config_file p.sunbeam_output_path)
    (fun k => existing_assembly_for store.assemblies
      (dedup_first id ((rename_columns df0).rows.map (fun r => r.get sc)))
      k)
    iq it ia st g asm hex
  rw [hdup] at hlkp
  have hfound : lookup_find lookup g.1 = some asm := by
    rw [← hlkp,
      assembly_fold_lookup_preserve _ _ _ _ _ _ _ l₂ _ g.1 hl₂]
    exact lookup_find_insert _ _ _
  refine ⟨hfound, ?_, ?_, ?_, ?_⟩
  · intro r rn s2 hna hhas hget
    exact lookup_assembly_id_hit r lookup s2 sc rn g.1 asm hna hhas hget
      hfound
  · rw [← hs', hQ, List.filter_append]
    have hfQ : Q.filter (fun q => q.assembly_id = asm.id) = [] := by
      rw [List.filter_eq_nil_iff]
      intro q hq
      have h2 : store.nextAssemblyId ≤ q.assembly_id := hQid q hq
      simp only [decide_eq_true_eq]
      omega
    rw [hfQ, List.append_nil]
  · rw [← hs', hT, List.filter_append]
    have hfT : T.filter (fun t => t.assembly_id = asm.id) = [] := by
      rw [List.filter_eq_nil_iff]
      intro t ht
      have h2 : store.nextAssemblyId ≤ t.assembly_id := hTid t ht
      simp only [decide_eq_true_eq]
      omega
    rw [hfT, List.append_nil]
  · rw [← hs', hM, List.filter_append]
    have hfM : M.filter (fun m => m.assembly_id = asm.id) = [] := by
      rw [List.filter_eq_nil_iff]
      intro m hm
      have h2 : store.nextAssemblyId ≤ m.assembly_id := hMid m hm
      simp only [decide_eq_true_eq]
      omega
    rw [hfM, List.append_nil]

/-- Concrete instantiation of C10: the `s1` group of `c10_df` matches the
persisted `(s1, run 1)` assembly; the run reports it duplicate, binds it in
the per-run lookup, and stages none of the embedded QC/taxonomy/AMR values,
although the store holds none of them yet. -/
theorem c10_duplicate_group_lookup_and_skip_witness :
    c10_store.Wf ∧
    ingest_assemblies c10_df base_params.assemblyParams true true true
        c10_store =
      .ok (c10_store, { added := 0, duplicates := ["assembly s1 run 1"] },
        [("s1", sample_assembly 1 "s1" (some "1"))]) ∧
    parse_sample_column (rename_columns c10_df) = some "SampleID" ∧
    ("s1", [(⟨[("SampleID", some "s1"), ("run_number", some "1"),
        ("contig_count", some "7"),
        ("taxonomic_classification", some "E.coli"),
        ("contig_id", some "c7")]⟩ : Row)]) ∈
      group_by (fun r => r.get "SampleID") (rename_columns c10_df).rows ∧
    existing_assembly_for c10_store.assemblies
      (dedup_first id
        ((rename_columns c10_df).rows.map (fun r => r.get "SampleID")))
      (group_key base_params.assemblyParams.run_number
        ("s1", [(⟨[("SampleID", some "s1"), ("run_number", some "1"),
          ("contig_count", some "7"),
          ("taxonomic_classification", some "E.coli"),
          ("contig_id", some "c7")]⟩ : Row)])) =
      some (sample_assembly 1 "s1" (some "1")) ∧
    lookup_find [("s1", sample_assembly 1 "s1" (some "1"))] "s1" =
      some (sample_assembly 1 "s1" (some "1")) :=
  ⟨by decide, by decide, by decide, by decide, by decide,
    (c10_duplicate_group_lookup_and_skip c10_df base_params.assemblyParams
      true true true c10_store c10_store
      { added := 0, duplicates := ["assembly s1 run 1"] }
      [("s1", sample_assembly 1 "s1" (some "1"))]
      (by decide) (by decide) "SampleID" (by decide)
      ("s1", [(⟨[("SampleID", some "s1"), ("run_number", some "1"),
        ("contig_count", some "7"),
        ("taxonomic_classification", some "E.coli"),
        ("contig_id", some "c7")]⟩ : Row)]) (by decide)
      (sample_assembly 1 "s1" (some "1")) (by decide)).1⟩

/-! ### Second-run saturation lemmas (towards C2) -/

/-- Assembly resolution depends on the lookup only through `lookup_find` and
on the store only through its assemblies. -/
theorem lookup_assembly_id_congr2 (r : Row) (l₁ l₂ : Lookup)
    (sc : Option String) (rn : Cell) {s t : Store}
    (hl : ∀ x, lookup_find l₁ x = lookup_find l₂ x)
    (h : s.assemblies = t.assemblies) :
    lookup_assembly_id r l₁ s sc rn = lookup_assembly_id r l₂ t sc rn := by
  unfold lookup_assembly_id
  rw [h]
  simp only [hl]

/-- When every staged isolate's sample id is already stored, the isolate
loop inserts nothing. -/
theorem isolate_insert_loop_sat (existing : List Cell) :
    ∀ (isos : List Isolate) (s : Store) (added : Nat),
      (∀ i ∈ isos, i.sample_id ∈ existing) →
      isolate_insert_loop existing isos s added = (s, added) := by
  intro isos
  induction isos with
  | nil => intro s added _; rfl
  | cons i rest ih =>
    intro s added h
    unfold isolate_insert_loop
    rw [if_pos (h i (List.mem_cons_self _ _))]
    exact ih s added (fun j hj => h j (List.mem_cons_of_mem _ hj))

/-- When every batch aliquot's key triple is already stored, the aliquot
loop inserts nothing. -/
theorem aliquot_insert_loop_sat (existing : List (Cell × Cell × Cell)) :
    ∀ (als : List Aliquot) (s : Store) (seen : List (Cell × Cell × Cell))
      (added : Nat) (dups : List String),
      (∀ a ∈ als, a.key ∈ existing) →
      ∃ ds, aliquot_insert_loop existing als s seen added dups =
        (s, added, ds) := by
  intro als
  induction als with
  | nil => intro s seen added dups _; exact ⟨dups, rfl⟩
  | cons a rest ih =>
    intro s seen added dups h
    unfold aliquot_insert_loop
    rw [if_pos (Or.inl (h a (List.mem_cons_self _ _)))]
    exact ih s seen added _ (fun j hj => h j (List.mem_cons_of_mem _ hj))

/-- A saturated isolate batch — well-formed, consistent, every sample id and
aliquot key already stored — stages nothing and reports zero additions. -/
theorem ingest_isolates_sat (pd : Cell → Cell) (df : DataFrame)
    (store : Store)
    (hmiss : required_isolate_cols.filter (fun c => ¬ df.hasCol c) = [])
    (hcons : find_inconsistent df = none)
    (hiso : ∀ i ∈ isolates_of pd df,
      i.sample_id ∈ existing_isolate_sids pd df store)
    (hal : ∀ a ∈ batch_aliquots df,
      a.key ∈ existing_aliquot_keys pd df store) :
    ∃ ds, ingest_isolates pd df store =
      .ok (store,
        { added := 0, aliquots_added := 0, duplicates := ds }) := by
  obtain ⟨ds, hds⟩ := aliquot_insert_loop_sat
    (existing_aliquot_keys pd df store) (batch_aliquots df) store [] 0
    ((existing_isolate_sids pd df store).map cellStr) hal
  refine ⟨ds, ?_⟩
  unfold ingest_isolates
  rw [if_neg (fun hne => hne hmiss)]
  simp only [hcons, isolate_insert_loop_sat _ _ _ _ hiso, hds]

/-- `find?` stays successful when the list grows on the right. -/
theorem find?_isSome_append {α : Type} (p : α → Bool) (l L : List α)
    (h : (l.find? p).isSome) : ((l ++ L).find? p).isSome := by
  rw [List.find?_isSome] at h ⊢
  obtain ⟨x, hx, hp⟩ := h
  exact ⟨x, List.mem_append_left _ hx, hp⟩

/-- The QC row loop only appends QC records. -/
theorem qc_row_loop_frame (lookup : Lookup) (sc : Option String)
    (rn : Cell) :
    ∀ (rows : List Row) (s s' : Store) (added n : Nat)
      (dups ds : List String),
      qc_row_loop lookup sc rn rows s added dups = .ok (s', n, ds) →
      ∃ L, s' = { s with assembly_qcs := s.assembly_qcs ++ L } := by
  intro rows
  induction rows with
  | nil =>
    intro s s' added n dups ds h
    simp only [qc_row_loop, Except.ok.injEq, Prod.mk.injEq] at h
    exact ⟨[], by rw [← h.1]; simp⟩
  | cons r rest ih =>
    intro s s' added n dups ds h
    unfold qc_row_loop at h
    cases hres : lookup_assembly_id r lookup s sc rn with
    | error e =>
      simp only [hres] at h
      exact Except.noConfusion h
    | ok res =>
      cases res with
      | none =>
        simp only [hres] at h
        exact ih s s' added n _ ds h
      | some aid =>
        simp only [hres] at h
        by_cases hdup :
            ((s.assembly_qcs.find? (fun q => q.assembly_id = aid)).isSome) =
              true
        · rw [if_pos hdup] at h
          exact ih s s' added n _ ds h
        · rw [if_neg hdup] at h
          obtain ⟨L, hL⟩ := ih _ s' _ n dups ds h
          exact ⟨mk_qc aid r :: L, by rw [hL]; simp⟩

/-- A QC batch in which every row either fails to resolve or resolves to an
assembly that already has a QC record stages nothing. -/
theorem qc_row_loop_sat (lookup : Lookup) (sc : Option String) (rn : Cell) :
    ∀ (rows : List Row) (s : Store) (added : Nat) (dups : List String),
      (∀ r ∈ rows,
        lookup_assembly_id r lookup s sc rn = .ok none ∨
        ∃ aid, lookup_assembly_id r lookup s sc rn = .ok (some aid) ∧
          (s.assembly_qcs.find? (fun q => q.assembly_id = aid)).isSome) →
      ∃ ds, qc_row_loop lookup sc rn rows s added dups =
        .ok (s, added, ds) := by
  intro rows
  induction rows with
  | nil => intro s added dups _; exact ⟨dups, rfl⟩
  | cons r rest ih =>
    intro s added dups h
    unfold qc_row_loop
    rcases h r (List.mem_cons_self _ _) with hres | ⟨aid, hres, hfind⟩
    · simp only [hres]
      exact ih s added _ (fun j hj => h j (List.mem_cons_of_mem _ hj))
    · simp only [hres]
      rw [if_pos hfind]
      exact ih s added _ (fun j hj => h j (List.mem_cons_of_mem _ hj))

/-- Every row a successful QC loop processed either fails to resolve against
the final state or resolves to an assembly carrying a QC record there. -/
theorem qc_row_loop_post (lookup : Lookup) (sc : Option String) (rn : Cell) :
    ∀ (rows : List Row) (s s' : Store) (added n : Nat)
      (dups ds : List String),
      qc_row_loop lookup sc rn rows s added dups = .ok (s', n, ds) →
      ∀ r ∈ rows,
        lookup_assembly_id r lookup s' sc rn = .ok none ∨
        ∃ aid, lookup_assembly_id r lookup s' sc rn = .ok (some aid) ∧
          (s'.assembly_qcs.find? (fun q => q.assembly_id = aid)).isSome := by
  intro rows
  induction rows with
  | nil => intro s s' added n dups ds h r hr; cases hr
  | cons r rest ih =>
    intro s s' added n dups ds h r' hr'
    unfold qc_row_loop at h
    cases hres : lookup_assembly_id r lookup s sc rn with
    | error e =>
      simp only [hres] at h
      exact Except.noConfusion h
    | ok res =>
      cases res with
      | none =>
        simp only [hres] at h
        rcases List.mem_cons.mp hr' with rfl | hr'
        · obtain ⟨L, hL⟩ := qc_row_loop_frame lookup sc rn rest s s' added n
            _ ds h
          left
          rw [← hres]
          exact lookup_assembly_id_congr r' lookup sc rn (by rw [hL])
        · exact ih s s' added n _ ds h r' hr'
      | some aid =>
        simp only [hres] at h
        by_cases hdup :
            ((s.assembly_qcs.find? (fun q => q.assembly_id = aid)).isSome) =
              true
        · rw [if_pos hdup] at h
          rcases List.mem_cons.mp hr' with rfl | hr'
          · obtain ⟨L, hL⟩ := qc_row_loop_frame lookup sc rn rest s s' added
              n _ ds h
            right
            refine ⟨aid, ?_, ?_⟩
            · rw [← hres]
              exact lookup_assembly_id_congr r' lookup sc rn (by rw [hL])
            · rw [hL]
              exact find?_isSome_append _ _ _ hdup
          · exact ih s s' added n _ ds h r' hr'
        · rw [if_neg hdup] at h
          rcases List.mem_cons.mp hr' with rfl | hr'
          · obtain ⟨L, hL⟩ := qc_row_loop_frame lookup sc rn rest _ s' _ n
              dups ds h
            right
            refine ⟨aid, ?_, ?_⟩
            · rw [← hres]
              exact lookup_assembly_id_congr r' lookup sc rn (by rw [hL])
            · rw [hL]
              rw [List.find?_isSome]
              exact ⟨mk_qc aid r', by simp, by simp [mk_qc]⟩
          · exact ih _ s' _ n dups ds h r' hr'

/-- The head of the standalone taxonomy tuple is the classification cell. -/
theorem tax_tuple_headI (r : Row) :
    (tax_tuple r).headI = r.get "taxonomic_classification" := rfl

/-- The taxonomy row loop only appends taxonomic assignments. -/
theorem tax_row_loop_frame (lookup : Lookup) (sc : Option String)
    (rn : Cell) :
    ∀ (rows : List Row) (s s' : Store) (seen : List (Nat × List Cell))
      (added n : Nat) (dups ds : List String),
      tax_row_loop lookup sc rn rows s seen added dups = .ok (s', n, ds) →
      ∃ L, s' = { s with taxonomic_assignments :=
        s.taxonomic_assignments ++ L } := by
  intro rows
  induction rows with
  | nil =>
    intro s s' seen added n dups ds h
    simp only [tax_row_loop, Except.ok.injEq, Prod.mk.injEq] at h
    exact ⟨[], by rw [← h.1]; simp⟩
  | cons r rest ih =>
    intro s s' seen added n dups ds h
    unfold tax_row_loop at h
    cases hres : lookup_assembly_id r lookup s sc rn with
    | error e =>
      simp only [hres] at h
      exact Except.noConfusion h
    | ok res =>
      cases res with
      | none =>
        simp only [hres] at h
        exact ih s s' seen added n _ ds h
      | some aid =>
        simp only [hres] at h
        by_cases hseen : ((aid, tax_tuple r) ∈ seen)
        · rw [if_pos hseen] at h
          exact ih s s' seen added n _ ds h
        · rw [if_neg hseen] at h
          by_cases hdup : ((s.taxonomic_assignments.find? (fun t =>
              t.assembly_id == aid && t.taxonomic_classification ==
                r.get "taxonomic_classification")).isSome) = true
          · rw [if_pos hdup] at h
            exact ih s s' seen added n _ ds h
          · rw [if_neg hdup] at h
            obtain ⟨L, hL⟩ := ih _ s' _ _ n dups ds h
            exact ⟨mk_tax aid r :: L, by rw [hL]; simp⟩

/-- A taxonomy batch in which every row either fails to resolve or resolves
to an assembly whose classification is already recorded stages nothing. -/
theorem tax_row_loop_sat (lookup : Lookup) (sc : Option String) (rn : Cell) :
    ∀ (rows : List Row) (s : Store) (seen : List (Nat × List Cell))
      (added : Nat) (dups : List String),
      (∀ r ∈ rows,
        lookup_assembly_id r lookup s sc rn = .ok none ∨
        ∃ aid, lookup_assembly_id r lookup s sc rn = .ok (some aid) ∧
          (s.taxonomic_assignments.find? (fun t =>
            t.assembly_id == aid && t.taxonomic_classification ==
              r.get "taxonomic_classification")).isSome) →
      ∃ ds, tax_row_loop lookup sc rn rows s seen added dups =
        .ok (s, added, ds) := by
  intro rows
  induction rows with
  | nil => intro s seen added dups _; exact ⟨dups, rfl⟩
  | cons r rest ih =>
    intro s seen added dups h
    unfold tax_row_loop
    rcases h r (List.mem_cons_self _ _) with hres | ⟨aid, hres, hfind⟩
    · simp only [hres]
      exact ih s seen added _ (fun j hj => h j (List.mem_cons_of_mem _ hj))
    · simp only [hres]
      by_cases hseen : ((aid, tax_tuple r) ∈ seen)
      · rw [if_pos hseen]
        exact ih s seen added _ (fun j hj => h j (List.mem_cons_of_mem _ hj))
      · rw [if_neg hseen, if_pos hfind]
        exact ih s seen added _ (fun j hj => h j (List.mem_cons_of_mem _ hj))

/-- Every row a successful taxonomy loop processed either fails to resolve
against the final state or resolves to an assembly whose classification is
recorded there. -/
theorem tax_row_loop_post (lookup : Lookup) (sc : Option String)
    (rn : Cell) :
    ∀ (rows : List Row) (s s' : Store) (seen : List (Nat × List Cell))
      (added n : Nat) (dups ds : List String),
      (∀ pr ∈ seen, ∃ t ∈ s.taxonomic_assignments,
        t.assembly_id = pr.1 ∧ t.taxonomic_classification = pr.2.headI) →
      tax_row_loop lookup sc rn rows s seen added dups = .ok (s', n, ds) →
      ∀ r ∈ rows,
        lookup_assembly_id r lookup s' sc rn = .ok none ∨
        ∃ aid, lookup_assembly_id r lookup s' sc rn = .ok (some aid) ∧
          (s'.taxonomic_assignments.find? (fun t =>
            t.assembly_id == aid && t.taxonomic_classification ==
              r.get "taxonomic_classification")).isSome := by
  intro rows
  induction rows with
  | nil => intro s s' seen added n dups ds _ h r hr; cases hr
  | cons r rest ih =>
    intro s s' seen added n dups ds hinv h r' hr'
    unfold tax_row_loop at h
    cases hres : lookup_assembly_id r lookup s sc rn with
    | error e =>
      simp only [hres] at h
      exact Except.noConfusion h
    | ok res =>
      cases res with
      | none =>
        simp only [hres] at h
        rcases List.mem_cons.mp hr' with rfl | hr'
        · obtain ⟨L, hL⟩ := tax_row_loop_frame lookup sc rn rest s s' seen
            added n _ ds h
          left
          rw [← hres]
          exact lookup_assembly_id_congr r' lookup sc rn (by rw [hL])
        · exact ih s s' seen added n _ ds hinv h r' hr'
      | some aid =>
        simp only [hres] at h
        by_cases hseen : ((aid, tax_tuple r) ∈ seen)
        · rw [if_pos hseen] at h
          rcases List.mem_cons.mp hr' with rfl | hr'
          · obtain ⟨L, hL⟩ := tax_row_loop_frame lookup sc rn rest s s' seen
              added n _ ds h
            obtain ⟨t, ht, ht1, ht2⟩ := hinv _ hseen
            right
            refine ⟨aid, ?_, ?_⟩
            · rw [← hres]
              exact lookup_assembly_id_congr r' lookup sc rn (by rw [hL])
            · rw [hL, List.find?_isSome]
              refine ⟨t, List.mem_append_left _ ht, ?_⟩
              rw [tax_tuple_headI] at ht2
              simp [ht1, ht2]
          · exact ih s s' seen added n _ ds hinv h r' hr'
        · rw [if_neg hseen] at h
          by_cases hdup : ((s.taxonomic_assignments.find? (fun t =>
              t.assembly_id == aid && t.taxonomic_classification ==
                r.get "taxonomic_classification")).isSome) = true
          · rw [if_pos hdup] at h
            rcases List.mem_cons.mp hr' with rfl | hr'
            · obtain ⟨L, hL⟩ := tax_row_loop_frame lookup sc rn rest s s'
                seen added n _ ds h
              right
              refine ⟨aid, ?_, ?_⟩
              · rw [← hres]
                exact lookup_assembly_id_congr r' lookup sc rn (by rw [hL])
              · rw [hL]
                exact find?_isSome_append _ _ _ hdup
            · exact ih s s' seen added n _ ds hinv h r' hr'
          · rw [if_neg hdup] at h
            have hinv2 : ∀ pr ∈ ((aid, tax_tuple r) :: seen),
                ∃ t ∈ ({ s with taxonomic_assignments :=
                    s.taxonomic_assignments ++ [mk_tax aid r] } :
                  Store).taxonomic_assignments,
                  t.assembly_id = pr.1 ∧
                    t.taxonomic_classification = pr.2.headI := by
              intro pr hpr
              rcases List.mem_cons.mp hpr with rfl | hpr
              · exact ⟨mk_tax aid r, by simp, rfl, by rw [tax_tuple_headI]; rfl⟩
              · obtain ⟨t, ht, ht1, ht2⟩ := hinv pr hpr
                exact ⟨t, List.mem_append_left _ ht, ht1, ht2⟩
            rcases List.mem_cons.mp hr' with rfl | hr'
            · obtain ⟨L, hL⟩ := tax_row_loop_frame lookup sc rn rest _ s' _
                _ n dups ds h
              right
              refine ⟨aid, ?_, ?_⟩
              · rw [← hres]
                exact lookup_assembly_id_congr r' lookup sc rn (by rw [hL])
              · rw [hL, List.find?_isSome]
                exact ⟨mk_tax aid r', by simp, by simp [mk_tax]⟩
            · exact ih _ s' _ _ n dups ds hinv2 h r' hr'

/-- `existing_keys` ignores appended assemblies whose key differs. -/
theorem existing_assembly_for_append (l L : List Assembly)
    (sids : List Cell) (k : Cell × String) (h : ∀ a ∈ L, a.key ≠ k) :
    existing_assembly_for (l ++ L) sids k =
      existing_assembly_for l sids k := by
  unfold existing_assembly_for
  rw [List.filter_append, List.filter_append]
  have h2 : ((L.filter (fun a => a.isolate_id ∈ sids)).filter
      (fun a => a.key = k)) = [] := by
    rw [List.filter_eq_nil_iff]
    intro a ha
    simp only [decide_eq_true_eq]
    exact h a (List.mem_filter.mp ha).1
  rw [h2, List.append_nil]

/-- `existing_keys` resolves to a just-appended assembly carrying the key. -/
theorem existing_assembly_for_append_hit (l : List Assembly)
    (asm : Assembly) (sids : List Cell) (k : Cell × String)
    (hk : asm.key = k) (hs : asm.isolate_id ∈ sids) :
    existing_assembly_for (l ++ [asm]) sids k = some asm := by
  unfold existing_assembly_for
  rw [List.filter_append]
  have h1 : List.filter (fun a => a.isolate_id ∈ sids) [asm] = [asm] := by
    simp [hs]
  rw [h1, List.filter_append]
  have h2 : List.filter (fun a => a.key = k) [asm] = [asm] := by
    simp [hk]
  rw [h2]
  exact List.getLast?_concat _

/-- The staged assembly of a group carries exactly the group's key. -/
theorem staged_assembly_key (p : AssemblyParams) (rop : Cell) (n : Nat)
    (g : String × List Row) :
    (staged_assembly p rop n g).key = group_key p.run_number g := rfl

/-- Distinct group sample ids give distinct group keys. -/
theorem group_key_ne (rn : Cell) (g g' : String × List Row)
    (h : g'.1 ≠ g.1) :
    group_key rn g' ≠ group_key rn g := by
  intro hk
  exact h (Option.some.inj (congrArg Prod.fst hk))

/-- Every group key comes from some row of the frame. -/
theorem group_keys_sub (key : Row → Cell) :
    ∀ (l : List Row) (seen : List String) (s : String),
      s ∈ group_keys key l seen → ∃ r ∈ l, key r = some s := by
  intro l
  induction l with
  | nil => intro seen s h; exact absurd h (by simp [group_keys])
  | cons r t ih =>
    intro seen s h
    unfold group_keys at h
    cases hk : key r with
    | none =>
      simp only [hk] at h
      obtain ⟨r', hr', hr'k⟩ := ih seen s h
      exact ⟨r', List.mem_cons_of_mem _ hr', hr'k⟩
    | some s' =>
      simp only [hk] at h
      by_cases hmem : s' ∈ seen
      · rw [if_pos hmem] at h
        obtain ⟨r', hr', hr'k⟩ := ih seen s h
        exact ⟨r', List.mem_cons_of_mem _ hr', hr'k⟩
      · rw [if_neg hmem] at h
        rcases List.mem_cons.mp h with rfl | h
        · exact ⟨r, List.mem_cons_self _ _, hk⟩
        · obtain ⟨r', hr', hr'k⟩ := ih _ s h
          exact ⟨r', List.mem_cons_of_mem _ hr', hr'k⟩

/-- Identity deduplication keeps every element of the list. -/
theorem dedup_first_id_mem {α : Type} [DecidableEq α] (l : List α) (x : α)
    (h : x ∈ l) : x ∈ dedup_first id l := by
  have h2 := dedup_first_aux_key_mem id l [] x h (by simp)
  rw [List.map_id] at h2
  exact h2

/-- The sample id of every assembly group occurs in the batch sample ids. -/
theorem group_sid_mem_sids (sc : String) (rows : List Row)
    (g : String × List Row)
    (hg : g ∈ group_by (fun r => r.get sc) rows) :
    (some g.1) ∈ dedup_first id (rows.map (fun r => r.get sc)) := by
  obtain ⟨s, hs, hsg⟩ := List.mem_map.mp hg
  obtain ⟨r, hr, hrk⟩ := group_keys_sub (fun r => r.get sc) rows [] s hs
  refine dedup_first_id_mem _ _ ?_
  have hg1 : g.1 = s := by rw [← hsg]
  rw [hg1, ← hrk]
  exact List.mem_map_of_mem _ hr

/-- When every group's key is already persisted, the assembly fold changes
neither the store nor the added count. -/
theorem assembly_fold_all_dup (df : DataFrame) (p : AssemblyParams)
    (rop : Cell) (existing : Cell × String → Option Assembly)
    (iq it ia : Bool) :
    ∀ (gs : List (String × List Row)) (st : AsmState),
      (∀ g ∈ gs, ∃ asm, existing (group_key p.run_number g) = some asm) →
      (gs.foldl (assembly_group_step df p rop existing iq it ia) st).store =
        st.store ∧
      (gs.foldl (assembly_group_step df p rop existing iq it ia) st).added =
        st.added := by
  intro gs
  induction gs with
  | nil => intro st _; exact ⟨rfl, rfl⟩
  | cons g rest ih =>
    intro st h
    obtain ⟨asm, hex⟩ := h g (List.mem_cons_self _ _)
    rw [List.foldl_cons,
      assembly_group_step_dup df p rop existing iq it ia st g asm hex]
    exact ih _ (fun j hj => h j (List.mem_cons_of_mem _ hj))

/-- The staged assembly of a group carries the group's sample id. -/
theorem staged_assembly_isolate_id (p : AssemblyParams) (rop : Cell)
    (n : Nat) (g : String × List Row) :
    (staged_assembly p rop n g).isolate_id = some g.1 := rfl

/-- Characterization of the assembly fold against the fixed `existing_keys`
snapshot `base`: every appended assembly carries the key of one processed
group, and afterwards each group's sample id is bound in the lookup to
exactly the assembly that an `existing_keys` dict rebuilt over the final
store yields for the group's key. -/
theorem assembly_fold_char (df : DataFrame) (p : AssemblyParams) (rop : Cell)
    (base : List Assembly) (sids : List Cell) (iq it ia : Bool) :
    ∀ (gs : List (String × List Row)) (st : AsmState),
      (gs.map Prod.fst).Nodup →
      (∀ g ∈ gs, (some g.1) ∈ sids) →
      (∃ A0, st.store.assemblies = base ++ A0 ∧
        ∀ a ∈ A0, ∀ g ∈ gs, a.key ≠ group_key p.run_number g) →
      (∃ A, (gs.foldl (assembly_group_step df p rop
          (fun k => existing_assembly_for base sids k) iq it ia)
          st).store.assemblies = st.store.assemblies ++ A ∧
        ∀ a ∈ A, ∃ g ∈ gs, a.key = group_key p.run_number g) ∧
      (∀ g ∈ gs, ∃ asm,
        lookup_find (gs.foldl (assembly_group_step df p rop
          (fun k => existing_assembly_for base sids k) iq it ia)
          st).lookup g.1 = some asm ∧
        existing_assembly_for (gs.foldl (assembly_group_step df p rop
          (fun k => existing_assembly_for base sids k) iq it ia)
          st).store.assemblies sids (group_key p.run_number g) =
          some asm) := by
  intro gs
  induction gs with
  | nil =>
    intro st _ _ _
    exact ⟨⟨[], by simp, by simp⟩, by simp⟩
  | cons g rest ih =>
    intro st hnd hsids hbase
    obtain ⟨A0, hA0, hA0k⟩ := hbase
    rw [List.map_cons, List.nodup_cons] at hnd
    obtain ⟨hg1, hnd'⟩ := hnd
    have hrestne : ∀ g' ∈ rest, g'.1 ≠ g.1 := by
      intro g' hg' he
      exact hg1 (he ▸ List.mem_map_of_mem Prod.fst hg')
    rw [List.foldl_cons]
    cases hex : existing_assembly_for base sids (group_key p.run_number g)
      with
    | some asm =>
      have hstep := assembly_group_step_dup df p rop
        (fun k => existing_assembly_for base sids k) iq it ia st g asm hex
      have hstore : (assembly_group_step df p rop
          (fun k => existing_assembly_for base sids k) iq it ia st g).store =
          st.store := by
        rw [hstep]
      have hlk : (assembly_group_step df p rop
          (fun k => existing_assembly_for base sids k) iq it ia st g).lookup =
          lookup_insert st.lookup g.1 asm := by
        rw [hstep]
      obtain ⟨⟨A, hA, hAk⟩, hchar⟩ := ih _ hnd'
        (fun g' hg' => hsids g' (List.mem_cons_of_mem _ hg'))
        ⟨A0, by rw [hstore, hA0],
          fun a ha g' hg' => hA0k a ha g' (List.mem_cons_of_mem _ hg')⟩
      rw [hstore] at hA
      refine ⟨⟨A, hA, ?_⟩, ?_⟩
      · intro a ha
        obtain ⟨g', hg', hk⟩ := hAk a ha
        exact ⟨g', List.mem_cons_of_mem _ hg', hk⟩
      · intro g' hg'
        rcases List.mem_cons.mp hg' with rfl | hg'
        · refine ⟨asm, ?_, ?_⟩
          · rw [assembly_fold_lookup_preserve _ _ _ _ _ _ _ rest _ g'.1
              hrestne, hlk]
            exact lookup_find_insert _ _ _
          · have hfin : (rest.foldl (assembly_group_step df p rop
                (fun k => existing_assembly_for base sids k) iq it ia)
                (assembly_group_step df p rop
                  (fun k => existing_assembly_for base sids k) iq it ia
                  st g')).store.assemblies = base ++ (A0 ++ A) := by
              rw [hA, hA0, List.append_assoc]
            rw [hfin, existing_assembly_for_append _ _ _ _ ?_]
            · exact hex
            · intro a ha
              rcases List.mem_append.mp ha with ha | ha
              · exact hA0k a ha g' (List.mem_cons_self _ _)
              · obtain ⟨g'', hg'', hk⟩ := hAk a ha
                rw [hk]
                exact group_key_ne _ _ _ (hrestne g'' hg'')
        · exact hchar g' hg'
    | none =>
      have hstep : assembly_group_step df p rop
          (fun k => existing_assembly_for base sids k) iq it ia st g =
          new_assembly_state df p rop iq it ia st g := by
        simp only [assembly_group_step, hex]
      obtain ⟨Q, T, M, hst, hQ, hT, hM, hlknew, hadd⟩ :=
        new_assembly_state_struct df p rop iq it ia st g
      have hasm : (assembly_group_step df p rop
          (fun k => existing_assembly_for base sids k) iq it ia
          st g).store.assemblies = st.store.assemblies ++
            [staged_assembly p rop st.store.nextAssemblyId g] := by
        rw [hstep, hst]
      have hlk : (assembly_group_step df p rop
          (fun k => existing_assembly_for base sids k) iq it ia
          st g).lookup = lookup_insert st.lookup g.1
            (staged_assembly p rop st.store.nextAssemblyId g) := by
        rw [hstep, hlknew]
      have hkeys2 : ∀ a ∈
          A0 ++ [staged_assembly p rop st.store.nextAssemblyId g],
          ∀ g' ∈ rest, a.key ≠ group_key p.run_number g' := by
        intro a ha g' hg'
        rcases List.mem_append.mp ha with ha | ha
        · exact hA0k a ha g' (List.mem_cons_of_mem _ hg')
        · rw [List.mem_singleton.mp ha, staged_assembly_key]
          exact group_key_ne _ _ _ (fun he => hrestne g' hg' he.symm)
      obtain ⟨⟨A, hA, hAk⟩, hchar⟩ := ih _ hnd'
        (fun g' hg' => hsids g' (List.mem_cons_of_mem _ hg'))
        ⟨A0 ++ [staged_assembly p rop st.store.nextAssemblyId g],
          by rw [hasm, hA0, List.append_assoc], hkeys2⟩
      rw [hasm] at hA
      refine ⟨⟨[staged_assembly p rop st.store.nextAssemblyId g] ++ A,
        by rw [hA, List.append_assoc], ?_⟩, ?_⟩
      · intro a ha
        rcases List.mem_append.mp ha with ha | ha
        · rw [List.mem_singleton.mp ha]
          exact ⟨g, List.mem_cons_self _ _, staged_assembly_key _ _ _ _⟩
        · obtain ⟨g', hg', hk⟩ := hAk a ha
          exact ⟨g', List.mem_cons_of_mem _ hg', hk⟩
      · intro g' hg'
        rcases List.mem_cons.mp hg' with rfl | hg'
        · refine ⟨staged_assembly p rop st.store.nextAssemblyId g',
            ?_, ?_⟩
          · rw [assembly_fold_lookup_preserve _ _ _ _ _ _ _ rest _ g'.1
              hrestne, hlk]
            exact lookup_find_insert _ _ _
          · have hfin : (rest.foldl (assembly_group_step df p rop
                (fun k => existing_assembly_for base sids k) iq it ia)
                (assembly_group_step df p rop
                  (fun k => existing_assembly_for base sids k) iq it ia
                  st g')).store.assemblies =
                (st.store.assemblies ++
                  [staged_assembly p rop st.store.nextAssemblyId g']) ++
                  A := by
              rw [hA]
            rw [hfin, existing_assembly_for_append _ _ _ _ ?_]
            · exact existing_assembly_for_append_hit _ _ _ _
                (staged_assembly_key _ _ _ _)
                (by
                  rw [staged_assembly_isolate_id]
                  exact hsids g' (List.mem_cons_self _ _))
            · intro a ha
              obtain ⟨g'', hg'', hk⟩ := hAk a ha
              rw [hk]
              exact group_key_ne _ _ _ (hrestne g'' hg'')
        · exact hchar g' hg'

/-- A successful isolate ingestion had no missing column and no
inconsistent group. -/
theorem ingest_isolates_ok_conditions (pd : Cell → Cell) (df : DataFrame)
    (store s' : Store) (rep : IsolateReport)
    (hrun : ingest_isolates pd df store = .ok (s', rep)) :
    required_isolate_cols.filter (fun c => ¬ df.hasCol c) = [] ∧
    find_inconsistent df = none := by
  unfold ingest_isolates at hrun
  by_cases hmiss : required_isolate_cols.filter (fun c => ¬ df.hasCol c) ≠ []
  · rw [if_pos hmiss] at hrun
    exact Except.noConfusion hrun
  · rw [if_neg hmiss] at hrun
    have hm : required_isolate_cols.filter (fun c => ¬ df.hasCol c) = [] := by
      rwa [ne_eq, not_not] at hmiss
    cases hfi : find_inconsistent df with
    | some sid =>
      simp only [hfi] at hrun
      exact Except.noConfusion hrun
    | none => exact ⟨hm, rfl⟩

/-- Every row's sample id occurs among the batch sample ids. -/
theorem row_sid_mem_batch (pd : Cell → Cell) (df : DataFrame) (r : Row)
    (hr : r ∈ df.rows) :
    r.get "SampleID" ∈ batch_sample_ids pd df := by
  rw [batch_sample_ids, isolates_of_map_sid]
  exact dedup_first_aux_key_mem (fun r => r.get "SampleID") df.rows [] r hr
    (by simp)

/-- Re-running a successful isolate batch against any store that holds the
first run's isolates and aliquots stages nothing. -/
theorem ingest_isolates_round2 (pd : Cell → Cell) (df : DataFrame)
    (store s' s2 : Store) (rep : IsolateReport)
    (hrun : ingest_isolates pd df store = .ok (s', rep))
    (hiso2 : s2.isolates = s'.isolates)
    (hal2 : s2.aliquots = s'.aliquots) :
    ∃ ds, ingest_isolates pd df s2 =
      .ok (s2, { added := 0, aliquots_added := 0, duplicates := ds }) := by
  obtain ⟨hmiss, hcons⟩ :=
    ingest_isolates_ok_conditions pd df store s' rep hrun
  obtain ⟨-, -, -, hcov, hcoval, -, -, -, -, -, -, -⟩ :=
    ingest_isolates_struct pd df store s' rep hrun
  refine ingest_isolates_sat pd df s2 hmiss hcons ?_ ?_
  · intro i hi
    obtain ⟨r, hr, hri⟩ := List.mem_map.mp hi
    have hr' : r ∈ dedup_first_aux (fun r => r.get "SampleID") df.rows [] :=
      hr
    have hrr : r ∈ df.rows :=
      dedup_first_aux_subset (fun r => r.get "SampleID") df.rows [] r hr'
    have hisid : i.sample_id = r.get "SampleID" := by
      rw [← hri, mk_isolate_sample_id]
    obtain ⟨i', hi', hi'sid⟩ := hcov r hrr
    unfold existing_isolate_sids
    rw [hisid, ← hi'sid]
    refine List.mem_map_of_mem _ ?_
    rw [List.mem_filter]
    refine ⟨by rw [hiso2]; exact hi', ?_⟩
    simp only [decide_eq_true_eq]
    rw [hi'sid]
    exact row_sid_mem_batch pd df r hrr
  · intro a ha
    obtain ⟨r, hr, hra⟩ := List.mem_map.mp ha
    obtain ⟨b, hb, hbk⟩ := hcoval r hr
    have hak : a.key = (mk_aliquot r).key := by rw [← hra]
    unfold existing_aliquot_keys
    rw [hak, ← hbk]
    refine List.mem_map_of_mem _ ?_
    rw [List.mem_filter]
    refine ⟨by rw [hal2]; exact hb, ?_⟩
    simp only [decide_eq_true_eq]
    have hfst : b.isolate_id = r.get "SampleID" := congrArg Prod.fst hbk
    rw [hfst]
    exact row_sid_mem_batch pd df r hr

/-- A successful assembly stage leaves isolates, aliquots and contaminants
untouched. -/
theorem ingest_assemblies_frame (df0 : DataFrame) (p : AssemblyParams)
    (iq it ia : Bool) (store s' : Store) (rep : SectionReport) (lk : Lookup)
    (hrun : ingest_assemblies df0 p iq it ia store = .ok (s', rep, lk)) :
    s'.isolates = store.isolates ∧ s'.aliquots = store.aliquots ∧
    s'.contaminants = store.contaminants := by
  unfold ingest_assemblies at hrun
  cases hsc : parse_sample_column (rename_columns df0) with
  | none =>
    simp only [hsc] at hrun
    exact Except.noConfusion hrun
  | some sc =>
    simp only [hsc] at hrun
    simp only [Except.ok.injEq, Prod.mk.injEq] at hrun
    obtain ⟨hs', -, -⟩ := hrun
    obtain ⟨h1, h2, h3, -, -, -, -, -, -⟩ :=
      assembly_fold_struct (rename_columns df0) p
        (derive_sunbeam_output_path p.config_file p.sunbeam_output_path)
        (fun k => existing_assembly_for store.assemblies
          (dedup_first id
            ((rename_columns df0).rows.map (fun r => r.get sc))) k)
        iq it ia
        (group_by (fun r => r.get sc) (rename_columns df0).rows)
        { store := store, added := 0, duplicates := [], lookup := [] } _ rfl
    rw [hs'] at h1 h2 h3
    exact ⟨h1, h2, h3⟩

/-- Run-one characterization of the assembly stage: every group's sample id
is bound in the returned lookup to the assembly that the `existing_keys`
dict rebuilt over the final assemblies yields for the group's key; sample
ids outside the batch stay unbound. -/
theorem ingest_assemblies_post (df0 : DataFrame) (p : AssemblyParams)
    (iq it ia : Bool) (store s' : Store) (rep : SectionReport) (lk : Lookup)
    (sc : String)
    (hsc : parse_sample_column (rename_columns df0) = some sc)
    (hrun : ingest_assemblies df0 p iq it ia store = .ok (s', rep, lk)) :
    (∀ g ∈ group_by (fun r => r.get sc) (rename_columns df0).rows,
      ∃ asm, lookup_find lk g.1 = some asm ∧
        existing_assembly_for s'.assemblies
          (dedup_first id
            ((rename_columns df0).rows.map (fun r => r.get sc)))
          (group_key p.run_number g) = some asm) ∧
    (∀ x, (∀ g ∈ group_by (fun r => r.get sc) (rename_columns df0).rows,
      g.1 ≠ x) → lookup_find lk x = none) := by
  simp only [ingest_assemblies, hsc] at hrun
  simp only [Except.ok.injEq, Prod.mk.injEq] at hrun
  obtain ⟨hs', hrep, hlkp⟩ := hrun
  have hnd : ((group_by (fun r => r.get sc)
      (rename_columns df0).rows).map Prod.fst).Nodup := by
    rw [group_by_map_fst]
    exact (group_keys_nodup _ _ _).1
  obtain ⟨-, hchar⟩ := assembly_fold_char (rename_columns df0) p
    (derive_sunbeam_output_path p.config_file p.sunbeam_output_path)
    store.assemblies
    (dedup_first id ((rename_columns df0).rows.map (fun r => r.get sc)))
    iq it ia
    (group_by (fun r => r.get sc) (rename_columns df0).rows)
    { store := store, added := 0, duplicates := [], lookup := [] }
    hnd
    (fun g hg => group_sid_mem_sids sc (rename_columns df0).rows g hg)
    ⟨[], by simp, by simp⟩
  constructor
  · intro g hg
    obtain ⟨asm, h1, h2⟩ := hchar g hg
    rw [hlkp] at h1
    rw [hs'] at h2
    exact ⟨asm, h1, h2⟩
  · intro x hx
    rw [← hlkp]
    exact assembly_fold_lookup_preserve _ _ _ _ _ _ _ _ _ x hx

/-- A saturated assembly batch — every group key already persisted — stages
nothing; each group's sample id is bound to a stored assembly matching its
key and other sample ids stay unbound. -/
theorem ingest_assemblies_sat (df0 : DataFrame) (p : AssemblyParams)
    (iq it ia : Bool) (store : Store) (sc : String)
    (hsc : parse_sample_column (rename_columns df0) = some sc)
    (hhit : ∀ g ∈ group_by (fun r => r.get sc) (rename_columns df0).rows,
      ∃ asm, existing_assembly_for store.assemblies
        (dedup_first id ((rename_columns df0).rows.map (fun r => r.get sc)))
        (group_key p.run_number g) = some asm) :
    ∃ ds lk, ingest_assemblies df0 p iq it ia store =
      .ok (store, { added := 0, duplicates := ds }, lk) ∧
      (∀ g ∈ group_by (fun r => r.get sc) (rename_columns df0).rows,
        ∃ asm, lookup_find lk g.1 = some asm ∧
          existing_assembly_for store.assemblies
            (dedup_first id
              ((rename_columns df0).rows.map (fun r => r.get sc)))
            (group_key p.run_number g) = some asm) ∧
      (∀ x, (∀ g ∈ group_by (fun r => r.get sc) (rename_columns df0).rows,
        g.1 ≠ x) → lookup_find lk x = none) := by
  have hnd : ((group_by (fun r => r.get sc)
      (rename_columns df0).rows).map Prod.fst).Nodup := by
    rw [group_by_map_fst]
    exact (group_keys_nodup _ _ _).1
  obtain ⟨hstore, hadded⟩ := assembly_fold_all_dup (rename_columns df0) p
    (derive_sunbeam_output_path p.config_file p.sunbeam_output_path)
    (fun k => existing_assembly_for store.assemblies
      (dedup_first id ((rename_columns df0).rows.map (fun r => r.get sc)))
      k)
    iq it ia
    (group_by (fun r => r.get sc) (rename_columns df0).rows)
    { store := store, added := 0, duplicates := [], lookup := [] } hhit
  obtain ⟨-, hchar⟩ := assembly_fold_char (rename_columns df0) p
    (derive_sunbeam_output_path p.config_file p.sunbeam_output_path)
    store.assemblies
    (dedup_first id ((rename_columns df0).rows.map (fun r => r.get sc)))
    iq it ia
    (group_by (fun r => r.get sc) (rename_columns df0).rows)
    { store := store, added := 0, duplicates := [], lookup := [] }
    hnd
    (fun g hg => group_sid_mem_sids sc (rename_columns df0).rows g hg)
    ⟨[], by simp, by simp⟩
  refine ⟨((group_by (fun r => r.get sc)
      (rename_columns df0).rows).foldl (assembly_group_step
        (rename_columns df0) p
        (derive_sunbeam_output_path p.config_file p.sunbeam_output_path)
        (fun k => existing_assembly_for store.assemblies
          (dedup_first id
            ((rename_columns df0).rows.map (fun r => r.get sc))) k)
        iq it ia)
      { store := store, added := 0, duplicates := [],
        lookup := [] }).duplicates,
    ((group_by (fun r => r.get sc)
      (rename_columns df0).rows).foldl (assembly_group_step
        (rename_columns df0) p
        (derive_sunbeam_output_path p.config_file p.sunbeam_output_path)
        (fun k => existing_assembly_for store.assemblies
          (dedup_first id
            ((rename_columns df0).rows.map (fun r => r.get sc))) k)
        iq it ia)
      { store := store, added := 0, duplicates := [],
        lookup := [] }).lookup, ?_, ?_, ?_⟩
  · simp only [ingest_assemblies, hsc]
    rw [hstore, hadded]
  · intro g hg
    obtain ⟨asm, h1, h2⟩ := hchar g hg
    rw [hstore] at h2
    exact ⟨asm, h1, h2⟩
  · intro x hx
    exact assembly_fold_lookup_preserve _ _ _ _ _ _ _ _ _ x hx

/-- Run-one postcondition of the QC stage: the store only gains QC records,
and every batch row either fails to resolve against the final state or
resolves to an assembly with a QC record there. -/
theorem ingest_qc_post (df0 : DataFrame) (lookup : Lookup) (rn : Cell)
    (store s' : Store) (rep : SectionReport)
    (hrun : ingest_qc_records df0 lookup rn store = .ok (s', rep)) :
    (∃ L, s' = { store with assembly_qcs := store.assembly_qcs ++ L }) ∧
    (∀ r ∈ (rename_columns df0).rows,
      lookup_assembly_id r lookup s'
        (if (rename_columns df0).hasCol "SampleID" then some "SampleID"
         else none) rn = .ok none ∨
      ∃ aid, lookup_assembly_id r lookup s'
          (if (rename_columns df0).hasCol "SampleID" then some "SampleID"
           else none) rn = .ok (some aid) ∧
        (s'.assembly_qcs.find? (fun q => q.assembly_id = aid)).isSome) := by
  unfold ingest_qc_records at hrun
  cases hloop : qc_row_loop lookup
      (if (rename_columns df0).hasCol "SampleID" then some "SampleID"
       else none) rn (rename_columns df0).rows store 0 [] with
  | error e =>
    simp only [hloop] at hrun
    exact Except.noConfusion hrun
  | ok t =>
    obtain ⟨s2, n, ds⟩ := t
    simp only [hloop, Except.ok.injEq, Prod.mk.injEq] at hrun
    obtain ⟨rfl, -⟩ := hrun
    exact ⟨qc_row_loop_frame lookup _ rn _ _ _ _ _ _ _ hloop,
      qc_row_loop_post lookup _ rn _ _ _ _ _ _ _ hloop⟩

/-- A saturated QC batch — every row unresolvable or already covered —
stages nothing. -/
theorem ingest_qc_sat (df0 : DataFrame) (lookup : Lookup) (rn : Cell)
    (store : Store)
    (h : ∀ r ∈ (rename_columns df0).rows,
      lookup_assembly_id r lookup store
        (if (rename_columns df0).hasCol "SampleID" then some "SampleID"
         else none) rn = .ok none ∨
      ∃ aid, lookup_assembly_id r lookup store
          (if (rename_columns df0).hasCol "SampleID" then some "SampleID"
           else none) rn = .ok (some aid) ∧
        (store.assembly_qcs.find? (fun q => q.assembly_id = aid)).isSome) :
    ∃ ds, ingest_qc_records df0 lookup rn store =
      .ok (store, { added := 0, duplicates := ds }) := by
  obtain ⟨ds, hds⟩ := qc_row_loop_sat lookup
    (if (rename_columns df0).hasCol "SampleID" then some "SampleID"
     else none) rn (rename_columns df0).rows store 0 [] h
  exact ⟨ds, by simp only [ingest_qc_records, hds]⟩

/-- Run-one postcondition of the taxonomy stage: the store only gains
taxonomic assignments, and every batch row either fails to resolve against
the final state or resolves to an assembly whose classification is
recorded there. -/
theorem ingest_tax_post (df0 : DataFrame) (lookup : Lookup) (rn : Cell)
    (store s' : Store) (rep : SectionReport)
    (hrun : ingest_taxonomic_assignments df0 lookup rn store =
      .ok (s', rep)) :
    (∃ L, s' = { store with taxonomic_assignments :=
      store.taxonomic_assignments ++ L }) ∧
    (∀ r ∈ (rename_columns df0).rows,
      lookup_assembly_id r lookup s'
        (if (rename_columns df0).hasCol "SampleID" then some "SampleID"
         else none) rn = .ok none ∨
      ∃ aid, lookup_assembly_id r lookup s'
          (if (rename_columns df0).hasCol "SampleID" then some "SampleID"
           else none) rn = .ok (some aid) ∧
        (s'.taxonomic_assignments.find? (fun t =>
          t.assembly_id == aid && t.taxonomic_classification ==
            r.get "taxonomic_classification")).isSome) := by
  unfold ingest_taxonomic_assignments at hrun
  cases hloop : tax_row_loop lookup
      (if (rename_columns df0).hasCol "SampleID" then some "SampleID"
       else none) rn (rename_columns df0).rows store [] 0 [] with
  | error e =>
    simp only [hloop] at hrun
    exact Except.noConfusion hrun
  | ok t =>
    obtain ⟨s2, n, ds⟩ := t
    simp only [hloop, Except.ok.injEq, Prod.mk.injEq] at hrun
    obtain ⟨rfl, -⟩ := hrun
    exact ⟨tax_row_loop_frame lookup _ rn _ _ _ _ _ _ _ _ hloop,
      tax_row_loop_post lookup _ rn _ _ _ _ _ _ _ _ (by simp) hloop⟩

/-- A saturated taxonomy batch — every row unresolvable or already
covered — stages nothing. -/
theorem ingest_tax_sat (df0 : DataFrame) (lookup : Lookup) (rn : Cell)
    (store : Store)
    (h : ∀ r ∈ (rename_columns df0).rows,
      lookup_assembly_id r lookup store
        (if (rename_columns df0).hasCol "SampleID" then some "SampleID"
         else none) rn = .ok none ∨
      ∃ aid, lookup_assembly_id r lookup store
          (if (rename_columns df0).hasCol "SampleID" then some "SampleID"
           else none) rn = .ok (some aid) ∧
        (store.taxonomic_assignments.find? (fun t =>
          t.assembly_id == aid && t.taxonomic_classification ==
            r.get "taxonomic_classification")).isSome) :
    ∃ ds, ingest_taxonomic_assignments df0 lookup rn store =
      .ok (store, { added := 0, duplicates := ds }) := by
  obtain ⟨ds, hds⟩ := tax_row_loop_sat lookup
    (if (rename_columns df0).hasCol "SampleID" then some "SampleID"
     else none) rn (rename_columns df0).rows store [] 0 [] h
  exact ⟨ds, by simp only [ingest_taxonomic_assignments, hds]⟩

/-- Re-running the isolate stage of a committed run stages nothing. -/
theorem stage_isolates_round2 (pd : Cell → Cell) (p : IngestParams)
    (store₀ sI s₁ : Store) (riso : Option IsolateReport)
    (h1 : stage_isolates pd p store₀ = .ok (sI, riso))
    (hiso2 : s₁.isolates = sI.isolates)
    (hal2 : s₁.aliquots = sI.aliquots) :
    ∃ riso₂, stage_isolates pd p s₁ = .ok (s₁, riso₂) ∧
      (riso₂.map (fun x => x.added + x.aliquots_added)).getD 0 = 0 := by
  cases hpi : p.isolates with
  | none => exact ⟨none, by simp [stage_isolates, hpi], rfl⟩
  | some df =>
    unfold stage_isolates at h1
    simp only [hpi] at h1
    cases hi : ingest_isolates pd df store₀ with
    | error e =>
      simp only [hi] at h1
      exact Except.noConfusion h1
    | ok t =>
      obtain ⟨s, r⟩ := t
      simp only [hi, Except.ok.injEq, Prod.mk.injEq] at h1
      obtain ⟨rfl, -⟩ := h1
      obtain ⟨ds, hds⟩ :=
        ingest_isolates_round2 pd df store₀ s s₁ r hi hiso2 hal2
      exact ⟨some { added := 0, aliquots_added := 0, duplicates := ds },
        by simp only [stage_isolates, hpi, hds], rfl⟩

/-- Re-running the assembly stage of a committed run stages nothing and
binds every sample id exactly as the first run did. -/
theorem stage_assemblies_round2 (p : IngestParams) (sI sA s₁ : Store)
    (rasm : Option SectionReport) (lookup₁ : Lookup)
    (h1 : stage_assemblies p sI = .ok (sA, rasm, lookup₁))
    (hasm : s₁.assemblies = sA.assemblies) :
    ∃ rasm₂ lookup₂, stage_assemblies p s₁ = .ok (s₁, rasm₂, lookup₂) ∧
      (rasm₂.map SectionReport.added).getD 0 = 0 ∧
      (∀ x, lookup_find lookup₂ x = lookup_find lookup₁ x) := by
  cases hpa : p.assemblies with
  | none =>
    unfold stage_assemblies at h1
    simp only [hpa, Except.ok.injEq, Prod.mk.injEq] at h1
    obtain ⟨-, -, hl⟩ := h1
    refine ⟨none, [], by simp [stage_assemblies, hpa], rfl, ?_⟩
    intro x
    rw [← hl]
  | some df =>
    unfold stage_assemblies at h1
    simp only [hpa] at h1
    cases hiA : ingest_assemblies df p.assemblyParams p.assembly_qcs.isNone
        p.taxonomic_assignments.isNone p.antimicrobials.isNone sI with
    | error e =>
      simp only [hiA] at h1
      exact Except.noConfusion h1
    | ok t =>
      obtain ⟨s, r, l⟩ := t
      simp only [hiA, Except.ok.injEq, Prod.mk.injEq] at h1
      obtain ⟨rfl, -, rfl⟩ := h1
      cases hsc : parse_sample_column (rename_columns df) with
      | none =>
        exfalso
        unfold ingest_assemblies at hiA
        simp only [hsc] at hiA
        exact Except.noConfusion hiA
      | some sc =>
        obtain ⟨hchar₁, hnone₁⟩ := ingest_assemblies_post df
          p.assemblyParams p.assembly_qcs.isNone
          p.taxonomic_assignments.isNone p.antimicrobials.isNone sI s r l
          sc hsc hiA
        have hhit : ∀ g ∈ group_by (fun r => r.get sc)
            (rename_columns df).rows,
            ∃ asm, existing_assembly_for s₁.assemblies
              (dedup_first id
                ((rename_columns df).rows.map (fun r => r.get sc)))
              (group_key p.assemblyParams.run_number g) = some asm := by
          intro g hg
          obtain ⟨asm, -, he⟩ := hchar₁ g hg
          exact ⟨asm, by rw [hasm]; exact he⟩
        obtain ⟨ds, lk₂, heq, hchar₂, hnone₂⟩ := ingest_assemblies_sat df
          p.assemblyParams p.assembly_qcs.isNone
          p.taxonomic_assignments.isNone p.antimicrobials.isNone s₁ sc hsc
          hhit
        refine ⟨some { added := 0, duplicates := ds }, lk₂,
          by simp only [stage_assemblies, hpa, heq], rfl, ?_⟩
        intro x
        by_cases hx : ∀ g ∈ group_by (fun r => r.get sc)
            (rename_columns df).rows, g.1 ≠ x
        · rw [hnone₂ x hx, hnone₁ x hx]
        · push_neg at hx
          obtain ⟨g, hg, hgx⟩ := hx
          subst hgx
          obtain ⟨asm₂, hf₂, he₂⟩ := hchar₂ g hg
          obtain ⟨asm₁, hf₁, he₁⟩ := hchar₁ g hg
          rw [hf₂, hf₁]
          have he₁' : existing_assembly_for s₁.assemblies
              (dedup_first id
                ((rename_columns df).rows.map (fun r => r.get sc)))
              (group_key p.assemblyParams.run_number g) = some asm₁ := by
            rw [hasm]
            exact he₁
          rw [Option.some.inj (he₂.symm.trans he₁')]

/-- Re-running the QC stage of a committed run stages nothing. -/
theorem stage_qc_round2 (p : IngestParams) (lookup₁ lookup₂ : Lookup)
    (sA sQ s₁ : Store) (rqc : Option SectionReport)
    (h1 : stage_qc p lookup₁ sA = .ok (sQ, rqc))
    (hlkeq : ∀ x, lookup_find lookup₂ x = lookup_find lookup₁ x)
    (hassm : s₁.assemblies = sQ.assemblies)
    (hqcs : s₁.assembly_qcs = sQ.assembly_qcs) :
    ∃ rqc₂, stage_qc p lookup₂ s₁ = .ok (s₁, rqc₂) ∧
      (rqc₂.map SectionReport.added).getD 0 = 0 := by
  cases hpq : p.assembly_qcs with
  | none => exact ⟨none, by simp [stage_qc, hpq], rfl⟩
  | some df =>
    unfold stage_qc at h1
    simp only [hpq] at h1
    cases hiQ : ingest_qc_records df lookup₁ p.run_number sA with
    | error e =>
      simp only [hiQ] at h1
      exact Except.noConfusion h1
    | ok t =>
      obtain ⟨s, r⟩ := t
      simp only [hiQ, Except.ok.injEq, Prod.mk.injEq] at h1
      obtain ⟨rfl, -⟩ := h1
      obtain ⟨-, hpost⟩ :=
        ingest_qc_post df lookup₁ p.run_number sA s r hiQ
      have hsat : ∀ r ∈ (rename_columns df).rows,
          lookup_assembly_id r lookup₂ s₁
            (if (rename_columns df).hasCol "SampleID" then some "SampleID"
             else none) p.run_number = .ok none ∨
          ∃ aid, lookup_assembly_id r lookup₂ s₁
              (if (rename_columns df).hasCol "SampleID" then some "SampleID"
               else none) p.run_number = .ok (some aid) ∧
            (s₁.assembly_qcs.find?
              (fun q => q.assembly_id = aid)).isSome := by
        intro r' hr'
        have hcg := lookup_assembly_id_congr2 r' lookup₂ lookup₁
          (if (rename_columns df).hasCol "SampleID" then some "SampleID"
           else none) p.run_number hlkeq hassm
        rcases hpost r' hr' with hres | ⟨aid, hres, hfind⟩
        · left
          rw [hcg, hres]
        · right
          refine ⟨aid, by rw [hcg, hres], ?_⟩
          rw [hqcs]
          exact hfind
      obtain ⟨ds, hds⟩ :=
        ingest_qc_sat df lookup₂ p.run_number s₁ hsat
      exact ⟨some { added := 0, duplicates := ds },
        by simp only [stage_qc, hpq, hds], rfl⟩

/-- Re-running the taxonomy stage of a committed run stages nothing. -/
theorem stage_tax_round2 (p : IngestParams) (lookup₁ lookup₂ : Lookup)
    (sQ sT s₁ : Store) (rtax : Option SectionReport)
    (h1 : stage_tax p lookup₁ sQ = .ok (sT, rtax))
    (hlkeq : ∀ x, lookup_find lookup₂ x = lookup_find lookup₁ x)
    (hassm : s₁.assemblies = sT.assemblies)
    (htax : s₁.taxonomic_assignments = sT.taxonomic_assignments) :
    ∃ rtax₂, stage_tax p lookup₂ s₁ = .ok (s₁, rtax₂) ∧
      (rtax₂.map SectionReport.added).getD 0 = 0 := by
  cases hpt : p.taxonomic_assignments with
  | none => exact ⟨none, by simp [stage_tax, hpt], rfl⟩
  | some df =>
    unfold stage_tax at h1
    simp only [hpt] at h1
    cases hiT : ingest_taxonomic_assignments df lookup₁ p.run_number sQ with
    | error e =>
      simp only [hiT] at h1
      exact Except.noConfusion h1
    | ok t =>
      obtain ⟨s, r⟩ := t
      simp only [hiT, Except.ok.injEq, Prod.mk.injEq] at h1
      obtain ⟨rfl, -⟩ := h1
      obtain ⟨-, hpost⟩ :=
        ingest_tax_post df lookup₁ p.run_number sQ s r hiT
      have hsat : ∀ r ∈ (rename_columns df).rows,
          lookup_assembly_id r lookup₂ s₁
            (if (rename_columns df).hasCol "SampleID" then some "SampleID"
             else none) p.run_number = .ok none ∨
          ∃ aid, lookup_assembly_id r lookup₂ s₁
              (if (rename_columns df).hasCol "SampleID" then some "SampleID"
               else none) p.run_number = .ok (some aid) ∧
            (s₁.taxonomic_assignments.find? (fun t =>
              t.assembly_id == aid && t.taxonomic_classification ==
                r.get "taxonomic_classification")).isSome := by
        intro r' hr'
        have hcg := lookup_assembly_id_congr2 r' lookup₂ lookup₁
          (if (rename_columns df).hasCol "SampleID" then some "SampleID"
           else none) p.run_number hlkeq hassm
        rcases hpost r' hr' with hres | ⟨aid, hres, hfind⟩
        · left
          rw [hcg, hres]
        · right
          refine ⟨aid, by rw [hcg, hres], ?_⟩
          rw [htax]
          exact hfind
      obtain ⟨ds, hds⟩ :=
        ingest_tax_sat df lookup₂ p.run_number s₁ hsat
      exact ⟨some { added := 0, duplicates := ds },
        by simp only [stage_tax, hpt, hds], rfl⟩

/-- The assembly stage leaves isolates, aliquots and contaminants
untouched. -/
theorem stage_assemblies_frame (p : IngestParams) (s s' : Store)
    (r : Option SectionReport) (l : Lookup)
    (h : stage_assemblies p s = .ok (s', r, l)) :
    s'.isolates = s.isolates ∧ s'.aliquots = s.aliquots ∧
    s'.contaminants = s.contaminants := by
  unfold stage_assemblies at h
  cases hpa : p.assemblies with
  | none =>
    simp only [hpa, Except.ok.injEq, Prod.mk.injEq] at h
    obtain ⟨rfl, -⟩ := h
    exact ⟨rfl, rfl, rfl⟩
  | some df =>
    simp only [hpa] at h
    cases hiA : ingest_assemblies df p.assemblyParams p.assembly_qcs.isNone
        p.taxonomic_assignments.isNone p.antimicrobials.isNone s with
    | error e =>
      simp only [hiA] at h
      exact Except.noConfusion h
    | ok t =>
      obtain ⟨s2, r2, l2⟩ := t
      simp only [hiA, Except.ok.injEq, Prod.mk.injEq] at h
      obtain ⟨rfl, -⟩ := h
      exact ingest_assemblies_frame df p.assemblyParams _ _ _ s s2 r2 l2 hiA

/-- The QC stage only appends QC records. -/
theorem stage_qc_frame (p : IngestParams) (lookup : Lookup) (s s' : Store)
    (r : Option SectionReport)
    (h : stage_qc p lookup s = .ok (s', r)) :
    ∃ L, s' = { s with assembly_qcs := s.assembly_qcs ++ L } := by
  unfold stage_qc at h
  cases hpq : p.assembly_qcs with
  | none =>
    simp only [hpq, Except.ok.injEq, Prod.mk.injEq] at h
    obtain ⟨rfl, -⟩ := h
    exact ⟨[], by simp⟩
  | some df =>
    simp only [hpq] at h
    cases hiQ : ingest_qc_records df lookup p.run_number s with
    | error e =>
      simp only [hiQ] at h
      exact Except.noConfusion h
    | ok t =>
      obtain ⟨s2, r2⟩ := t
      simp only [hiQ, Except.ok.injEq, Prod.mk.injEq] at h
      obtain ⟨rfl, -⟩ := h
      exact (ingest_qc_post df lookup p.run_number s s2 r2 hiQ).1

/-- The taxonomy stage only appends taxonomic assignments. -/
theorem stage_tax_frame (p : IngestParams) (lookup : Lookup) (s s' : Store)
    (r : Option SectionReport)
    (h : stage_tax p lookup s = .ok (s', r)) :
    ∃ L, s' = { s with taxonomic_assignments :=
      s.taxonomic_assignments ++ L } := by
  unfold stage_tax at h
  cases hpt : p.taxonomic_assignments with
  | none =>
    simp only [hpt, Except.ok.injEq, Prod.mk.injEq] at h
    obtain ⟨rfl, -⟩ := h
    exact ⟨[], by simp⟩
  | some df =>
    simp only [hpt] at h
    cases hiT : ingest_taxonomic_assignments df lookup p.run_number s with
    | error e =>
      simp only [hiT] at h
      exact Except.noConfusion h
    | ok t =>
      obtain ⟨s2, r2⟩ := t
      simp only [hiT, Except.ok.injEq, Prod.mk.injEq] at h
      obtain ⟨rfl, -⟩ := h
      exact (ingest_tax_post df lookup p.run_number s s2 r2 hiT).1

/-- Claim C2 (amended): with no contaminants file and no antimicrobials
file in the batch, a confirmed ingestion is idempotent — running the same
batch a second time against the committed store commits the store exactly
unchanged, with a report of zero additions.  With a contaminants or
antimicrobials file the property fails, because the standalone loops
deduplicate in-batch only (see the counterexample). -/
theorem c2_idempotence_without_cont_amr (pd : Cell → Cell)
    (p : IngestParams) (store₀ s₁ : Store) (rep₁ : Report)
    (hc : p.contaminants = none) (ha : p.antimicrobials = none)
    (hrun1 : ingest_from_tsvs pd p store₀ = .committed s₁ rep₁) :
    ∃ rep₂, ingest_from_tsvs pd p s₁ = .committed s₁ rep₂ ∧
      rep₂.totalAdded = 0 := by
  unfold ingest_from_tsvs at hrun1
  cases hall : stage_all pd p store₀ with
  | error e =>
    simp only [hall] at hrun1
    exact IngestOutcome.noConfusion hrun1
  | ok t =>
    obtain ⟨staged, report⟩ := t
    simp only [hall] at hrun1
    by_cases hpr : proceeds p = true
    · rw [if_pos hpr] at hrun1
      injection hrun1 with h1 h2
      subst h1
      subst h2
      unfold stage_all at hall
      cases hI : stage_isolates pd p store₀ with
      | error e =>
        simp only [hI] at hall
        exact Except.noConfusion hall
      | ok tI =>
        obtain ⟨sI, riso⟩ := tI
        simp only [hI] at hall
        cases hA : stage_assemblies p sI with
        | error e =>
          simp only [hA] at hall
          exact Except.noConfusion hall
        | ok tA =>
          obtain ⟨sA, rasm, lookup₁⟩ := tA
          simp only [hA] at hall
          cases hQ : stage_qc p lookup₁ sA with
          | error e =>
            simp only [hQ] at hall
            exact Except.noConfusion hall
          | ok tQ =>
            obtain ⟨sQ, rqc⟩ := tQ
            simp only [hQ] at hall
            cases hT : stage_tax p lookup₁ sQ with
            | error e =>
              simp only [hT] at hall
              exact Except.noConfusion hall
            | ok tT =>
              obtain ⟨sT, rtax⟩ := tT
              simp only [hT, stage_contaminants, hc, stage_amr, ha,
                Except.ok.injEq, Prod.mk.injEq] at hall
              obtain ⟨rfl, -⟩ := hall
              obtain ⟨LT, hLT⟩ := stage_tax_frame p lookup₁ sQ sT rtax hT
              obtain ⟨LQ, hLQ⟩ := stage_qc_frame p lookup₁ sA sQ rqc hQ
              obtain ⟨hAi, hAa, -⟩ :=
                stage_assemblies_frame p sI sA rasm lookup₁ hA
              have t1i : sT.isolates = sQ.isolates := by rw [hLT]
              have t1a : sT.aliquots = sQ.aliquots := by rw [hLT]
              have t1m : sT.assemblies = sQ.assemblies := by rw [hLT]
              have t1q : sT.assembly_qcs = sQ.assembly_qcs := by rw [hLT]
              have t2i : sQ.isolates = sA.isolates := by rw [hLQ]
              have t2a : sQ.aliquots = sA.aliquots := by rw [hLQ]
              have t2m : sQ.assemblies = sA.assemblies := by rw [hLQ]
              have e_iso : sT.isolates = sI.isolates :=
                (t1i.trans t2i).trans hAi
              have e_al : sT.aliquots = sI.aliquots :=
                (t1a.trans t2a).trans hAa
              have e_asmA : sT.assemblies = sA.assemblies :=
                t1m.trans t2m
              obtain ⟨riso₂, hI₂, hIadd⟩ :=
                stage_isolates_round2 pd p store₀ sI sT riso hI e_iso e_al
              obtain ⟨rasm₂, lookup₂, hA₂, hAadd, hlkeq⟩ :=
                stage_assemblies_round2 p sI sA sT rasm lookup₁ hA e_asmA
              obtain ⟨rqc₂, hQ₂, hQadd⟩ :=
                stage_qc_round2 p lookup₁ lookup₂ sA sQ sT rqc hQ hlkeq
                  t1m t1q
              obtain ⟨rtax₂, hT₂, hTadd⟩ :=
                stage_tax_round2 p lookup₁ lookup₂ sQ sT sT rtax hT hlkeq
                  rfl rfl
              refine ⟨⟨riso₂, rasm₂, rqc₂, rtax₂, none, none⟩, ?_, ?_⟩
              · unfold ingest_from_tsvs
                have hall₂ : stage_all pd p sT =
                    .ok (sT, ⟨riso₂, rasm₂, rqc₂, rtax₂, none, none⟩) := by
                  unfold stage_all
                  simp only [hI₂, hA₂, hQ₂, hT₂, stage_contaminants, hc,
                    stage_amr, ha]
                simp only [hall₂]
                rw [if_pos hpr]
              · simp only [Report.totalAdded] at hIadd hAadd hQadd hTadd ⊢
                simp [hIadd, hAadd, hQadd, hTadd]
    · rw [if_neg hpr] at hrun1
      exact IngestOutcome.noConfusion hrun1

/-- Counterexample to C2 as stated: two confirmed runs of the same
antimicrobial batch.  The first commits one AMR record; the second run —
same batch, same store state the claim quantifies over — commits a second
identical record and reports one addition, not zero, because
`_ingest_amr_records` deduplicates only within the batch. -/
theorem c2_counterexample :
    ingest_from_tsvs id c2_params one_assembly_store =
      .committed c2_store1
        { Report.empty with
          antimicrobials := some { added := 1, duplicates := [] } } ∧
    ingest_from_tsvs id c2_params c2_store1 =
      .committed { c2_store1 with antimicrobials := [c2_amr1, c2_amr1] }
        { Report.empty with
          antimicrobials := some { added := 1, duplicates := [] } } ∧
    ({ c2_store1 with antimicrobials := [c2_amr1, c2_amr1] } : Store) ≠
      c2_store1 ∧
    ({ Report.empty with
      antimicrobials := some { added := 1, duplicates := [] } } :
        Report).totalAdded = 1 :=
  ⟨by decide, by decide, by decide, by decide⟩

/-- Concrete instantiation of the amended C2: a confirmed run over an
isolate batch and an assembly batch (with an embedded QC value) commits
`c2w_store1`; re-running the identical batch against `c2w_store1` leaves
the store exactly unchanged. -/
theorem c2_idempotence_without_cont_amr_witness :
    c2w_params.contaminants = none ∧
    c2w_params.antimicrobials = none ∧
    ingest_from_tsvs id c2w_params Store.empty =
      .committed c2w_store1 c2w_rep1 ∧
    (ingest_from_tsvs id c2w_params c2w_store1).store = c2w_store1 :=
  ⟨by decide, by decide, by decide, by
    obtain ⟨rep₂, heq, -⟩ := c2_idempotence_without_cont_amr id c2w_params
      Store.empty c2w_store1 c2w_rep1 (by decide) (by decide) (by decide)
    rw [heq]
    rfl⟩

end MarcDb
